import Mathlib

/-!
# Verification of the `MessageWidget` reflective form-generation engine

This development gives a shallow embedding of `src/MessageWidget.cc` from the
ign-gui repository: the protobuf message model seen through the reflection
API used by the code, the property-widget tree with its registry of
`::`-scoped names, and the two synchronization walks `Parse` (message to
widgets) and `UpdateMsg` (widgets to message), together with the public
name-based accessors.

Modelling conventions:
* protobuf messages are modelled by `PMsg`: a field carries its name, type,
  `is_repeated` flag, has-bit and value; getters are presence-aware
  (an unset field reads as its default), and `MutableMessage` marks the
  field present, returning a default-initialized submessage when it was
  unset, exactly as the protobuf generated API does;
* doubles and floats are modelled by `ℚ` (the walks only copy, halve and
  double them; NaN/rounding behaviour of IEEE floats is outside the model);
* Qt value cells (spin boxes, line edits, combo boxes) are modelled as
  perfect cells holding the value written into them, except that the
  integer `QSpinBox` ranges set in this file (`setRange(-1e8, 1e8)` and
  `setRange(0, 1e8)`) are modelled as clamps, and the C++ narrowing
  conversions from 64-bit field values to the `int` parameters of
  `UpdateIntWidget`/`UpdateUIntWidget` are modelled as wrap-around;
* the Euler-angle/quaternion conversions of the external math library are
  abstracted as parameters (`MathImpl`); theorems quantify over them.
-/

namespace IgnGui

/-- The protobuf field types distinguished by the `switch` statements of
`MessageWidget::Parse` and `MessageWidget::UpdateMsg`; `tOther` stands for
every type handled by their `default:` branch. -/
inductive FType where
  | tDouble | tFloat | tInt64 | tUInt64 | tInt32 | tUInt32
  | tBool | tString | tMessage | tEnum | tOther
deriving DecidableEq, Repr

mutual

/-- The value stored in a message field slot.  `enum` keeps the current
value name together with the list of all value names of the enum
descriptor; `msg` holds a submessage. -/
inductive PValue where
  | num (x : ℚ)
  | int (x : ℤ)
  | bool (b : Bool)
  | str (s : String)
  | enum (cur : String) (all : List String)
  | msg (m : PMsg)
  | unset
deriving DecidableEq, Repr

/-- One message field: name, type, `is_repeated` flag, has-bit, value. -/
inductive PField where
  | mk (name : String) (ftype : FType) (isRep : Bool) (hasF : Bool)
      (val : PValue)
deriving DecidableEq, Repr

/-- A list of fields (a custom list keeps all recursion structural). -/
inductive PFieldList where
  | nil
  | cons (f : PField) (t : PFieldList)
deriving DecidableEq, Repr

/-- A message: the descriptor's type name and the ordered field list. -/
inductive PMsg where
  | mk (typeName : String) (fields : PFieldList)
deriving DecidableEq, Repr

end

namespace PField

def name : PField → String | .mk n _ _ _ _ => n
def ftype : PField → FType | .mk _ t _ _ _ => t
def isRep : PField → Bool | .mk _ _ r _ _ => r
def hasF : PField → Bool | .mk _ _ _ h _ => h
def val : PField → PValue | .mk _ _ _ _ v => v

end PField

namespace PMsg

def typeName : PMsg → String | .mk n _ => n
def fields : PMsg → PFieldList | .mk _ fs => fs

end PMsg

namespace PFieldList

def toList : PFieldList → List PField
  | .nil => []
  | .cons f t => f :: toList t

def get? : PFieldList → ℕ → Option PField
  | .nil, _ => none
  | .cons f _, 0 => some f
  | .cons _ t, n+1 => get? t n

def length : PFieldList → ℕ
  | .nil => 0
  | .cons _ t => length t + 1

/-- Models `Descriptor::FindFieldByName`: the first field with the given name. -/
def findByName : PFieldList → String → Option PField
  | .nil, _ => none
  | .cons f t, n => if f.name = n then some f else findByName t n

/-- Replace the field at index `i` (no-op when out of range). -/
def setAt : PFieldList → ℕ → PField → PFieldList
  | .nil, _, _ => .nil
  | .cons _ t, 0, f' => .cons f' t
  | .cons f t, n+1, f' => .cons f (setAt t n f')

/-- Apply `g` to the first field with the given name. -/
def modifyNamed : PFieldList → String → (PField → PField) → PFieldList
  | .nil, _, _ => .nil
  | .cons f t, n, g =>
      if f.name = n then .cons (g f) t else .cons f (modifyNamed t n g)

/-- Apply `g` to the field at index `i`. -/
def modifyAt : PFieldList → ℕ → (PField → PField) → PFieldList
  | .nil, _, _ => .nil
  | .cons f t, 0, g => .cons (g f) t
  | .cons f t, n+1, g => .cons f (modifyAt t n g)

end PFieldList

/-! ## Presence-aware reflection getters

The protobuf generated `GetDouble`/`GetInt64`/… return the field's default
value when the has-bit is clear; `GetEnum` returns the descriptor of the
default (first declared) enum value. -/

namespace PValue

def numD : PValue → ℚ | .num x => x | _ => 0
def intD : PValue → ℤ | .int x => x | _ => 0
def boolD : PValue → Bool | .bool b => b | _ => false
def strD : PValue → String | .str s => s | _ => ""
def enumCur : PValue → String | .enum c _ => c | _ => ""
def enumAll : PValue → List String | .enum _ a => a | _ => []
def msgD : PValue → PMsg | .msg m => m | _ => .mk "" .nil
def isMsg : PValue → Bool | .msg _ => true | _ => false

end PValue

namespace PField

/-- Models `Reflection::GetDouble` / `GetFloat` (both land in the `num` slot). -/
def getNum (f : PField) : ℚ := if f.hasF then f.val.numD else 0

/-- Models `GetInt32` / `GetInt64` / `GetUInt32` / `GetUInt64`. -/
def getInt (f : PField) : ℤ := if f.hasF then f.val.intD else 0

/-- Models `Reflection::GetBool`. -/
def getBool (f : PField) : Bool := if f.hasF then f.val.boolD else false

/-- Models `Reflection::GetString`. -/
def getStr (f : PField) : String := if f.hasF then f.val.strD else ""

/-- The name of `Reflection::GetEnum`'s result: the current value when the
field is set, the first declared value of the enum otherwise. -/
def getEnum (f : PField) : String :=
  if f.hasF then f.val.enumCur else f.val.enumAll.headD ""

/-- The names of all values of the field's enum descriptor. -/
def enumNames (f : PField) : List String := f.val.enumAll

/-- The name of the field's message type, `field->message_type()->name()`. -/
def msgTypeName (f : PField) : String := f.val.msgD.typeName

/-- Presence-marking setters of the generated API (`SetDouble`, …). -/
def setNum (f : PField) (x : ℚ) : PField :=
  .mk f.name f.ftype f.isRep true (.num x)

def setInt (f : PField) (x : ℤ) : PField :=
  .mk f.name f.ftype f.isRep true (.int x)

def setBool (f : PField) (b : Bool) : PField :=
  .mk f.name f.ftype f.isRep true (.bool b)

def setStr (f : PField) (s : String) : PField :=
  .mk f.name f.ftype f.isRep true (.str s)

/-- Models `Reflection::SetEnum` with the value descriptor found by name. -/
def setEnum (f : PField) (c : String) : PField :=
  .mk f.name f.ftype f.isRep true (.enum c f.val.enumAll)

def setMsg (f : PField) (m : PMsg) : PField :=
  .mk f.name f.ftype f.isRep true (.msg m)

end PField

/-! ## Default-clearing and `MutableMessage` -/

mutual

/-- The default value of a slot: numbers 0, strings empty, enums at their
first declared value, submessages recursively cleared. -/
def PValue.defaultV : PValue → PValue
  | .num _ => .num 0
  | .int _ => .int 0
  | .bool _ => .bool false
  | .str _ => .str ""
  | .enum _ all => .enum (all.headD "") all
  | .msg m => .msg m.defaultM
  | .unset => .unset

def PField.defaultF : PField → PField
  | .mk n t r _ v => .mk n t r false v.defaultV

def PFieldList.defaultL : PFieldList → PFieldList
  | .nil => .nil
  | .cons f t => .cons f.defaultF t.defaultL

/-- A default-initialized message of the same schema. -/
def PMsg.defaultM : PMsg → PMsg
  | .mk n fs => .mk n fs.defaultL

end

mutual

/-- Well-formedness: an unset slot holds its default content (in the real
generated message classes an unset field always reads back as a
default-initialized member, so every message reachable through the
protobuf API satisfies this), and submessages are recursively well
formed. -/
def PValue.wfV : PValue → Bool
  | .msg m => m.wfM
  | _ => true

def PField.wfF : PField → Bool
  | .mk _ _ _ h v => (h || decide (v = v.defaultV)) && v.wfV

def PFieldList.wfL : PFieldList → Bool
  | .nil => true
  | .cons f t => f.wfF && t.wfL

def PMsg.wfM : PMsg → Bool
  | .mk _ fs => fs.wfL

end

/-- Models `Reflection::MutableMessage(msg, field)`: sets the has-bit and
returns the stored submessage.  (For an unset field the real call returns a
default-initialized submessage; under `wfM` the stored slot already holds
exactly that content, so returning the slot is the same message.) -/
def PField.mutableMsg (f : PField) : PMsg × PField :=
  match f.val with
  | .msg m => (m, .mk f.name f.ftype f.isRep true (.msg m))
  | _ => (.mk "" .nil, f)

/-! ## Small value bundles for the composite widgets -/

structure Vec3 where
  x : ℚ
  y : ℚ
  z : ℚ
deriving DecidableEq, Repr

structure Color4 where
  r : ℚ
  g : ℚ
  b : ℚ
  a : ℚ
deriving DecidableEq, Repr

/-- Quaternion components as stored in a `Quaternion` message
(fields 0..3 are x, y, z, w). -/
structure Quat4 where
  qx : ℚ
  qy : ℚ
  qz : ℚ
  qw : ℚ
deriving DecidableEq, Repr

/-- Position plus Euler angles: `math::Pose3d` as the widget sees it: position plus Euler angles. -/
structure PoseVals where
  px : ℚ
  py : ℚ
  pz : ℚ
  roll : ℚ
  pitch : ℚ
  yaw : ℚ
deriving DecidableEq, Repr

/-- The Euler/quaternion conversions live in the external `ignition::math`
library; the development is parameterized over them. -/
structure MathImpl where
  eulerToQuat : ℚ → ℚ → ℚ → Quat4
  quatToEuler : Quat4 → ℚ × ℚ × ℚ

/-- A trivial executable instantiation used by concrete witnesses. -/
def dummyMath : MathImpl where
  eulerToQuat r p y := ⟨r, p, y, 1⟩
  quatToEuler q := (q.qx, q.qy, q.qz)

/-! ## Property widgets

The state of one registered `PropertyWidget`: the values of
the Qt input widgets in its `widgets` vector.  `boolW` models the
`BoolWidget` class, whose source is outside this repository: from its use
here (`SetValue`, `Value`, `widgets[0]` is a `QRadioButton` whose checked
state is the value) it is a single boolean cell.  `groupChild` is the plain
`PropertyWidget` wrapper created for a generic nested-message field. -/
inductive PWidget where
  | intW (v : ℤ)
  | uintW (v : ℤ)
  | doubleW (v : ℚ)
  | boolW (v : Bool)
  | stringW (multiline : Bool) (v : String)
  | vec3W (x y z : ℚ) (preset : ℕ)
  | colorW (r g b a : ℚ)
  | poseW (p : PoseVals)
  | geomW (idx : ℕ) (sx sy sz radius len : ℚ) (uri : String)
  | enumW (items : List String) (idx : ℕ)
  | densityW (d : ℚ)
  | groupChild
deriving DecidableEq, Repr

namespace PWidget

/-- The length of the widget's `widgets` vector, as filled in by the
`Create*Widget` functions (`boolW`: two radio buttons, from the missing
`BoolWidget` source). -/
def widgetsSize : PWidget → ℕ
  | .intW _ => 1
  | .uintW _ => 1
  | .doubleW _ => 1
  | .boolW _ => 2
  | .stringW _ _ => 1
  | .vec3W _ _ _ _ => 4
  | .colorW _ _ _ _ => 4
  | .poseW _ => 6
  | .geomW _ _ _ _ _ _ _ => 8
  | .enumW _ _ => 1
  | .densityW _ => 2
  | .groupChild => 1

end PWidget

/-- Models the `QSpinBox::setValue` clamp for the range `setRange(-1e8, 1e8)` of
`CreateIntWidget`. -/
def spinClampSigned (v : ℤ) : ℤ := max (-100000000) (min 100000000 v)

/-- Models the `QSpinBox::setValue` clamp for the range `setRange(0, 1e8)` of
`CreateUIntWidget`. -/
def spinClampUnsigned (v : ℤ) : ℤ := max 0 (min 100000000 v)

/-- Models the `QDoubleSpinBox::setValue` clamp for the `setRange(0, 1.0)` colour
channels of `CreateColorWidget`. -/
def clamp01 (v : ℚ) : ℚ := max 0 (min 1 v)

/-- Two's-complement wrap of an integer into the `int` range, the narrowing
conversion applied when a 64-bit field value is passed to the `int`/
`unsigned int` parameters of the widget updaters. -/
def wrap32 (v : ℤ) : ℤ := (v + 2 ^ 31) % 2 ^ 32 - 2 ^ 31

/-- Reduction to `unsigned int`, for `uint64 → unsigned int` narrowing. -/
def toUnsigned32 (v : ℤ) : ℤ := v % 2 ^ 32

/-- Models `QComboBox::findText` (exact, case-sensitive match): the index of the
first item equal to `s`. -/
def findTextIdx : List String → String → Option ℕ
  | [], _ => none
  | i :: t, s =>
      if i = s then some 0 else (findTextIdx t s).map (· + 1)

/-- The items of the geometry type combo box, in the order
`CreateGeometryWidget` adds them. -/
def geomItems : List String := ["box", "cylinder", "sphere", "mesh", "polyline"]

/-! ## The widget-level updaters and readers

These transcribe `MessageWidget::Update*Widget` and the private
`MessageWidget::*WidgetValue(PropertyWidget *)` overloads.  Where the C++
dereferences a failed `qobject_cast` (calling a widget updater on a widget
of the wrong kind), the behaviour is undefined; the model returns failure
without changing the widget, and the theorems below never rely on those
cases. -/

namespace PWidget

/-- Transcribes `MessageWidget::UpdateIntWidget`.  The `widgets[0]` of both
int and uint widgets is a `QSpinBox`, so both accept the cast; the value is
clamped to the respective range. -/
def updateIntWidget : PWidget → ℤ → Bool × PWidget
  | .intW _, v => (true, .intW (spinClampSigned v))
  | .uintW _, v => (true, .uintW (spinClampUnsigned v))
  | w, _ => (false, w)

/-- Transcribes `MessageWidget::UpdateUIntWidget`; the `unsigned int`
argument passes through `setValue(int)`. -/
def updateUIntWidget : PWidget → ℕ → Bool × PWidget
  | .intW _, v => (true, .intW (spinClampSigned (wrap32 v)))
  | .uintW _, v => (true, .uintW (spinClampUnsigned (wrap32 v)))
  | w, _ => (false, w)

/-- Transcribes `MessageWidget::UpdateDoubleWidget` (the unit label update
is display-only and not modelled). -/
def updateDoubleWidget : PWidget → ℚ → Bool × PWidget
  | .doubleW _, v => (true, .doubleW v)
  | w, _ => (false, w)

/-- Transcribes `MessageWidget::UpdateStringWidget`. -/
def updateStringWidget : PWidget → String → Bool × PWidget
  | .stringW k _, v => (true, .stringW k v)
  | w, _ => (false, w)

/-- Models `BoolWidget::SetValue` (source outside this repository): the
radio buttons take the given value. -/
def boolSetValue : PWidget → Bool → Bool × PWidget
  | .boolW _, v => (true, .boolW v)
  | w, _ => (false, w)

/-- The preset combo index `UpdateVector3dWidget` computes from the vector. -/
def presetOf (x y z : ℚ) : ℕ :=
  if x = 1 ∧ y = 0 ∧ z = 0 then 1
  else if x = -1 ∧ y = 0 ∧ z = 0 then 2
  else if x = 0 ∧ y = 1 ∧ z = 0 then 3
  else if x = 0 ∧ y = -1 ∧ z = 0 then 4
  else if x = 0 ∧ y = 0 ∧ z = 1 then 5
  else if x = 0 ∧ y = 0 ∧ z = -1 then 6
  else 0

/-- Transcribes `MessageWidget::UpdateVector3dWidget`. -/
def updateVector3dWidget : PWidget → Vec3 → Bool × PWidget
  | .vec3W _ _ _ _, v => (true, .vec3W v.x v.y v.z (presetOf v.x v.y v.z))
  | w, _ => (false, w)

/-- Transcribes `MessageWidget::UpdateColorWidget`; each channel spin box
has range `[0, 1]`. -/
def updateColorWidget : PWidget → Color4 → Bool × PWidget
  | .colorW _ _ _ _, c =>
      (true, .colorW (clamp01 c.r) (clamp01 c.g) (clamp01 c.b) (clamp01 c.a))
  | w, _ => (false, w)

/-- Transcribes `MessageWidget::UpdatePoseWidget`. -/
def updatePoseWidget : PWidget → PoseVals → Bool × PWidget
  | .poseW _, p => (true, .poseW p)
  | w, _ => (false, w)

/-- Transcribes `MessageWidget::UpdateGeometryWidget`: unknown type strings
are rejected; box/mesh set the three size spins, cylinder sets radius to
half of X and length to Z, sphere sets radius to half of X, polyline sets
no dimensions; mesh also sets the uri line edit. -/
def updateGeometryWidget :
    PWidget → String → Vec3 → String → Bool × PWidget
  | .geomW idx sx sy sz r l u, v, dims, uri =>
      match findTextIdx geomItems v with
      | none => (false, .geomW idx sx sy sz r l u)
      | some i =>
          let isMesh := v = "mesh"
          let (sx', sy', sz') :=
            if v = "box" ∨ isMesh then (dims.x, dims.y, dims.z)
            else (sx, sy, sz)
          let r' := if v = "cylinder" ∨ v = "sphere" then dims.x * (1/2) else r
          let l' := if v = "cylinder" then dims.z else l
          let u' := if isMesh then uri else u
          (true, .geomW i sx' sy' sz' r' l' u')
  | w, _, _, _ => (false, w)

/-- Transcribes `MessageWidget::UpdateEnumWidget`. -/
def updateEnumWidget : PWidget → String → Bool × PWidget
  | .enumW items idx, v =>
      match findTextIdx items v with
      | none => (false, .enumW items idx)
      | some i => (true, .enumW items i)
  | w, _ => (false, w)

/-- Transcribes `MessageWidget::UpdateDensityWidget`, which calls
`DensityWidget::SetDensity` (both in this file). -/
def updateDensityWidget : PWidget → ℚ → Bool × PWidget
  | .densityW _, v => (true, .densityW v)
  | w, _ => (false, w)

/-- Transcribes the private `MessageWidget::IntWidgetValue`. -/
def intWidgetValue : PWidget → ℤ
  | .intW v => v
  | .uintW v => v
  | _ => 0

/-- Transcribes the private `MessageWidget::UIntWidgetValue`; the spin
box's `int` value converts to `unsigned int`. -/
def uintWidgetValue : PWidget → ℕ
  | .intW v => (toUnsigned32 v).toNat
  | .uintW v => (toUnsigned32 v).toNat
  | _ => 0

/-- Transcribes the private `MessageWidget::DoubleWidgetValue`. -/
def doubleWidgetValue : PWidget → ℚ
  | .doubleW v => v
  | _ => 0

/-- Models `BoolWidget::Value` (source outside this repository). -/
def boolValue : PWidget → Bool
  | .boolW v => v
  | _ => false

/-- Transcribes the private `MessageWidget::StringWidgetValue`. -/
def stringWidgetValue : PWidget → String
  | .stringW _ v => v
  | _ => ""

/-- Transcribes the private `MessageWidget::Vector3dWidgetValue`.  A colour
widget also has double spin boxes at indices 0..2, so the casts succeed
there too, exactly as in the C++. -/
def vector3dWidgetValue : PWidget → Vec3
  | .vec3W x y z _ => ⟨x, y, z⟩
  | .colorW r g b _ => ⟨r, g, b⟩
  | _ => ⟨0, 0, 0⟩

/-- Transcribes the private `MessageWidget::ColorWidgetValue` (a
default-constructed `math::Color` is (0, 0, 0, 1)). -/
def colorWidgetValue : PWidget → Color4
  | .colorW r g b a => ⟨r, g, b, a⟩
  | _ => ⟨0, 0, 0, 1⟩

/-- Transcribes the private `MessageWidget::PoseWidgetValue`. -/
def poseWidgetValue : PWidget → PoseVals
  | .poseW p => p
  | _ => ⟨0, 0, 0, 0, 0, 0⟩

/-- Transcribes the private `MessageWidget::GeometryWidgetValue`.  The
dimension and uri arguments are in-out reference parameters in the C++;
branches that do not write them return the caller's values. -/
def geometryWidgetValue :
    PWidget → Vec3 → String → String × Vec3 × String
  | .geomW idx sx sy sz r l u, dimsIn, uriIn =>
      let v := geomItems.getD idx ""
      let isMesh := v = "mesh"
      let dims :=
        if v = "box" ∨ isMesh then Vec3.mk sx sy sz
        else if v = "cylinder" then Vec3.mk (r * 2) (r * 2) l
        else if v = "sphere" then Vec3.mk (r * 2) (r * 2) (r * 2)
        else dimsIn
      let uri := if isMesh then u else uriIn
      (v, dims, uri)
  | _, dimsIn, uriIn => ("", dimsIn, uriIn)

/-- Transcribes the private `MessageWidget::EnumWidgetValue`. -/
def enumWidgetValue : PWidget → String
  | .enumW items idx => items.getD idx ""
  | _ => ""

/-- Models `DensityWidget::Density` through the `qobject_cast` used by
`MessageWidget::DensityWidgetValue`. -/
def densityValue : PWidget → ℚ
  | .densityW d => d
  | _ => 0

end PWidget

/-! ## The widget registry

`configWidgets` maps unique scoped names to `PropertyWidget *`.  A stored
entry keeps the widget's `scopedName` member (set by `AddPropertyWidget`),
an allocation identity (so that "the same widget object" is expressible),
the enabled/visible bits driven by `SetWidgetReadOnly`/`SetWidgetVisible`,
and the widget state. -/

structure StoredW where
  scopedName : String
  id : ℕ
  readOnly : Bool
  visible : Bool
  w : PWidget
deriving DecidableEq, Repr

/-- The `MessageWidgetPrivate` data: the scoped-name registry plus a
fresh-identity counter for newly created widgets. -/
structure WState where
  entries : List (String × StoredW)
  nextId : ℕ
deriving DecidableEq, Repr

namespace WState

/-- Models `configWidgets.find(name)`. -/
def lookupW (s : WState) (n : String) : Option StoredW :=
  (s.entries.find? (fun p => p.1 = n)).map (·.2)

/-- Transcribes `MessageWidget::AddPropertyWidget`: an empty name, a null
child or an already-registered name is rejected; otherwise the widget's
`scopedName` is set to the key and the binding is inserted. -/
def addPropertyWidget (s : WState) (n : String) (child : Option (ℕ × PWidget)) :
    Bool × WState :=
  match child with
  | none => (false, s)
  | some (i, w) =>
      if n = "" then (false, s)
      else if (s.lookupW n).isSome then (false, s)
      else (true,
        { s with entries :=
            s.entries ++ [(n, ⟨n, i, false, true, w⟩)] })

/-- Update the widget state stored under a name, in place. -/
def setWidgetAt (s : WState) (n : String) (w : PWidget) : WState :=
  { s with entries :=
      s.entries.map (fun p => if p.1 = n then (p.1, { p.2 with w := w }) else p) }

/-- Transcribes `MessageWidget::PropertyWidgetCount`. -/
def propertyWidgetCount (s : WState) : ℕ := s.entries.length

/-- Transcribes `MessageWidget::WidgetVisible` (the group widget of a
grouped entry and the entry itself are shown/hidden together, so one bit
stands for both paths). -/
def widgetVisible (s : WState) (n : String) : Bool :=
  match s.lookupW n with
  | some st => st.visible
  | none => false

/-- Transcribes `MessageWidget::SetWidgetVisible`. -/
def setWidgetVisible (s : WState) (n : String) (v : Bool) : WState :=
  { s with entries :=
      s.entries.map (fun p =>
        if p.1 = n then (p.1, { p.2 with visible := v }) else p) }

/-- Transcribes `MessageWidget::WidgetReadOnly`. -/
def widgetReadOnly (s : WState) (n : String) : Bool :=
  match s.lookupW n with
  | some st => st.readOnly
  | none => false

/-- Transcribes `MessageWidget::SetWidgetReadOnly` (a group widget and all
its children are enabled/disabled together). -/
def setWidgetReadOnly (s : WState) (n : String) (ro : Bool) : WState :=
  { s with entries :=
      s.entries.map (fun p =>
        if p.1 = n then (p.1, { p.2 with readOnly := ro }) else p) }

/-- The common shape of the name-based setters
(`MessageWidget::SetIntWidgetValue` and friends): look the name up and run
the widget updater on the stored widget. -/
def setViaUpdater (s : WState) (n : String) (upd : PWidget → Bool × PWidget) :
    Bool × WState :=
  match s.lookupW n with
  | none => (false, s)
  | some st =>
      let (ok, w') := upd st.w
      (ok, s.setWidgetAt n w')

def setIntWidgetValue (s : WState) (n : String) (v : ℤ) : Bool × WState :=
  s.setViaUpdater n (fun w => w.updateIntWidget v)

def setUIntWidgetValue (s : WState) (n : String) (v : ℕ) : Bool × WState :=
  s.setViaUpdater n (fun w => w.updateUIntWidget v)

def setDoubleWidgetValue (s : WState) (n : String) (v : ℚ) : Bool × WState :=
  s.setViaUpdater n (fun w => w.updateDoubleWidget v)

/-- Transcribes `MessageWidget::SetBoolWidgetValue` (lookup, cast to
`BoolWidget`, `SetValue`). -/
def setBoolWidgetValue (s : WState) (n : String) (v : Bool) : Bool × WState :=
  s.setViaUpdater n (fun w => w.boolSetValue v)

def setStringWidgetValue (s : WState) (n : String) (v : String) : Bool × WState :=
  s.setViaUpdater n (fun w => w.updateStringWidget v)

def setVector3dWidgetValue (s : WState) (n : String) (v : Vec3) : Bool × WState :=
  s.setViaUpdater n (fun w => w.updateVector3dWidget v)

def setColorWidgetValue (s : WState) (n : String) (v : Color4) : Bool × WState :=
  s.setViaUpdater n (fun w => w.updateColorWidget v)

def setPoseWidgetValue (s : WState) (n : String) (v : PoseVals) : Bool × WState :=
  s.setViaUpdater n (fun w => w.updatePoseWidget v)

def setGeometryWidgetValue (s : WState) (n : String) (v : String)
    (dims : Vec3) (uri : String) : Bool × WState :=
  s.setViaUpdater n (fun w => w.updateGeometryWidget v dims uri)

def setDensityWidgetValue (s : WState) (n : String) (v : ℚ) : Bool × WState :=
  s.setViaUpdater n (fun w => w.updateDensityWidget v)

def setEnumWidgetValue (s : WState) (n : String) (v : String) : Bool × WState :=
  s.setViaUpdater n (fun w => w.updateEnumWidget v)

/-- Transcribes `MessageWidget::IntWidgetValue(name)`. -/
def intWidgetValue (s : WState) (n : String) : ℤ :=
  match s.lookupW n with
  | some st => st.w.intWidgetValue
  | none => 0

def uintWidgetValue (s : WState) (n : String) : ℕ :=
  match s.lookupW n with
  | some st => st.w.uintWidgetValue
  | none => 0

def doubleWidgetValue (s : WState) (n : String) : ℚ :=
  match s.lookupW n with
  | some st => st.w.doubleWidgetValue
  | none => 0

def boolWidgetValue (s : WState) (n : String) : Bool :=
  match s.lookupW n with
  | some st => st.w.boolValue
  | none => false

def stringWidgetValue (s : WState) (n : String) : String :=
  match s.lookupW n with
  | some st => st.w.stringWidgetValue
  | none => ""

def vector3dWidgetValue (s : WState) (n : String) : Vec3 :=
  match s.lookupW n with
  | some st => st.w.vector3dWidgetValue
  | none => ⟨0, 0, 0⟩

def colorWidgetValue (s : WState) (n : String) : Color4 :=
  match s.lookupW n with
  | some st => st.w.colorWidgetValue
  | none => ⟨0, 0, 0, 1⟩

def poseWidgetValue (s : WState) (n : String) : PoseVals :=
  match s.lookupW n with
  | some st => st.w.poseWidgetValue
  | none => ⟨0, 0, 0, 0, 0, 0⟩

def densityWidgetValue (s : WState) (n : String) : ℚ :=
  match s.lookupW n with
  | some st => st.w.densityValue
  | none => 0

/-- Transcribes `MessageWidget::GeometryWidgetValue(name, dims, uri)` with
its in-out reference parameters. -/
def geometryWidgetValue (s : WState) (n : String) (dimsIn : Vec3)
    (uriIn : String) : String × Vec3 × String :=
  match s.lookupW n with
  | some st => st.w.geometryWidgetValue dimsIn uriIn
  | none => ("", dimsIn, uriIn)

def enumWidgetValue (s : WState) (n : String) : String :=
  match s.lookupW n with
  | some st => st.w.enumWidgetValue
  | none => ""

end WState

/-! ## Message-level read/write helpers used by the two walks -/

/-- Reads the double at field index `i` (`GetDouble` on `field(i)`). -/
def PMsg.numAt (m : PMsg) (i : ℕ) : ℚ :=
  ((m.fields.get? i).map PField.getNum).getD 0

/-- Transcribes `MessageWidget::ParseVector3d`: fields 0, 1, 2 as doubles. -/
def parseVector3d (m : PMsg) : Vec3 :=
  ⟨m.numAt 0, m.numAt 1, m.numAt 2⟩

/-- Transcribes `MessageWidget::UpdateVector3dMsg`: `SetDouble` on fields
0, 1, 2. -/
def updateVector3dMsg (m : PMsg) (v : Vec3) : PMsg :=
  .mk m.typeName
    (((m.fields.modifyAt 0 (·.setNum v.x)).modifyAt 1
        (·.setNum v.y)).modifyAt 2 (·.setNum v.z))

/-- Writes quaternion components into fields 0..3 (x, y, z, w), as the
`Quaternion` case of `UpdateMsg` does. -/
def writeQuatMsg (m : PMsg) (q : Quat4) : PMsg :=
  .mk m.typeName
    ((((m.fields.modifyAt 0 (·.setNum q.qx)).modifyAt 1
        (·.setNum q.qy)).modifyAt 2 (·.setNum q.qz)).modifyAt 3
        (·.setNum q.qw))

/-- The dimensions loop of `Parse`'s `Geometry` case: scan the geometry
message's fields for the first set, non-repeated message field that is a
`BoxGeom`/`MeshGeom` (whose size submessage is read — and thereby
`MutableMessage`-created), `CylinderGeom` (radius doubled into X and Y,
length into Z) or `SphereGeom` (radius doubled into all axes), skipping
`PolylineGeom` and anything else.  Returns the possibly mutated field list
and the dimensions found, if any. -/
def geomDimsLoop : PFieldList → PFieldList × Option Vec3
  | .nil => (.nil, none)
  | .cons gf t =>
      if gf.isRep then
        let (t', d) := geomDimsLoop t
        (.cons gf t', d)
      else if gf.ftype ≠ .tMessage ∨ ¬gf.hasF then
        let (t', d) := geomDimsLoop t
        (.cons gf t', d)
      else
        let (gm, gf₁) := gf.mutableMsg
        let gname := gf.msgTypeName
        if gname = "BoxGeom" ∨ gname = "MeshGeom" then
          let fieldIdx : ℕ := if gname = "BoxGeom" then 0 else 1
          match gm.fields.get? fieldIdx with
          | none => (.cons gf₁ t, some ⟨0, 0, 0⟩)
          | some df =>
              let (dimMsg, df') := df.mutableMsg
              let gm' := PMsg.mk gm.typeName (gm.fields.setAt fieldIdx df')
              (.cons (gf₁.setMsg gm') t, some (parseVector3d dimMsg))
        else if gname = "CylinderGeom" then
          let radius := ((gm.fields.findByName "radius").map PField.getNum).getD 0
          let length := ((gm.fields.findByName "length").map PField.getNum).getD 0
          (.cons gf₁ t, some ⟨radius * 2, radius * 2, length⟩)
        else if gname = "SphereGeom" then
          let radius := ((gm.fields.findByName "radius").map PField.getNum).getD 0
          (.cons gf₁ t, some ⟨radius * 2, radius * 2, radius * 2⟩)
        else
          let (t', d) := geomDimsLoop t
          (.cons gf₁ t', d)

/-- The field loop of `Parse`'s `Pose` case: every message-typed field
named `Vector3d` overwrites the position (and is `MutableMessage`-marked
present), every one named `Quaternion` overwrites the rotation (fields
0..3 are x, y, z, w). -/
def poseLoop : PFieldList → Vec3 → Quat4 → PFieldList × Vec3 × Quat4
  | .nil, pos, quat => (.nil, pos, quat)
  | .cons vf t, pos, quat =>
      if vf.ftype ≠ .tMessage then
        let (t', p, q) := poseLoop t pos quat
        (.cons vf t', p, q)
      else if vf.msgTypeName = "Vector3d" then
        let (pm, vf') := vf.mutableMsg
        let (t', p, q) := poseLoop t (parseVector3d pm) quat
        (.cons vf' t', p, q)
      else if vf.msgTypeName = "Quaternion" then
        let (qm, vf') := vf.mutableMsg
        let (t', p, q) :=
          poseLoop t pos ⟨qm.numAt 0, qm.numAt 1, qm.numAt 2, qm.numAt 3⟩
        (.cons vf' t', p, q)
      else
        let (t', p, q) := poseLoop t pos quat
        (.cons vf t', p, q)

/-- The channel values read by `Parse`'s `Color` case: `GetFloat` of field
`j` (0 when unset) for each index below the widget's `widgets` count. -/
def colorFrom (m : PMsg) (n : ℕ) : Color4 :=
  let at_ := fun (j : ℕ) => if j < n then m.numAt j else 0
  ⟨at_ 0, at_ 1, at_ 2, at_ 3⟩

/-- The field loop of `Parse`'s `Density` case: the last field named
`density` provides the value, starting from the default 1.0. -/
def densityScan : PFieldList → ℚ → ℚ
  | .nil, acc => acc
  | .cons f t, acc =>
      densityScan t (if f.name = "density" then f.getNum else acc)

/-- The freshly created geometry widget: combo at "box", sizes 1, radius
0.5, length 1, empty uri (`CreateGeometryWidget`). -/
def freshGeomW : PWidget := .geomW 0 1 1 1 (1/2) 1 ""

/-- The create-or-update step shared by every widget-bearing case of
`Parse`'s field loop: when no widget is registered under the scoped name, a
fresh one (with a fresh identity) is created, updated with the field's
value and registered; otherwise the registered widget is updated in place.
The boolean reports whether a new widget was produced (the
`newWidget && newFieldWidget` condition). -/
def WState.handleLeaf (s : WState) (sname : String) (existing : Option StoredW)
    (fresh : PWidget) (updFn : PWidget → Bool × PWidget) : WState × Bool :=
  match existing with
  | none =>
      let i := s.nextId
      let (_, w1) := updFn fresh
      let (_, s2) :=
        WState.addPropertyWidget { s with nextId := i + 1 } sname (some (i, w1))
      (s2, true)
  | some st =>
      let (_, w1) := updFn st.w
      (s.setWidgetAt sname w1, false)

/-- Builds the scoped name of a field: names are joined with `::`. -/
def scopedNameOf (pre : String) (n : String) : String :=
  if pre = "" then n else pre ++ "::" ++ n

/-- The widget-bearing leaf step shared by the scalar, enum and composite
cases of `Parse`'s field loop (the field itself is not modified). -/
def leafStep (s : WState) (sname : String) (existing : Option StoredW)
    (fresh : PWidget) (updFn : PWidget → Bool × PWidget) (f : PField) :
    PField × WState × Bool :=
  let (s', c) := s.handleLeaf sname existing fresh updFn
  (f, s', c)

/-- The `Geometry` case of `Parse`'s field loop: read the type enum and
the dimensions (with their `MutableMessage` side effects) and update the
geometry widget; the field is `MutableMessage`-marked present. -/
def geomFieldStep (s : WState) (sname : String) (existing : Option StoredW)
    (nm : String) (ft : FType) (rep : Bool) (m0 : PMsg) :
    PField × WState × Bool :=
  let (m1, updFn) :=
    match m0.fields.findByName "type" with
    | some tf =>
        if tf.hasF then
          let typStr := tf.getEnum.toLower
          let (fs', dims?) := geomDimsLoop m0.fields
          ((PMsg.mk m0.typeName fs' : PMsg),
           fun (w : PWidget) =>
             w.updateGeometryWidget typStr (dims?.getD ⟨0, 0, 0⟩) "")
        else (m0, fun w => (true, w))
    | none => (m0, fun w => (true, w))
  let (s', c) := s.handleLeaf sname existing freshGeomW updFn
  (.mk nm ft rep true (.msg m1), s', c)

/-- The `Pose` case of `Parse`'s field loop. -/
def poseFieldStep (mi : MathImpl) (s : WState) (sname : String)
    (existing : Option StoredW) (nm : String) (ft : FType) (rep : Bool)
    (m0 : PMsg) : PField × WState × Bool :=
  let (fs', pos, quat) := poseLoop m0.fields ⟨0, 0, 0⟩ ⟨0, 0, 0, 1⟩
  let e := mi.quatToEuler quat
  let pv : PoseVals := ⟨pos.x, pos.y, pos.z, e.1, e.2.1, e.2.2⟩
  let (s', c) := s.handleLeaf sname existing
    (.poseW ⟨0, 0, 0, 0, 0, 0⟩) (fun w => w.updatePoseWidget pv)
  (.mk nm ft rep true (.msg (PMsg.mk m0.typeName fs')), s', c)

/-- The `Vector3d` case of `Parse`'s field loop. -/
def vec3FieldStep (s : WState) (sname : String) (existing : Option StoredW)
    (nm : String) (ft : FType) (rep : Bool) (m0 : PMsg) :
    PField × WState × Bool :=
  let (s', c) := s.handleLeaf sname existing (.vec3W 0 0 0 0)
    (fun w => w.updateVector3dWidget (parseVector3d m0))
  (.mk nm ft rep true (.msg m0), s', c)

/-- The `Color` case of `Parse`'s field loop (the channel loop runs over
the updated widget's `widgets` count). -/
def colorFieldStep (s : WState) (sname : String) (existing : Option StoredW)
    (nm : String) (ft : FType) (rep : Bool) (m0 : PMsg) :
    PField × WState × Bool :=
  let sz := (existing.map (fun st => st.w.widgetsSize)).getD 4
  let (s', c) := s.handleLeaf sname existing (.colorW 0 0 0 0)
    (fun w => w.updateColorWidget (colorFrom m0 sz))
  (.mk nm ft rep true (.msg m0), s', c)

/-- The `Density` case of `Parse`'s field loop. -/
def densityFieldStep (s : WState) (sname : String)
    (existing : Option StoredW) (nm : String) (ft : FType) (rep : Bool)
    (m0 : PMsg) : PField × WState × Bool :=
  let (s', c) := s.handleLeaf sname existing (.densityW 0)
    (fun w => w.updateDensityWidget (densityScan m0.fields 1))
  (.mk nm ft rep true (.msg m0), s', c)

/-- The registration step after the generic recursive case: when the
recursion produced new widgets, they are wrapped and (for a first visit)
registered under the field's scoped name. -/
def genericWrapStep (s1 : WState) (sname : String)
    (existing : Option StoredW) (nm : String) (ft : FType) (rep : Bool)
    (m1 : PMsg) (created : Bool) : PField × WState × Bool :=
  if created then
    let i := s1.nextId
    let s2 : WState := { s1 with nextId := i + 1 }
    match existing with
    | none =>
        let (_, s3) := s2.addPropertyWidget sname (some (i, .groupChild))
        (.mk nm ft rep true (.msg m1), s3, true)
    | some _ => (.mk nm ft rep true (.msg m1), s2, false)
  else (.mk nm ft rep true (.msg m1), s1, false)

mutual

/-- Transcribes the body of `MessageWidget::Parse`'s field loop for one
field.  Repeated fields are skipped (`TODO parse repeated fields`), as are
unset fields during an update pass.  Returns the (possibly
`MutableMessage`-mutated) field, the new widget state, and whether a new
widget was created for this field. -/
def parseField (mi : MathImpl) (upd : Bool) (pre : String) (lvl : ℕ)
    (s : WState) : PField → PField × WState × Bool
  | f@(.mk nm ft rep has v) =>
    if rep then (f, s, false)
    else if upd ∧ ¬has then (f, s, false)
    else
      let sname := scopedNameOf pre nm
      let existing := s.lookupW sname
      match ft with
      | .tDouble =>
          leafStep s sname existing (.doubleW 0)
            (fun w => w.updateDoubleWidget f.getNum) f
      | .tFloat =>
          leafStep s sname existing (.doubleW 0)
            (fun w => w.updateDoubleWidget f.getNum) f
      | .tInt64 =>
          leafStep s sname existing (.intW 0)
            (fun w => w.updateIntWidget (wrap32 f.getInt)) f
      | .tInt32 =>
          leafStep s sname existing (.intW 0)
            (fun w => w.updateIntWidget f.getInt) f
      | .tUInt64 =>
          leafStep s sname existing (.uintW 0)
            (fun w => w.updateUIntWidget (toUnsigned32 f.getInt).toNat) f
      | .tUInt32 =>
          leafStep s sname existing (.uintW 0)
            (fun w => w.updateUIntWidget (toUnsigned32 f.getInt).toNat) f
      | .tBool =>
          leafStep s sname existing (.boolW false)
            (fun w => w.boolSetValue f.getBool) f
      | .tString =>
          leafStep s sname existing (.stringW (nm = "innerxml") "")
            (fun w => w.updateStringWidget f.getStr) f
      | .tEnum =>
          leafStep s sname existing (.enumW f.enumNames 0)
            (fun w => w.updateEnumWidget f.getEnum) f
      | .tOther => (f, s, false)
      | .tMessage =>
          match v with
          | .msg m0 =>
              -- line 648: MutableMessage marks the field present
              if m0.typeName = "Geometry" then
                geomFieldStep s sname existing nm ft rep m0
              else if m0.typeName = "Pose" then
                poseFieldStep mi s sname existing nm ft rep m0
              else if m0.typeName = "Vector3d" then
                vec3FieldStep s sname existing nm ft rep m0
              else if m0.typeName = "Color" then
                colorFieldStep s sname existing nm ft rep m0
              else if m0.typeName = "Density" then
                densityFieldStep s sname existing nm ft rep m0
              else
                -- the generic recursive case: parse the nested message's
                -- fields with the prefix extended by "::", one level deeper
                let (m1, s1, created) := parseMsg mi upd sname (lvl + 1) s m0
                genericWrapStep s1 sname existing nm ft rep m1 created
          | _ => (f, s, false)

/-- The field loop of `MessageWidget::Parse`, threading the registry. -/
def parseFields (mi : MathImpl) (upd : Bool) (pre : String) (lvl : ℕ)
    (s : WState) : PFieldList → PFieldList × WState × Bool
  | .nil => (.nil, s, false)
  | .cons f t =>
      let (f', s', c1) := parseField mi upd pre lvl s f
      let (t', s'', c2) := parseFields mi upd pre lvl s' t
      (.cons f' t', s'', c1 || c2)

/-- Transcribes `MessageWidget::Parse`: walk the message's fields; the
boolean result is whether the call returned a (non-null) group box of new
widgets. -/
def parseMsg (mi : MathImpl) (upd : Bool) (pre : String) (lvl : ℕ)
    (s : WState) : PMsg → PMsg × WState × Bool
  | .mk tn fs =>
      let (fs', s', c) := parseFields mi upd pre lvl s fs
      (.mk tn fs', s', c)

end

/-! ## The widgets-to-message walk, `MessageWidget::UpdateMsg` -/

/-- Transcribes the `Geometry` case of `UpdateMsg`, for a geometry widget
with combo index `idx`, size spins `sx sy sz`, radius/length spins `r l`
and uri line edit `u`.  Failed descriptor lookups (`FindFieldByName` /
`FindValueByName` returning null, which the C++ dereferences) are modelled
as leaving the message unchanged. -/
def geomUpdateMsg (idx : ℕ) (sx sy sz r l : ℚ) (u : String) (m0 : PMsg) :
    PMsg :=
  let geomType := geomItems.getD idx ""
  match m0.fields.findByName "type" with
  | none => m0
  | some tf =>
      let all := tf.enumNames
      let setType (fs : PFieldList) (typeStr : String) : PFieldList :=
        if (findTextIdx all typeStr).isSome then
          fs.modifyNamed "type" (·.setEnum typeStr)
        else fs
      if geomType = "box" ∨ geomType = "mesh" then
        let fs1 := setType m0.fields geomType.toUpper
        match fs1.findByName geomType with
        | none => PMsg.mk m0.typeName fs1
        | some gf =>
            let (gm, _) := gf.mutableMsg
            let fieldIdx : ℕ := if geomType = "box" then 0 else 1
            let gm1 :=
              match gm.fields.get? fieldIdx with
              | none => gm
              | some df =>
                  let (dimMsg, df0) := df.mutableMsg
                  let dim' := updateVector3dMsg dimMsg ⟨sx, sy, sz⟩
                  PMsg.mk gm.typeName (gm.fields.setAt fieldIdx (df0.setMsg dim'))
            let gm2 :=
              if geomType = "mesh" then
                PMsg.mk gm1.typeName (gm1.fields.modifyAt 0 (·.setStr u))
              else gm1
            PMsg.mk m0.typeName (fs1.modifyNamed geomType (·.setMsg gm2))
      else if geomType = "cylinder" then
        let fs1 := setType m0.fields "CYLINDER"
        match fs1.findByName geomType with
        | none => PMsg.mk m0.typeName fs1
        | some gf =>
            let (gm, _) := gf.mutableMsg
            let gm' := PMsg.mk gm.typeName
              ((gm.fields.modifyAt 0 (·.setNum r)).modifyAt 1 (·.setNum l))
            PMsg.mk m0.typeName (fs1.modifyNamed geomType (·.setMsg gm'))
      else if geomType = "sphere" then
        let fs1 := setType m0.fields "SPHERE"
        match fs1.findByName geomType with
        | none => PMsg.mk m0.typeName fs1
        | some gf =>
            let (gm, _) := gf.mutableMsg
            let gm' := PMsg.mk gm.typeName (gm.fields.modifyAt 0 (·.setNum r))
            PMsg.mk m0.typeName (fs1.modifyNamed geomType (·.setMsg gm'))
      else if geomType = "polyline" then
        PMsg.mk m0.typeName (setType m0.fields "POLYLINE")
      else m0

/-- The field loop of `UpdateMsg`'s `Pose` case: position from the pose
widget's spins 0..2 into each `Vector3d` field, rotation from spins 3..5
through the Euler-to-quaternion conversion into each `Quaternion` field
(both `MutableMessage`-marked present). -/
def poseUpdLoop (mi : MathImpl) (p : PoseVals) : PFieldList → PFieldList
  | .nil => .nil
  | .cons vf t =>
      if vf.ftype ≠ .tMessage then .cons vf (poseUpdLoop mi p t)
      else if vf.msgTypeName = "Vector3d" then
        let (pm, vf') := vf.mutableMsg
        .cons (vf'.setMsg (updateVector3dMsg pm ⟨p.px, p.py, p.pz⟩))
          (poseUpdLoop mi p t)
      else if vf.msgTypeName = "Quaternion" then
        let (qm, vf') := vf.mutableMsg
        let q := mi.eulerToQuat p.roll p.pitch p.yaw
        .cons (vf'.setMsg (writeQuatMsg qm q)) (poseUpdLoop mi p t)
      else .cons vf (poseUpdLoop mi p t)

/-- The `Color` case of `UpdateMsg`: `SetFloat` on fields 0..3 from the
four channel spins. -/
def colorUpdMsg (c : Color4) (m0 : PMsg) : PMsg :=
  PMsg.mk m0.typeName
    ((((m0.fields.modifyAt 0 (·.setNum c.r)).modifyAt 1
        (·.setNum c.g)).modifyAt 2 (·.setNum c.b)).modifyAt 3
        (·.setNum c.a))

/-- The five message-type names with dedicated composite widgets. -/
def compositeNames : List String :=
  ["Geometry", "Pose", "Vector3d", "Color", "Density"]

/-- The `UpdateMsg` write-back for a leaf field from its widget's current
state (the per-type `case` bodies of the switch; a failed widget cast
leaves the field alone). -/
def updLeafField (ft : FType) (f : PField) (w : PWidget) : PField :=
  match ft with
  | .tDouble =>
      (match w with
       | .doubleW x => f.setNum x
       | _ => f)
  | .tFloat =>
      (match w with
       | .doubleW x => f.setNum x
       | _ => f)
  | .tInt64 =>
      (match w with
       | .intW x => f.setInt x
       | .uintW x => f.setInt x
       | _ => f)
  | .tInt32 =>
      (match w with
       | .intW x => f.setInt x
       | .uintW x => f.setInt x
       | _ => f)
  | .tUInt64 =>
      (match w with
       | .intW x => f.setInt (x % 2 ^ 64)
       | .uintW x => f.setInt (x % 2 ^ 64)
       | _ => f)
  | .tUInt32 =>
      (match w with
       | .intW x => f.setInt (x % 2 ^ 32)
       | .uintW x => f.setInt (x % 2 ^ 32)
       | _ => f)
  | .tBool =>
      (match w with
       | .boolW b => f.setBool b
       | _ => f)
  | .tString =>
      (match w with
       | .stringW _ x => f.setStr x
       | _ => f)
  | .tEnum =>
      -- a QComboBox sits at widgets[0] of enum, geometry and density
      -- widgets, so the qobject_cast succeeds for all three
      (let txt? : Option String :=
        match w with
        | .enumW items i => some (items.getD i "")
        | .geomW i _ _ _ _ _ _ => some (geomItems.getD i "")
        | .densityW _ => some "Custom..."
        | _ => none
      match txt? with
      | none => f
      | some txt =>
          if (findTextIdx f.enumNames txt).isSome then f.setEnum txt
          else f)
  | _ => f

/-- The `UpdateMsg` write-back for a message-typed field: the five-way
dispatch on the submessage's type name, with the generic recursive case
last.  `recRes` is the result of the generic recursion on the submessage;
the five special-cased branches do not use it.  (Line 2030: the
`MutableMessage` call marks the field present in every branch.) -/
def updCompositeField (mi : MathImpl) (w : PWidget) (nm : String)
    (ft : FType) (rep : Bool) (m0 : PMsg) (recRes : PMsg) : PField :=
  if m0.typeName = "Geometry" then
    match w with
    | .geomW i a b c r l u =>
        .mk nm ft rep true (.msg (geomUpdateMsg i a b c r l u m0))
    | _ => .mk nm ft rep true (.msg m0)
  else if m0.typeName = "Pose" then
    match w with
    | .poseW p =>
        .mk nm ft rep true
          (.msg (PMsg.mk m0.typeName (poseUpdLoop mi p m0.fields)))
    | _ => .mk nm ft rep true (.msg m0)
  else if m0.typeName = "Vector3d" then
    match w with
    | .vec3W x y z _ =>
        .mk nm ft rep true (.msg (updateVector3dMsg m0 ⟨x, y, z⟩))
    | .colorW r g b _ =>
        .mk nm ft rep true (.msg (updateVector3dMsg m0 ⟨r, g, b⟩))
    | .poseW p =>
        .mk nm ft rep true
          (.msg (updateVector3dMsg m0 ⟨p.px, p.py, p.pz⟩))
    | _ => .mk nm ft rep true (.msg m0)
  else if m0.typeName = "Color" then
    match w with
    | .colorW r g b a =>
        .mk nm ft rep true (.msg (colorUpdMsg ⟨r, g, b, a⟩ m0))
    | _ => .mk nm ft rep true (.msg m0)
  else if m0.typeName = "Density" then
    match w with
    | .densityW d =>
        .mk nm ft rep true
          (.msg (PMsg.mk m0.typeName
            (if (m0.fields.findByName "density").isSome then
              m0.fields.modifyNamed "density" (fun g => g.setNum d)
             else m0.fields)))
    | _ => .mk nm ft rep true (.msg m0)
  else .mk nm ft rep true (.msg recRes)

mutual

/-- Transcribes the body of `MessageWidget::UpdateMsg`'s field loop for one
field: repeated fields, fields without a registered widget, and fields
whose widget is read-only are left alone; otherwise the field is
overwritten from the widget's current state.  For a message-typed field
the generic recursion's value is computed here and passed to the
dispatch, which uses it only when no special case applies. -/
def updMsgField (mi : MathImpl) (pre : String) (s : WState) :
    PField → PField
  | f@(.mk nm ft rep _ v) =>
    if rep then f
    else
      let sname := scopedNameOf pre nm
      match s.lookupW sname with
      | none => f
      | some st =>
        if st.readOnly then f
        else
          match ft with
          | .tMessage =>
              match v with
              | .msg m0 =>
                  updCompositeField mi st.w nm ft rep m0
                    (updMsg mi sname s m0)
              | _ => f
          | _ => updLeafField ft f st.w

/-- The field loop of `MessageWidget::UpdateMsg`. -/
def updMsgFields (mi : MathImpl) (pre : String) (s : WState) :
    PFieldList → PFieldList
  | .nil => .nil
  | .cons f t => .cons (updMsgField mi pre s f) (updMsgFields mi pre s t)

/-- Transcribes `MessageWidget::UpdateMsg`. -/
def updMsg (mi : MathImpl) (pre : String) (s : WState) : PMsg → PMsg
  | .mk tn fs => .mk tn (updMsgFields mi pre s fs)

end


/-! ## The public interface of `MessageWidget` -/

/-- The whole `MessageWidget` state: the internal message copy
(`dataPtr->msg`) and the widget registry. -/
structure MWState where
  msg : PMsg
  ws : WState
deriving DecidableEq, Repr

/-- The state of a freshly constructed `MessageWidget`. -/
def emptyWS : WState := ⟨[], 0⟩

/-- Transcribes `MessageWidget::Load`: store a freshly allocated copy of
the argument and parse it (building the widget tree). -/
def load (mi : MathImpl) (m : PMsg) : MWState :=
  let (m', ws', _) := parseMsg mi false "" 0 emptyWS m
  ⟨m', ws'⟩

/-- Transcribes `MessageWidget::UpdateFromMsg`: `CopyFrom` the argument
into the internal copy, then parse it in update mode. -/
def updateFromMsg (mi : MathImpl) (m : PMsg) (st : MWState) : MWState :=
  let (m', ws', _) := parseMsg mi true "" 0 st.ws m
  ⟨m', ws'⟩

/-- Transcribes `MessageWidget::Msg`: run `UpdateMsg` on the internal copy
and return it (the state keeps the updated copy). -/
def msgCall (mi : MathImpl) (st : MWState) : PMsg × MWState :=
  let m' := updMsg mi "" st.ws st.msg
  (m', ⟨m', st.ws⟩)

namespace WState

/-- Transcribes `MessageWidget::ClearEnumWidget`.  (The C++ dereferences
the `dynamic_cast` result without a null check; a non-enum widget is
modelled as failure.) -/
def clearEnumWidget (s : WState) (n : String) : Bool × WState :=
  match s.lookupW n with
  | none => (false, s)
  | some st =>
      match st.w with
      | .enumW _ _ => (true, s.setWidgetAt n (.enumW [] 0))
      | _ => (false, s)

/-- Transcribes `MessageWidget::AddItemEnumWidget`. -/
def addItemEnumWidget (s : WState) (n : String) (item : String) :
    Bool × WState :=
  match s.lookupW n with
  | none => (false, s)
  | some st =>
      match st.w with
      | .enumW items idx =>
          (true, s.setWidgetAt n (.enumW (items ++ [item]) idx))
      | _ => (false, s)

/-- Transcribes `MessageWidget::RemoveItemEnumWidget` (with
`QComboBox::removeItem`'s current-index adjustment). -/
def removeItemEnumWidget (s : WState) (n : String) (item : String) :
    Bool × WState :=
  match s.lookupW n with
  | none => (false, s)
  | some st =>
      match st.w with
      | .enumW items idx =>
          match findTextIdx items item with
          | none => (false, s)
          | some i =>
              let items' := items.eraseIdx i
              let idx' := if i < idx then idx - 1 else idx
              let idx'' := if items'.length = 0 then 0
                else min idx' (items'.length - 1)
              (true, s.setWidgetAt n (.enumW items' idx''))
      | _ => (false, s)

end WState

/-- One public mutating call on a loaded `MessageWidget`. -/
inductive MWStep (mi : MathImpl) : MWState → MWState → Prop where
  | updateFromMsg (st : MWState) (m : PMsg) :
      MWStep mi st (updateFromMsg mi m st)
  | msgOp (st : MWState) : MWStep mi st (msgCall mi st).2
  | setInt (st : MWState) (n : String) (v : ℤ) :
      MWStep mi st ⟨st.msg, (st.ws.setIntWidgetValue n v).2⟩
  | setUInt (st : MWState) (n : String) (v : ℕ) :
      MWStep mi st ⟨st.msg, (st.ws.setUIntWidgetValue n v).2⟩
  | setDouble (st : MWState) (n : String) (v : ℚ) :
      MWStep mi st ⟨st.msg, (st.ws.setDoubleWidgetValue n v).2⟩
  | setBool (st : MWState) (n : String) (v : Bool) :
      MWStep mi st ⟨st.msg, (st.ws.setBoolWidgetValue n v).2⟩
  | setString (st : MWState) (n : String) (v : String) :
      MWStep mi st ⟨st.msg, (st.ws.setStringWidgetValue n v).2⟩
  | setVector3d (st : MWState) (n : String) (v : Vec3) :
      MWStep mi st ⟨st.msg, (st.ws.setVector3dWidgetValue n v).2⟩
  | setColor (st : MWState) (n : String) (v : Color4) :
      MWStep mi st ⟨st.msg, (st.ws.setColorWidgetValue n v).2⟩
  | setPose (st : MWState) (n : String) (v : PoseVals) :
      MWStep mi st ⟨st.msg, (st.ws.setPoseWidgetValue n v).2⟩
  | setGeometry (st : MWState) (n : String) (v : String) (dims : Vec3)
      (uri : String) :
      MWStep mi st ⟨st.msg, (st.ws.setGeometryWidgetValue n v dims uri).2⟩
  | setDensity (st : MWState) (n : String) (v : ℚ) :
      MWStep mi st ⟨st.msg, (st.ws.setDensityWidgetValue n v).2⟩
  | setEnum (st : MWState) (n : String) (v : String) :
      MWStep mi st ⟨st.msg, (st.ws.setEnumWidgetValue n v).2⟩
  | setVisible (st : MWState) (n : String) (v : Bool) :
      MWStep mi st ⟨st.msg, st.ws.setWidgetVisible n v⟩
  | setReadOnly (st : MWState) (n : String) (v : Bool) :
      MWStep mi st ⟨st.msg, st.ws.setWidgetReadOnly n v⟩
  | clearEnum (st : MWState) (n : String) :
      MWStep mi st ⟨st.msg, (st.ws.clearEnumWidget n).2⟩
  | addItemEnum (st : MWState) (n : String) (item : String) :
      MWStep mi st ⟨st.msg, (st.ws.addItemEnumWidget n item).2⟩
  | removeItemEnum (st : MWState) (n : String) (item : String) :
      MWStep mi st ⟨st.msg, (st.ws.removeItemEnumWidget n item).2⟩

/-- The states a `MessageWidget` can reach: a `Load` followed by any
sequence of public calls. -/
inductive MWReachable (mi : MathImpl) : MWState → Prop where
  | loaded (m : PMsg) : MWReachable mi (load mi m)
  | step {st st' : MWState} :
      MWReachable mi st → MWStep mi st st' → MWReachable mi st'

/-! ## Nesting depth and fuel-bounded walks

The C++ `Parse` and `UpdateMsg` are unboundedly recursive; each recursive
call descends into a submessage of its argument.  The fuel-bounded
variants below make the call depth explicit: `none` means the recursion
budget ran out.  The termination theorem shows that the nesting depth of
the message is always enough fuel, and that the result then agrees with
the (structurally defined) walks above. -/

mutual

/-- The submessage-nesting depth of a value. -/
def PValue.depthV : PValue → ℕ
  | .msg m => m.depthM
  | _ => 0

def PField.depthF : PField → ℕ
  | .mk _ _ _ _ v => v.depthV

def PFieldList.depthL : PFieldList → ℕ
  | .nil => 0
  | .cons f t => max f.depthF t.depthL

/-- The submessage-nesting depth of a message (1 for a flat message). -/
def PMsg.depthM : PMsg → ℕ
  | .mk _ fs => fs.depthL + 1

end

mutual

/-- Fuel-bounded clone of `parseField`; only the generic nested-message
case consumes the recursion budget. -/
def parseFieldF (mi : MathImpl) (upd : Bool) (pre : String) (lvl : ℕ)
    (fuel : ℕ) (s : WState) : PField → Option (PField × WState × Bool)
  | f@(.mk nm ft rep has v) =>
    if rep then some (f, s, false)
    else if upd ∧ ¬has then some (f, s, false)
    else
      let sname := scopedNameOf pre nm
      let existing := s.lookupW sname
      match ft with
      | .tDouble =>
          some (leafStep s sname existing (.doubleW 0)
            (fun w => w.updateDoubleWidget f.getNum) f)
      | .tFloat =>
          some (leafStep s sname existing (.doubleW 0)
            (fun w => w.updateDoubleWidget f.getNum) f)
      | .tInt64 =>
          some (leafStep s sname existing (.intW 0)
            (fun w => w.updateIntWidget (wrap32 f.getInt)) f)
      | .tInt32 =>
          some (leafStep s sname existing (.intW 0)
            (fun w => w.updateIntWidget f.getInt) f)
      | .tUInt64 =>
          some (leafStep s sname existing (.uintW 0)
            (fun w => w.updateUIntWidget (toUnsigned32 f.getInt).toNat) f)
      | .tUInt32 =>
          some (leafStep s sname existing (.uintW 0)
            (fun w => w.updateUIntWidget (toUnsigned32 f.getInt).toNat) f)
      | .tBool =>
          some (leafStep s sname existing (.boolW false)
            (fun w => w.boolSetValue f.getBool) f)
      | .tString =>
          some (leafStep s sname existing (.stringW (nm = "innerxml") "")
            (fun w => w.updateStringWidget f.getStr) f)
      | .tEnum =>
          some (leafStep s sname existing (.enumW f.enumNames 0)
            (fun w => w.updateEnumWidget f.getEnum) f)
      | .tOther => some (f, s, false)
      | .tMessage =>
          match v with
          | .msg m0 =>
              if m0.typeName = "Geometry" then
                some (geomFieldStep s sname existing nm ft rep m0)
              else if m0.typeName = "Pose" then
                some (poseFieldStep mi s sname existing nm ft rep m0)
              else if m0.typeName = "Vector3d" then
                some (vec3FieldStep s sname existing nm ft rep m0)
              else if m0.typeName = "Color" then
                some (colorFieldStep s sname existing nm ft rep m0)
              else if m0.typeName = "Density" then
                some (densityFieldStep s sname existing nm ft rep m0)
              else
                match parseMsgF mi upd sname (lvl + 1) fuel s m0 with
                | none => none
                | some (m1, s1, created) =>
                    some (genericWrapStep s1 sname existing nm ft rep m1 created)
          | _ => some (f, s, false)
termination_by _ => (fuel, 1, 0)

/-- Fuel-bounded clone of `parseFields`. -/
def parseFieldsF (mi : MathImpl) (upd : Bool) (pre : String) (lvl : ℕ)
    (fuel : ℕ) (s : WState) :
    PFieldList → Option (PFieldList × WState × Bool)
  | .nil => some (.nil, s, false)
  | .cons f t =>
      match parseFieldF mi upd pre lvl fuel s f with
      | none => none
      | some (f', s', c1) =>
          match parseFieldsF mi upd pre lvl fuel s' t with
          | none => none
          | some (t', s'', c2) => some (.cons f' t', s'', c1 || c2)
termination_by l => (fuel, 2, sizeOf l)

/-- Fuel-bounded clone of `parseMsg`: each call consumes one unit. -/
def parseMsgF (mi : MathImpl) (upd : Bool) (pre : String) (lvl : ℕ) :
    ℕ → WState → PMsg → Option (PMsg × WState × Bool)
  | 0, _, _ => none
  | fuel + 1, s, .mk tn fs =>
      match parseFieldsF mi upd pre lvl fuel s fs with
      | none => none
      | some (fs', s', c) => some (.mk tn fs', s', c)
termination_by fuel _ _ => (fuel, 0, 0)

end

mutual

/-- Fuel-bounded clone of `updMsgField`. -/
def updMsgFieldF (mi : MathImpl) (pre : String) (s : WState) (fuel : ℕ) :
    PField → Option PField
  | f@(.mk nm ft rep _ v) =>
    if rep then some f
    else
      let sname := scopedNameOf pre nm
      match s.lookupW sname with
      | none => some f
      | some st =>
        if st.readOnly then some f
        else
          match ft with
          | .tMessage =>
              match v with
              | .msg m0 =>
                  if compositeNames.contains m0.typeName then
                    some (updCompositeField mi st.w nm ft rep m0 m0)
                  else
                    match updMsgF mi sname s fuel m0 with
                    | none => none
                    | some m1 =>
                        some (updCompositeField mi st.w nm ft rep m0 m1)
              | _ => some f
          | _ => some (updLeafField ft f st.w)
termination_by _ => (fuel, 1, 0)

/-- Fuel-bounded clone of `updMsgFields`. -/
def updMsgFieldsF (mi : MathImpl) (pre : String) (s : WState) (fuel : ℕ) :
    PFieldList → Option PFieldList
  | .nil => some .nil
  | .cons f t =>
      match updMsgFieldF mi pre s fuel f with
      | none => none
      | some f' =>
          match updMsgFieldsF mi pre s fuel t with
          | none => none
          | some t' => some (.cons f' t')
termination_by l => (fuel, 2, sizeOf l)

/-- Fuel-bounded clone of `updMsg`. -/
def updMsgF (mi : MathImpl) (pre : String) (s : WState) :
    ℕ → PMsg → Option PMsg
  | 0, _ => none
  | fuel + 1, .mk tn fs =>
      match updMsgFieldsF mi pre s fuel fs with
      | none => none
      | some fs' => some (.mk tn fs')
termination_by fuel _ => (fuel, 0, 0)

end

/-! ## Schema-level predicates -/

mutual

/-- Strip every has-bit of a value (to speak about field values modulo
presence marks). -/
def PValue.eraseHasV : PValue → PValue
  | .msg m => .msg m.eraseHasM
  | v => v

def PField.eraseHasF : PField → PField
  | .mk n t r _ v => .mk n t r false v.eraseHasV

def PFieldList.eraseHasL : PFieldList → PFieldList
  | .nil => .nil
  | .cons f t => .cons f.eraseHasF t.eraseHasL

/-- The message with every has-bit (at every nesting level) cleared. -/
def PMsg.eraseHasM : PMsg → PMsg
  | .mk n fs => .mk n fs.eraseHasL

end

mutual

/-- Two values have the same schema: same slot kind, same enum value-name
list, recursively same submessage schema. -/
def PValue.sameSchemaV : PValue → PValue → Bool
  | .num _, .num _ => true
  | .int _, .int _ => true
  | .bool _, .bool _ => true
  | .str _, .str _ => true
  | .enum _ a, .enum _ a' => a = a'
  | .msg m, .msg m' => m.sameSchemaM m'
  | .unset, .unset => true
  | _, _ => false

def PField.sameSchemaF : PField → PField → Bool
  | .mk n t r _ v, .mk n' t' r' _ v' =>
      n = n' && t = t' && r = r' && v.sameSchemaV v'

def PFieldList.sameSchemaL : PFieldList → PFieldList → Bool
  | .nil, .nil => true
  | .cons f t, .cons f' t' => f.sameSchemaF f' && t.sameSchemaL t'
  | _, _ => false

/-- Two messages are instances of the same descriptor. -/
def PMsg.sameSchemaM : PMsg → PMsg → Bool
  | .mk n fs, .mk n' fs' => n = n' && fs.sameSchemaL fs'

end

/-- Whether `Parse`'s type switch handles this field type at all (the
`default:` branch creates no widget). -/
def FType.isSupported : FType → Bool
  | .tOther => false
  | _ => true

mutual

/-- Every widget the schema calls for is already registered: each
non-repeated field of supported type has its scoped name in the registry
(for a generic nested message, recursively so for the nested fields). -/
def regF (s : WState) (pre : String) : PField → Bool
  | .mk nm ft rep _ v =>
    if rep then true
    else
      let sname := scopedNameOf pre nm
      match ft with
      | .tOther => true
      | .tMessage =>
          match v with
          | .msg (.mk tn0 fs0) =>
              if compositeNames.contains tn0 then
                (s.lookupW sname).isSome
              else regL s sname fs0
          | _ => true
      | _ => (s.lookupW sname).isSome

def regL (s : WState) (pre : String) : PFieldList → Bool
  | .nil => true
  | .cons f t => regF s pre f && regL s pre t

end

/-- Registration over a whole message. -/
def schemaRegistered (s : WState) (m : PMsg) : Bool := regL s "" m.fields

mutual

/-- The scoped names a field's widgets live under (used to state that
distinct paths get distinct widgets, and that parsing one field leaves
every other field's widgets alone). -/
def pathNamesF (pre : String) : PField → List String
  | .mk nm ft rep _ v =>
    if rep then []
    else
      let sname := scopedNameOf pre nm
      match ft with
      | .tOther => []
      | .tMessage =>
          match v with
          | .msg (.mk tn0 fs0) =>
              if compositeNames.contains tn0 then [sname]
              else sname :: pathNamesL sname fs0
          | _ => []
      | _ => [sname]

/-- The scoped names of every widget-bearing path of the schema. -/
def pathNamesL (pre : String) : PFieldList → List String
  | .nil => []
  | .cons f t => pathNamesF pre f ++ pathNamesL pre t

end

mutual

/-- Every widget-bearing field name of the schema is nonempty (needed
because `AddPropertyWidget` rejects an empty scoped name; protobuf field
names are never empty in practice). -/
def PField.neNamesF : PField → Bool
  | .mk nm ft _ _ v =>
    decide (nm ≠ "") &&
      (match ft with
       | .tMessage =>
           (match v with
            | .msg (.mk tn0 fs0) =>
                if compositeNames.contains tn0 then true
                else PFieldList.neNamesL fs0
            | _ => true)
       | _ => true)

def PFieldList.neNamesL : PFieldList → Bool
  | .nil => true
  | .cons f t => PField.neNamesF f && PFieldList.neNamesL t

end

/-- The kind of property widget (which `Create*Widget` built it). -/
inductive WKind where
  | kInt
  | kUInt
  | kDouble
  | kBool
  | kString
  | kVec3
  | kColor
  | kPose
  | kGeom
  | kEnum
  | kDensity
  | kGroup
deriving DecidableEq, Repr

/-- Classifies a widget state by its kind. -/
def PWidget.kind : PWidget → WKind
  | .intW _ => .kInt
  | .uintW _ => .kUInt
  | .doubleW _ => .kDouble
  | .boolW _ => .kBool
  | .stringW _ _ => .kString
  | .vec3W _ _ _ _ => .kVec3
  | .colorW _ _ _ _ => .kColor
  | .poseW _ => .kPose
  | .geomW _ _ _ _ _ _ _ => .kGeom
  | .enumW _ _ => .kEnum
  | .densityW _ => .kDensity
  | .groupChild => .kGroup

/-- The dedicated composite widget kind for each special-cased
message-type name. -/
def compositeKindOf : String → WKind
  | "Geometry" => .kGeom
  | "Pose" => .kPose
  | "Vector3d" => .kVec3
  | "Color" => .kColor
  | "Density" => .kDensity
  | _ => .kGroup

/-- The bookkeeping part of the registry: the scoped names in insertion
order with each entry's identity, read-only and visibility bits —
everything except the widget contents.  An update pass that only edits
widgets in place leaves the shape unchanged. -/
def WState.shape (s : WState) : List (String × ℕ × Bool × Bool) :=
  s.entries.map (fun p => (p.1, p.2.id, p.2.readOnly, p.2.visible))

/-! ## Pure readers mirroring what the parse walk displays -/

/-- The position/rotation values `Parse`'s `Pose` case reads (the pure
part of `poseLoop`). -/
def poseRead : PFieldList → Vec3 → Quat4 → Vec3 × Quat4
  | .nil, pos, quat => (pos, quat)
  | .cons vf t, pos, quat =>
      if vf.ftype ≠ .tMessage then poseRead t pos quat
      else if vf.msgTypeName = "Vector3d" then
        poseRead t (parseVector3d vf.val.msgD) quat
      else if vf.msgTypeName = "Quaternion" then
        poseRead t pos
          ⟨vf.val.msgD.numAt 0, vf.val.msgD.numAt 1,
           vf.val.msgD.numAt 2, vf.val.msgD.numAt 3⟩
      else poseRead t pos quat

/-- The dimensions `Parse`'s `Geometry` case reads (the pure part of
`geomDimsLoop`). -/
def geomDimsRead : PFieldList → Option Vec3
  | .nil => none
  | .cons gf t =>
      if gf.isRep then geomDimsRead t
      else if gf.ftype ≠ .tMessage ∨ ¬gf.hasF then geomDimsRead t
      else
        let gm := gf.val.msgD
        let gname := gf.msgTypeName
        if gname = "BoxGeom" ∨ gname = "MeshGeom" then
          let fieldIdx : ℕ := if gname = "BoxGeom" then 0 else 1
          match gm.fields.get? fieldIdx with
          | none => some ⟨0, 0, 0⟩
          | some df => some (parseVector3d df.val.msgD)
        else if gname = "CylinderGeom" then
          let radius := ((gm.fields.findByName "radius").map PField.getNum).getD 0
          let length := ((gm.fields.findByName "length").map PField.getNum).getD 0
          some ⟨radius * 2, radius * 2, length⟩
        else if gname = "SphereGeom" then
          let radius := ((gm.fields.findByName "radius").map PField.getNum).getD 0
          some ⟨radius * 2, radius * 2, radius * 2⟩
        else geomDimsRead t

/-! ## What a registered widget displays, per field kind

These predicates state — through the public name-based getters only — that
the widget registered under a field's scoped name shows the field's
current value, with exactly the transformations the code applies (spin-box
clamping, 32-bit narrowing, combo-box lookup). -/

/-- The widget under `sname` displays the leaf field's value: exact for
doubles, strings and bools; through the `[-1e8, 1e8]` spin clamp and the
32-bit narrowing for the integer kinds; for enums, only when the current
value name is on the combo box (otherwise the update is rejected). -/
def dispLeaf (s : WState) (sname : String) (ft : FType) (f : PField) :
    Bool :=
  match ft with
  | .tDouble => decide (s.doubleWidgetValue sname = f.getNum)
  | .tFloat => decide (s.doubleWidgetValue sname = f.getNum)
  | .tInt64 =>
      decide (s.intWidgetValue sname = spinClampSigned (wrap32 f.getInt))
  | .tInt32 => decide (s.intWidgetValue sname = spinClampSigned f.getInt)
  | .tUInt64 =>
      decide (s.uintWidgetValue sname =
        (toUnsigned32 (spinClampUnsigned
          (wrap32 ((toUnsigned32 f.getInt).toNat : ℤ)))).toNat)
  | .tUInt32 =>
      decide (s.uintWidgetValue sname =
        (toUnsigned32 (spinClampUnsigned
          (wrap32 ((toUnsigned32 f.getInt).toNat : ℤ)))).toNat)
  | .tBool => decide (s.boolWidgetValue sname = f.getBool)
  | .tString => decide (s.stringWidgetValue sname = f.getStr)
  | .tEnum =>
      if f.enumNames.contains f.getEnum then
        decide (s.enumWidgetValue sname = f.getEnum)
      else true
  | _ => true

/-- The vector widget displays the submessage's three doubles. -/
def vecDisp (s : WState) (sname : String) (m0 : PMsg) : Bool :=
  decide (s.vector3dWidgetValue sname = parseVector3d m0)

/-- The color widget displays the submessage's four channels, clamped to
`[0, 1]`. -/
def colorDisp (s : WState) (sname : String) (m0 : PMsg) : Bool :=
  decide (s.colorWidgetValue sname =
    ⟨clamp01 (colorFrom m0 4).r, clamp01 (colorFrom m0 4).g,
     clamp01 (colorFrom m0 4).b, clamp01 (colorFrom m0 4).a⟩)

/-- The pose value the pose widget shows: position and quaternion read
from the submessage, the rotation converted to Euler angles. -/
def poseDispVals (mi : MathImpl) (m0 : PMsg) : PoseVals :=
  let pq := poseRead m0.fields ⟨0, 0, 0⟩ ⟨0, 0, 0, 1⟩
  ⟨pq.1.x, pq.1.y, pq.1.z, (mi.quatToEuler pq.2).1,
   (mi.quatToEuler pq.2).2.1, (mi.quatToEuler pq.2).2.2⟩

/-- The pose widget displays the submessage's pose. -/
def poseDisp (mi : MathImpl) (s : WState) (sname : String) (m0 : PMsg) :
    Bool :=
  decide (s.poseWidgetValue sname = poseDispVals mi m0)

/-- The density widget displays the scanned density value. -/
def densDisp (s : WState) (sname : String) (m0 : PMsg) : Bool :=
  decide (s.densityWidgetValue sname = densityScan m0.fields 1)

/-- The geometry type string `Parse` feeds the widget, when the update is
accepted: the type enum must be set and its lowercase name must be on the
combo box. -/
def geomTypeStr (m0 : PMsg) : Option String :=
  match m0.fields.findByName "type" with
  | some tf =>
      if tf.hasF then
        match findTextIdx geomItems tf.getEnum.toLower with
        | some _ => some tf.getEnum.toLower
        | none => none
      else none
  | none => none

/-- The dimensions the geometry widget reports for a given type string,
from the dimensions fed to it (the cylinder and sphere radii are stored
halved and read back doubled; polyline writes none, so the caller's in-out
value — zero here — comes back). -/
def geomExpectedDims (v : String) (dims : Vec3) : Vec3 :=
  if v = "box" ∨ v = "mesh" then dims
  else if v = "cylinder" then ⟨dims.x, dims.x, dims.z⟩
  else if v = "sphere" then ⟨dims.x, dims.x, dims.x⟩
  else ⟨0, 0, 0⟩

/-- The geometry widget displays the submessage's type and dimensions
(when the type enum is set and recognized; the uri is reset to the empty
string, since `Parse` passes an empty uri to the widget update). -/
def geomDisp (s : WState) (sname : String) (m0 : PMsg) : Bool :=
  match geomTypeStr m0 with
  | none => true
  | some v =>
      decide (s.geometryWidgetValue sname ⟨0, 0, 0⟩ "" =
        (v, geomExpectedDims v ((geomDimsRead m0.fields).getD ⟨0, 0, 0⟩),
          ""))

mutual

/-- After a parse pass, the widget under each set, non-repeated field's
scoped name displays that field's value (recursively for generic nested
messages).  Nothing is claimed for repeated fields, unset fields (the
update pass skips them, leaving the widget stale) or unsupported types. -/
def dispF (mi : MathImpl) (s : WState) (pre : String) : PField → Bool
  | f@(.mk nm ft rep has v) =>
    if rep then true
    else if ¬has then true
    else
      let sname := scopedNameOf pre nm
      match ft with
      | .tMessage =>
          match v with
          | .msg (.mk tn0 fs0) =>
              if tn0 = "Geometry" then geomDisp s sname (.mk tn0 fs0)
              else if tn0 = "Pose" then poseDisp mi s sname (.mk tn0 fs0)
              else if tn0 = "Vector3d" then vecDisp s sname (.mk tn0 fs0)
              else if tn0 = "Color" then colorDisp s sname (.mk tn0 fs0)
              else if tn0 = "Density" then densDisp s sname (.mk tn0 fs0)
              else dispL mi s sname fs0
          | _ => true
      | _ => dispLeaf s sname ft f

def dispL (mi : MathImpl) (s : WState) (pre : String) : PFieldList → Bool
  | .nil => true
  | .cons f t => dispF mi s pre f && dispL mi s pre t

end

/-- The widget stored for a leaf field (if any) is of the kind the field's
type calls for — the kind `Parse` creates, which no later update changes;
an enum widget moreover carries exactly the field's value names. -/
def kindLeafOk (w : PWidget) (ft : FType) (f : PField) : Bool :=
  match ft with
  | .tDouble => w.kind == .kDouble
  | .tFloat => w.kind == .kDouble
  | .tInt64 => w.kind == .kInt
  | .tInt32 => w.kind == .kInt
  | .tUInt64 => w.kind == .kUInt
  | .tUInt32 => w.kind == .kUInt
  | .tBool => w.kind == .kBool
  | .tString => w.kind == .kString
  | .tEnum =>
      (match w with
       | .enumW items _ => items == f.enumNames
       | _ => false)
  | _ => true

mutual

/-- Every widget registered under one of the schema's scoped names has the
kind that `Parse` would create for that path (none registered is fine). -/
def kindOkF (s : WState) (pre : String) : PField → Bool
  | f@(.mk nm ft rep _ v) =>
    if rep then true
    else
      let sname := scopedNameOf pre nm
      match ft with
      | .tMessage =>
          match v with
          | .msg (.mk tn0 fs0) =>
              if compositeNames.contains tn0 then
                (match s.lookupW sname with
                 | none => true
                 | some st => st.w.kind == compositeKindOf tn0)
              else kindOkL s sname fs0
          | _ => true
      | _ =>
          (match s.lookupW sname with
           | none => true
           | some st => kindLeafOk st.w ft f)

def kindOkL (s : WState) (pre : String) : PFieldList → Bool
  | .nil => true
  | .cons f t => kindOkF s pre f && kindOkL s pre t

end

/-! ## A pointer-level model of `Load`/`Msg` for the copy-semantics claim

`Load` does `msg = _msg->New(); msg->CopyFrom(*_msg)`: the internal copy
is a freshly allocated object, distinct from the caller's.  To state that,
messages live in a small heap of addresses. -/

/-- Fetch the message at an address. -/
def heapGet (h : List (ℕ × PMsg)) (a : ℕ) : Option PMsg :=
  (h.find? (fun p => p.1 = a)).map (·.2)

/-- Overwrite the message at an address (in place). -/
def heapSet (h : List (ℕ × PMsg)) (a : ℕ) (m : PMsg) : List (ℕ × PMsg) :=
  h.map (fun p => if p.1 = a then (a, m) else p)

/-- An address not used by any allocation in the heap. -/
def freshAddr (h : List (ℕ × PMsg)) : ℕ :=
  (h.map (·.1)).foldr max 0 + 1

/-- A `MessageWidget` whose internal message is a heap pointer
(`dataPtr->msg`, null before `Load`). -/
structure HState where
  heap : List (ℕ × PMsg)
  msgPtr : Option ℕ
  ws : WState

/-- Pointer-level `MessageWidget::Load`: allocate a fresh object, copy the
caller's message into it, and parse the copy.  An invalid source pointer
is a null dereference in the C++ and leaves the model state unchanged. -/
def loadH (mi : MathImpl) (hs : HState) (src : ℕ) : HState :=
  match heapGet hs.heap src with
  | none => hs
  | some m =>
      let b := freshAddr hs.heap
      let (m', ws', _) := parseMsg mi false "" 0 hs.ws m
      ⟨hs.heap ++ [(b, m')], some b, ws'⟩

/-- Pointer-level `MessageWidget::Msg`: update the internal copy in place
and return its address. -/
def msgCallH (mi : MathImpl) (hs : HState) : Option ℕ × HState :=
  match hs.msgPtr with
  | none => (none, hs)
  | some b =>
      match heapGet hs.heap b with
      | none => (some b, hs)
      | some m => (some b, ⟨heapSet hs.heap b (updMsg mi "" hs.ws m), some b, hs.ws⟩)

/-- Pointer-level `MessageWidget::UpdateFromMsg`: copy the source into the
internal object and re-parse. -/
def updateFromMsgH (mi : MathImpl) (hs : HState) (src : ℕ) : HState :=
  match hs.msgPtr, heapGet hs.heap src with
  | some b, some m =>
      let (m', ws', _) := parseMsg mi true "" 0 hs.ws m
      ⟨heapSet hs.heap b m', some b, ws'⟩
  | _, _ => hs

/-- Any public operation after a `Load`: widget edits touch only the
registry, `Msg` and `UpdateFromMsg` write only through the internal
pointer, and a further `Load` writes only a fresh allocation. -/
inductive HStep (mi : MathImpl) : HState → HState → Prop where
  | widgetOp (hs : HState) (g : WState → WState) :
      HStep mi hs ⟨hs.heap, hs.msgPtr, g hs.ws⟩
  | msgOp (hs : HState) : HStep mi hs (msgCallH mi hs).2
  | updateFrom (hs : HState) (src : ℕ) :
      HStep mi hs (updateFromMsgH mi hs src)
  | loadOp (hs : HState) (src : ℕ) : HStep mi hs (loadH mi hs src)

/-- Reflexive-transitive closure of `HStep`. -/
inductive HReach (mi : MathImpl) : HState → HState → Prop where
  | refl (hs : HState) : HReach mi hs hs
  | tail {a b c : HState} : HReach mi a b → HStep mi b c → HReach mi a c

/-! # Theorems

Basic lemmas about the registry, then one theorem per specification
claim. -/

/-- Entry-wise maps that keep keys commute with `find?` on a key. -/
theorem find?_map_keyfix {α β : Type} [DecidableEq α] (l : List (α × β))
    (g : α × β → α × β)
    (hg : ∀ p, (g p).1 = p.1) (n : α) :
    (l.map g).find? (fun p => p.1 = n) =
      (l.find? (fun p => p.1 = n)).map g := by
  induction l with
  | nil => rfl
  | cons p t ih =>
      by_cases h : p.1 = n
      · simp [List.find?, hg p, h]
      · simp [List.find?, hg p, h, ih]

namespace WState

theorem lookupW_setWidgetAt_self (s : WState) (n : String) (w : PWidget) :
    (s.setWidgetAt n w).lookupW n =
      (s.lookupW n).map (fun st => { st with w := w }) := by
  unfold lookupW setWidgetAt
  rw [find?_map_keyfix _ _ (by intro p; by_cases h : p.1 = n <;> simp [h]) n]
  cases h : s.entries.find? (fun p => p.1 = n) with
  | none => rfl
  | some p =>
      have hp := List.find?_some h
      simp at hp
      simp [hp]

theorem lookupW_setWidgetAt_ne (s : WState) (n n' : String) (w : PWidget)
    (h : n' ≠ n) :
    (s.setWidgetAt n w).lookupW n' = s.lookupW n' := by
  unfold lookupW setWidgetAt
  rw [find?_map_keyfix _ _ (by intro p; by_cases hh : p.1 = n <;> simp [hh]) n']
  cases hfind : s.entries.find? (fun p => p.1 = n') with
  | none => rfl
  | some p =>
      have hp := List.find?_some hfind
      simp at hp
      simp [hp, h]

end WState

/-- Claim C8: for every name not registered in the widget map, every
`SetXWidgetValue` operation (int, uint, double, bool, string, vector3,
color, pose, geometry, density, enum) returns false and changes no state;
every `XWidgetValue` getter returns the type's default value (0, 0.0,
false, empty string, or a default-constructed vector/color/pose, with the
geometry getter leaving its in-out arguments untouched); `WidgetVisible`
and `WidgetReadOnly` likewise return false. -/
theorem c8_unknown_name_totality (s : WState) (n : String)
    (h : s.lookupW n = none) :
    (∀ v : ℤ, s.setIntWidgetValue n v = (false, s)) ∧
    (∀ v : ℕ, s.setUIntWidgetValue n v = (false, s)) ∧
    (∀ v : ℚ, s.setDoubleWidgetValue n v = (false, s)) ∧
    (∀ v : Bool, s.setBoolWidgetValue n v = (false, s)) ∧
    (∀ v : String, s.setStringWidgetValue n v = (false, s)) ∧
    (∀ v : Vec3, s.setVector3dWidgetValue n v = (false, s)) ∧
    (∀ v : Color4, s.setColorWidgetValue n v = (false, s)) ∧
    (∀ v : PoseVals, s.setPoseWidgetValue n v = (false, s)) ∧
    (∀ (v : String) (d : Vec3) (u : String),
        s.setGeometryWidgetValue n v d u = (false, s)) ∧
    (∀ v : ℚ, s.setDensityWidgetValue n v = (false, s)) ∧
    (∀ v : String, s.setEnumWidgetValue n v = (false, s)) ∧
    s.intWidgetValue n = 0 ∧
    s.uintWidgetValue n = 0 ∧
    s.doubleWidgetValue n = 0 ∧
    s.boolWidgetValue n = false ∧
    s.stringWidgetValue n = "" ∧
    s.vector3dWidgetValue n = ⟨0, 0, 0⟩ ∧
    s.colorWidgetValue n = ⟨0, 0, 0, 1⟩ ∧
    s.poseWidgetValue n = ⟨0, 0, 0, 0, 0, 0⟩ ∧
    s.densityWidgetValue n = 0 ∧
    (∀ (d : Vec3) (u : String), s.geometryWidgetValue n d u = ("", d, u)) ∧
    s.enumWidgetValue n = "" ∧
    s.widgetVisible n = false ∧
    s.widgetReadOnly n = false := by
  simp [WState.setIntWidgetValue, WState.setUIntWidgetValue,
    WState.setDoubleWidgetValue, WState.setBoolWidgetValue,
    WState.setStringWidgetValue, WState.setVector3dWidgetValue,
    WState.setColorWidgetValue, WState.setPoseWidgetValue,
    WState.setGeometryWidgetValue, WState.setDensityWidgetValue,
    WState.setEnumWidgetValue, WState.setViaUpdater,
    WState.intWidgetValue, WState.uintWidgetValue, WState.doubleWidgetValue,
    WState.boolWidgetValue, WState.stringWidgetValue,
    WState.vector3dWidgetValue, WState.colorWidgetValue,
    WState.poseWidgetValue, WState.densityWidgetValue,
    WState.geometryWidgetValue, WState.enumWidgetValue,
    WState.widgetVisible, WState.widgetReadOnly, h]

/-- Witness for C8 at a concrete state and name. -/
theorem c8_unknown_name_totality_witness :
    emptyWS.lookupW "x" = none ∧
    emptyWS.setIntWidgetValue "x" 5 = (false, emptyWS) ∧
    emptyWS.doubleWidgetValue "x" = 0 ∧
    emptyWS.widgetVisible "x" = false := by
  have h : emptyWS.lookupW "x" = none := rfl
  obtain ⟨h1, h2, h3, h4, h5, h6, h7, h8, h9, h10, h11, h12, h13, h14, h15,
      h16, h17, h18, h19, h20, h21, h22, h23, h24⟩ :=
    c8_unknown_name_totality emptyWS "x" h
  exact ⟨h, h1 5, h14, h23⟩

/-- Claim C10: for every registered geometry widget, every type string in
box/mesh/cylinder/sphere/polyline and every dimensions vector,
`SetGeometryWidgetValue` followed by `GeometryWidgetValue` returns the
same type string; the dimensions returned are exactly those set for box
and mesh (the uri also round-tripping for mesh), (X, X, Z) for cylinder
(the radius is stored as X/2 and read back doubled) and (X, X, X) for
sphere. -/
theorem c10_geometry_roundtrip (s : WState) (n : String) (st : StoredW)
    (idx : ℕ) (sx sy sz r l : ℚ) (u : String)
    (hlook : s.lookupW n = some st)
    (hw : st.w = .geomW idx sx sy sz r l u)
    (typ : String) (htyp : typ ∈ geomItems) (dims : Vec3) (uri : String)
    (d0 : Vec3) (u0 : String) :
    (s.setGeometryWidgetValue n typ dims uri).1 = true ∧
    (((s.setGeometryWidgetValue n typ dims uri).2.geometryWidgetValue
        n d0 u0).1 = typ) ∧
    ((typ = "box" ∨ typ = "mesh") →
      ((s.setGeometryWidgetValue n typ dims uri).2.geometryWidgetValue
        n d0 u0).2.1 = dims) ∧
    (typ = "mesh" →
      ((s.setGeometryWidgetValue n typ dims uri).2.geometryWidgetValue
        n d0 u0).2.2 = uri) ∧
    (typ = "cylinder" →
      ((s.setGeometryWidgetValue n typ dims uri).2.geometryWidgetValue
        n d0 u0).2.1 = ⟨dims.x, dims.x, dims.z⟩) ∧
    (typ = "sphere" →
      ((s.setGeometryWidgetValue n typ dims uri).2.geometryWidgetValue
        n d0 u0).2.1 = ⟨dims.x, dims.x, dims.x⟩) := by
  simp only [geomItems, List.mem_cons, List.not_mem_nil, or_false] at htyp
  rcases htyp with h1 | h1 | h1 | h1 | h1 <;> subst h1 <;>
    simp [WState.setGeometryWidgetValue, WState.setViaUpdater, hlook, hw,
      PWidget.updateGeometryWidget, findTextIdx, geomItems,
      WState.geometryWidgetValue, WState.lookupW_setWidgetAt_self,
      PWidget.geometryWidgetValue]

/-- Witness for C10 at a concrete registered geometry widget. -/
theorem c10_geometry_roundtrip_witness :
    (let st : StoredW := ⟨"g", 0, false, true, freshGeomW⟩
     let s : WState := ⟨[("g", st)], 1⟩
     s.lookupW "g" = some st ∧ st.w = .geomW 0 1 1 1 (1/2) 1 "" ∧
     "cylinder" ∈ geomItems ∧
     (s.setGeometryWidgetValue "g" "cylinder" ⟨4, 4, 9⟩ "").1 = true ∧
     ((s.setGeometryWidgetValue "g" "cylinder" ⟨4, 4, 9⟩ "").2.geometryWidgetValue
        "g" ⟨0, 0, 0⟩ "").2.1 = ⟨4, 4, 9⟩) := by
  have hlook : (⟨[("g", ⟨"g", 0, false, true, freshGeomW⟩)], 1⟩ : WState).lookupW "g"
      = some ⟨"g", 0, false, true, freshGeomW⟩ := rfl
  have hmem : "cylinder" ∈ geomItems := by decide
  have c := c10_geometry_roundtrip _ "g" _ 0 1 1 1 (1/2) 1 ""
    hlook rfl "cylinder" hmem ⟨4, 4, 9⟩ "" ⟨0, 0, 0⟩ ""
  refine ⟨hlook, rfl, hmem, c.1, ?_⟩
  have := c.2.2.2.2.1 rfl
  simpa using this

/-! ## The registry invariant (claim C9) -/

/-- The registry invariant: scoped names are unique keys, and every stored
widget's `scopedName` member equals the key it is registered under. -/
def WInv (s : WState) : Prop :=
  (s.entries.map Prod.fst).Nodup ∧
    ∀ p ∈ s.entries, p.2.scopedName = p.1

theorem winv_empty : WInv emptyWS := by
  constructor <;> simp [emptyWS]

theorem winv_addPropertyWidget (s : WState) (n : String)
    (c : Option (ℕ × PWidget)) (h : WInv s) :
    WInv (s.addPropertyWidget n c).2 := by
  match c with
  | none => exact h
  | some (i, w) =>
      by_cases hn : n = ""
      · simpa [WState.addPropertyWidget, hn] using h
      · by_cases hl : (s.lookupW n).isSome
        · simpa [WState.addPropertyWidget, hn, hl] using h
        · have hred : s.addPropertyWidget n (some (i, w)) =
              (true, { s with entries :=
                s.entries ++ [(n, ⟨n, i, false, true, w⟩)] }) := by
            unfold WState.addPropertyWidget
            simp [hn, hl]
          have hnone : s.entries.find? (fun q => q.1 = n) = none := by
            unfold WState.lookupW at hl
            cases hf : s.entries.find? (fun q => q.1 = n) with
            | none => rfl
            | some p => rw [hf] at hl; simp at hl
          have hnot : n ∉ s.entries.map Prod.fst := by
            intro hmem
            rcases List.mem_map.mp hmem with ⟨p, hp, hpe⟩
            have := List.find?_eq_none.mp hnone p hp
            simp [hpe] at this
          rcases h with ⟨hd, hs⟩
          rw [hred]
          dsimp only
          constructor
          · rw [List.map_append]
            refine List.Nodup.append hd (by simp) ?_
            intro a ha hb
            simp at hb
            subst hb
            exact hnot ha
          · intro p hp
            rcases List.mem_append.mp hp with hp | hp
            · exact hs p hp
            · simp at hp
              simp [hp]

theorem winv_mapkeyfix (s : WState) (g : String × StoredW → String × StoredW)
    (hk : ∀ p, (g p).1 = p.1)
    (hsn : ∀ p, (g p).2.scopedName = p.2.scopedName) (k : ℕ) (h : WInv s) :
    WInv ⟨s.entries.map g, k⟩ := by
  rcases h with ⟨hd, hs⟩
  constructor
  · have he : (s.entries.map g).map Prod.fst = s.entries.map Prod.fst := by
      rw [List.map_map]
      exact List.map_congr_left (fun p _ => hk p)
    simpa [he] using hd
  · intro p hp
    rcases List.mem_map.mp hp with ⟨q, hq, rfl⟩
    rw [hsn q, hk q]
    exact hs q hq

theorem winv_setWidgetAt (s : WState) (n : String) (w : PWidget)
    (h : WInv s) : WInv (s.setWidgetAt n w) := by
  refine winv_mapkeyfix s _ ?_ ?_ s.nextId h <;>
    intro p <;> by_cases hp : p.1 = n <;> simp [hp]

theorem winv_setWidgetVisible (s : WState) (n : String) (v : Bool)
    (h : WInv s) : WInv (s.setWidgetVisible n v) := by
  refine winv_mapkeyfix s _ ?_ ?_ s.nextId h <;>
    intro p <;> by_cases hp : p.1 = n <;> simp [hp]

theorem winv_setWidgetReadOnly (s : WState) (n : String) (v : Bool)
    (h : WInv s) : WInv (s.setWidgetReadOnly n v) := by
  refine winv_mapkeyfix s _ ?_ ?_ s.nextId h <;>
    intro p <;> by_cases hp : p.1 = n <;> simp [hp]

theorem winv_setViaUpdater (s : WState) (n : String)
    (u : PWidget → Bool × PWidget) (h : WInv s) :
    WInv (s.setViaUpdater n u).2 := by
  unfold WState.setViaUpdater
  cases hl : s.lookupW n with
  | none => exact h
  | some st => exact winv_setWidgetAt s n _ h

theorem winv_nextId (s : WState) (k : ℕ) (h : WInv s) :
    WInv { s with nextId := k } := h

theorem winv_handleLeaf (s : WState) (sname : String)
    (ex : Option StoredW) (fresh : PWidget)
    (updFn : PWidget → Bool × PWidget) (h : WInv s) :
    WInv (s.handleLeaf sname ex fresh updFn).1 := by
  unfold WState.handleLeaf
  match ex with
  | none =>
      exact winv_addPropertyWidget _ sname _ (winv_nextId s _ h)
  | some st =>
      exact winv_setWidgetAt s sname _ h

theorem winv_leafStep (s : WState) (sname : String) (ex : Option StoredW)
    (fresh : PWidget) (updFn : PWidget → Bool × PWidget) (f : PField)
    (h : WInv s) : WInv (leafStep s sname ex fresh updFn f).2.1 := by
  unfold leafStep
  exact winv_handleLeaf s sname ex fresh updFn h

theorem winv_geomFieldStep (s : WState) (sname : String)
    (ex : Option StoredW) (nm : String) (ft : FType) (rep : Bool)
    (m0 : PMsg) (h : WInv s) :
    WInv (geomFieldStep s sname ex nm ft rep m0).2.1 := by
  unfold geomFieldStep
  exact winv_handleLeaf s sname ex _ _ h

theorem winv_poseFieldStep (mi : MathImpl) (s : WState) (sname : String)
    (ex : Option StoredW) (nm : String) (ft : FType) (rep : Bool)
    (m0 : PMsg) (h : WInv s) :
    WInv (poseFieldStep mi s sname ex nm ft rep m0).2.1 := by
  unfold poseFieldStep
  exact winv_handleLeaf s sname ex _ _ h

theorem winv_vec3FieldStep (s : WState) (sname : String)
    (ex : Option StoredW) (nm : String) (ft : FType) (rep : Bool)
    (m0 : PMsg) (h : WInv s) :
    WInv (vec3FieldStep s sname ex nm ft rep m0).2.1 := by
  unfold vec3FieldStep
  exact winv_handleLeaf s sname ex _ _ h

theorem winv_colorFieldStep (s : WState) (sname : String)
    (ex : Option StoredW) (nm : String) (ft : FType) (rep : Bool)
    (m0 : PMsg) (h : WInv s) :
    WInv (colorFieldStep s sname ex nm ft rep m0).2.1 := by
  unfold colorFieldStep
  exact winv_handleLeaf s sname ex _ _ h

theorem winv_densityFieldStep (s : WState) (sname : String)
    (ex : Option StoredW) (nm : String) (ft : FType) (rep : Bool)
    (m0 : PMsg) (h : WInv s) :
    WInv (densityFieldStep s sname ex nm ft rep m0).2.1 := by
  unfold densityFieldStep
  exact winv_handleLeaf s sname ex _ _ h

theorem winv_genericWrapStep (s1 : WState) (sname : String)
    (ex : Option StoredW) (nm : String) (ft : FType) (rep : Bool)
    (m1 : PMsg) (created : Bool) (h : WInv s1) :
    WInv (genericWrapStep s1 sname ex nm ft rep m1 created).2.1 := by
  unfold genericWrapStep
  cases created with
  | false =>
      rw [if_neg (by simp)]
      exact h
  | true =>
      rw [if_pos rfl]
      cases ex with
      | none =>
          dsimp only
          exact winv_addPropertyWidget _ _ _ (winv_nextId s1 _ h)
      | some st =>
          dsimp only
          exact winv_nextId s1 _ h

set_option maxHeartbeats 2000000 in
mutual

theorem parseField_winv (mi : MathImpl) (upd : Bool) (pre : String)
    (lvl : ℕ) (s : WState) (f : PField) (h : WInv s) :
    WInv (parseField mi upd pre lvl s f).2.1 := by
  cases f with
  | mk nm ft rep has v =>
      rw [parseField]
      by_cases h1 : rep = true
      · rw [if_pos h1]
        exact h
      · rw [if_neg h1]
        by_cases h2 : upd = true ∧ ¬has = true
        · rw [if_pos h2]
          exact h
        · rw [if_neg h2]
          cases ft
          -- tDouble, tFloat, tInt64, tUInt64, tInt32, tUInt32, tBool, tString
          · exact winv_leafStep _ _ _ _ _ _ h
          · exact winv_leafStep _ _ _ _ _ _ h
          · exact winv_leafStep _ _ _ _ _ _ h
          · exact winv_leafStep _ _ _ _ _ _ h
          · exact winv_leafStep _ _ _ _ _ _ h
          · exact winv_leafStep _ _ _ _ _ _ h
          · exact winv_leafStep _ _ _ _ _ _ h
          · exact winv_leafStep _ _ _ _ _ _ h
          -- tMessage
          · cases v
            -- num, int, bool, str, enum
            · exact h
            · exact h
            · exact h
            · exact h
            · exact h
            -- msg
            · next m0 =>
              dsimp only
              by_cases hg : m0.typeName = "Geometry"
              · rw [if_pos hg]
                exact winv_geomFieldStep _ _ _ _ _ _ _ h
              · rw [if_neg hg]
                by_cases hp : m0.typeName = "Pose"
                · rw [if_pos hp]
                  exact winv_poseFieldStep _ _ _ _ _ _ _ _ h
                · rw [if_neg hp]
                  by_cases hv : m0.typeName = "Vector3d"
                  · rw [if_pos hv]
                    exact winv_vec3FieldStep _ _ _ _ _ _ _ h
                  · rw [if_neg hv]
                    by_cases hc : m0.typeName = "Color"
                    · rw [if_pos hc]
                      exact winv_colorFieldStep _ _ _ _ _ _ _ h
                    · rw [if_neg hc]
                      by_cases hd : m0.typeName = "Density"
                      · rw [if_pos hd]
                        exact winv_densityFieldStep _ _ _ _ _ _ _ h
                      · rw [if_neg hd]
                        rcases hpm : parseMsg mi upd (scopedNameOf pre nm)
                            (lvl + 1) s m0 with ⟨m1, s1, created⟩
                        have hs1 : WInv s1 := by
                          have := parseMsg_winv mi upd (scopedNameOf pre nm)
                            (lvl + 1) s m0 h
                          rw [hpm] at this
                          exact this
                        simp only [hpm]
                        exact winv_genericWrapStep _ _ _ _ _ _ _ _ hs1
            -- unset
            · exact h
          -- tEnum
          · exact winv_leafStep _ _ _ _ _ _ h
          -- tOther
          · exact h

theorem parseFields_winv (mi : MathImpl) (upd : Bool) (pre : String)
    (lvl : ℕ) (s : WState) (fl : PFieldList) (h : WInv s) :
    WInv (parseFields mi upd pre lvl s fl).2.1 := by
  cases fl with
  | nil =>
      rw [parseFields]
      exact h
  | cons f t =>
      rw [parseFields]
      rcases hf : parseField mi upd pre lvl s f with ⟨f', s', c1⟩
      have h' : WInv s' := by
        have := parseField_winv mi upd pre lvl s f h
        rw [hf] at this
        exact this
      rcases ht : parseFields mi upd pre lvl s' t with ⟨t', s'', c2⟩
      have h'' : WInv s'' := by
        have := parseFields_winv mi upd pre lvl s' t h'
        rw [ht] at this
        exact this
      simp only [hf, ht]
      exact h''

theorem parseMsg_winv (mi : MathImpl) (upd : Bool) (pre : String)
    (lvl : ℕ) (s : WState) (m : PMsg) (h : WInv s) :
    WInv (parseMsg mi upd pre lvl s m).2.1 := by
  cases m with
  | mk tn fs =>
      rw [parseMsg]
      rcases hf : parseFields mi upd pre lvl s fs with ⟨fs', s', c⟩
      have h' : WInv s' := by
        have := parseFields_winv mi upd pre lvl s fs h
        rw [hf] at this
        exact this
      simp only [hf]
      exact h'

end

theorem winv_clearEnumWidget (s : WState) (n : String) (h : WInv s) :
    WInv (s.clearEnumWidget n).2 := by
  unfold WState.clearEnumWidget
  cases s.lookupW n with
  | none => exact h
  | some st =>
      obtain ⟨sn, idv, ro, vis, w⟩ := st
      cases w <;> first
        | exact h
        | exact winv_setWidgetAt s n _ h

theorem winv_addItemEnumWidget (s : WState) (n item : String) (h : WInv s) :
    WInv (s.addItemEnumWidget n item).2 := by
  unfold WState.addItemEnumWidget
  cases s.lookupW n with
  | none => exact h
  | some st =>
      obtain ⟨sn, idv, ro, vis, w⟩ := st
      cases w <;> first
        | exact h
        | exact winv_setWidgetAt s n _ h

theorem winv_removeItemEnumWidget (s : WState) (n item : String)
    (h : WInv s) : WInv (s.removeItemEnumWidget n item).2 := by
  unfold WState.removeItemEnumWidget
  cases s.lookupW n with
  | none => exact h
  | some st =>
      obtain ⟨sn, idv, ro, vis, w⟩ := st
      cases w <;> try exact h
      next items idx =>
        dsimp only
        cases hf : findTextIdx items item with
        | none =>
            simp only [hf]
            exact h
        | some i =>
            simp only [hf]
            exact winv_setWidgetAt s n _ h

/-- Claim C9: `AddPropertyWidget` returns false and leaves the registry
unchanged when given an empty name, a null widget, or a name already
registered; and at every state reachable from a `Load` through the public
interface, the registry maps each scoped name to exactly one widget
(scoped names are duplicate-free keys) and every registered widget's
stored `scopedName` equals the key it is registered under. -/
theorem winv_load (mi : MathImpl) (m : PMsg) : WInv (load mi m).ws := by
  unfold load
  rcases hp : parseMsg mi false "" 0 emptyWS m with ⟨m', ws', c⟩
  have := parseMsg_winv mi false "" 0 emptyWS m winv_empty
  rw [hp] at this
  simpa [hp] using this

theorem winv_updateFromMsg (mi : MathImpl) (m : PMsg) (st : MWState)
    (h : WInv st.ws) : WInv (updateFromMsg mi m st).ws := by
  unfold updateFromMsg
  rcases hp : parseMsg mi true "" 0 st.ws m with ⟨m', ws', c⟩
  have := parseMsg_winv mi true "" 0 st.ws m h
  rw [hp] at this
  simpa [hp] using this

theorem c9_registry_invariant (mi : MathImpl) :
    (∀ st : MWState, MWReachable mi st → WInv st.ws) ∧
    (∀ (s : WState) (c : Option (ℕ × PWidget)),
        s.addPropertyWidget "" c = (false, s)) ∧
    (∀ (s : WState) (n : String), s.addPropertyWidget n none = (false, s)) ∧
    (∀ (s : WState) (n : String) (c : Option (ℕ × PWidget)),
        (s.lookupW n).isSome → s.addPropertyWidget n c = (false, s)) := by
  refine ⟨?_, ?_, ?_, ?_⟩
  · intro st h
    induction h with
    | loaded m => exact winv_load mi m
    | step _ hs ih =>
        cases hs with
        | updateFromMsg m => exact winv_updateFromMsg _ _ _ ih
        | msgOp => exact ih
        | setInt n v => exact winv_setViaUpdater _ _ _ ih
        | setUInt n v => exact winv_setViaUpdater _ _ _ ih
        | setDouble n v => exact winv_setViaUpdater _ _ _ ih
        | setBool n v => exact winv_setViaUpdater _ _ _ ih
        | setString n v => exact winv_setViaUpdater _ _ _ ih
        | setVector3d n v => exact winv_setViaUpdater _ _ _ ih
        | setColor n v => exact winv_setViaUpdater _ _ _ ih
        | setPose n v => exact winv_setViaUpdater _ _ _ ih
        | setGeometry n v dims uri => exact winv_setViaUpdater _ _ _ ih
        | setDensity n v => exact winv_setViaUpdater _ _ _ ih
        | setEnum n v => exact winv_setViaUpdater _ _ _ ih
        | setVisible n v => exact winv_setWidgetVisible _ _ _ ih
        | setReadOnly n v => exact winv_setWidgetReadOnly _ _ _ ih
        | clearEnum n => exact winv_clearEnumWidget _ _ ih
        | addItemEnum n item => exact winv_addItemEnumWidget _ _ _ ih
        | removeItemEnum n item => exact winv_removeItemEnumWidget _ _ _ ih
  · intro s c
    cases c with
    | none => rfl
    | some p => simp [WState.addPropertyWidget]
  · intro s n
    rfl
  · intro s n c hl
    cases c with
    | none => rfl
    | some p =>
        unfold WState.addPropertyWidget
        by_cases hn : n = "" <;> simp [hn, hl]

/-- Witness for C9 at a concrete reachable state and concrete rejected
insertions. -/
theorem c9_registry_invariant_witness :
    WInv (load dummyMath (.mk "M"
      (.cons (.mk "x" .tDouble false true (.num 5)) .nil))).ws ∧
    emptyWS.addPropertyWidget "" (some (0, .doubleW 0)) = (false, emptyWS) ∧
    emptyWS.addPropertyWidget "x" none = (false, emptyWS) := by
  have c := c9_registry_invariant dummyMath
  exact ⟨c.1 _ (MWReachable.loaded _), c.2.1 emptyWS _, c.2.2.1 emptyWS "x"⟩

/-! ## Copy semantics of `Load` (claim C6) -/

theorem heapGet_heapSet_ne (h : List (ℕ × PMsg)) (a b : ℕ) (m : PMsg)
    (hab : a ≠ b) : heapGet (heapSet h b m) a = heapGet h a := by
  unfold heapGet heapSet
  rw [find?_map_keyfix _ _ (by
    intro p
    by_cases hp : p.1 = b <;> simp [hp]) a]
  cases hf : h.find? (fun p => p.1 = a) with
  | none => rfl
  | some p =>
      have hp : p.1 = a := by simpa using List.find?_some hf
      have : ¬(p.1 = b) := by
        rw [hp]
        exact hab
      simp [this]

theorem heapGet_append_left (h l : List (ℕ × PMsg)) (a : ℕ) (m : PMsg)
    (ha : heapGet h a = some m) : heapGet (h ++ l) a = some m := by
  unfold heapGet at ha ⊢
  cases hf : h.find? (fun p => p.1 = a) with
  | none => rw [hf] at ha; simp at ha
  | some p =>
      rw [hf] at ha
      rw [List.find?_append, hf]
      simpa using ha

theorem mem_le_foldr_max (l : List ℕ) (a : ℕ) (ha : a ∈ l) :
    a ≤ l.foldr max 0 := by
  induction l with
  | nil => cases ha
  | cons x t ih =>
      rcases List.mem_cons.mp ha with h | h
      · subst h
        exact le_max_left _ _
      · exact le_trans (ih h) (le_max_right _ _)

theorem heapGet_lt_freshAddr (h : List (ℕ × PMsg)) (a : ℕ) (m : PMsg)
    (ha : heapGet h a = some m) : a < freshAddr h := by
  unfold heapGet at ha
  cases hf : h.find? (fun p => p.1 = a) with
  | none => rw [hf] at ha; simp at ha
  | some p =>
      have hmem := List.mem_of_find?_eq_some hf
      have hkey : p.1 = a := by simpa using List.find?_some hf
      have : a ∈ h.map Prod.fst := hkey ▸ List.mem_map_of_mem Prod.fst hmem
      unfold freshAddr
      exact Nat.lt_succ_of_le (mem_le_foldr_max _ _ this)

/-- The step invariant behind C6: the caller's object keeps its value and
the internal pointer never aliases it. -/
theorem c6_inv_step (mi : MathImpl) (src : ℕ) (m : PMsg)
    {a b : HState} (hstep : HStep mi a b)
    (ha : heapGet a.heap src = some m ∧
      ∀ p, a.msgPtr = some p → p ≠ src) :
    heapGet b.heap src = some m ∧ ∀ p, b.msgPtr = some p → p ≠ src := by
  rcases ha with ⟨hheap, hptr⟩
  cases hstep with
  | widgetOp g => exact ⟨hheap, hptr⟩
  | msgOp =>
      unfold msgCallH
      cases hmp : a.msgPtr with
      | none => exact ⟨hheap, hptr⟩
      | some p =>
          have hps : p ≠ src := hptr p hmp
          dsimp only
          cases hg : heapGet a.heap p with
          | none =>
              simp only [hg]
              exact ⟨hheap, fun q hq => hptr q hq⟩
          | some mm =>
              simp only [hg]
              refine ⟨?_, ?_⟩
              · exact (heapGet_heapSet_ne _ _ _ _ (fun hc => hps hc.symm)).trans
                  hheap
              · intro q hq
                simp at hq
                subst hq
                exact hps
  | updateFrom src' =>
      unfold updateFromMsgH
      cases hmp : a.msgPtr with
      | none => exact ⟨hheap, hptr⟩
      | some p =>
          dsimp only
          cases hg : heapGet a.heap src' with
          | none =>
              simp only [hg]
              exact ⟨hheap, fun q hq => hptr q hq⟩
          | some mm =>
              simp only [hg]
              have hps : p ≠ src := hptr p hmp
              rcases hp2 : parseMsg mi true "" 0 a.ws mm with ⟨m', ws', c⟩
              simp only [hp2]
              refine ⟨?_, ?_⟩
              · exact (heapGet_heapSet_ne _ _ _ _ (fun hc => hps hc.symm)).trans
                  hheap
              · intro q hq
                simp at hq
                subst hq
                exact hps
  | loadOp src' =>
      unfold loadH
      cases hg : heapGet a.heap src' with
      | none =>
          simp only [hg]
          exact ⟨hheap, hptr⟩
      | some mm =>
          simp only [hg]
          rcases hp2 : parseMsg mi false "" 0 a.ws mm with ⟨m', ws', c⟩
          simp only [hp2]
          refine ⟨?_, ?_⟩
          · exact heapGet_append_left _ _ _ _ hheap
          · intro q hq
            simp at hq
            subst hq
            intro hc
            exact absurd (hc ▸ heapGet_lt_freshAddr _ _ _ hheap)
              (lt_irrefl _)

/-- Claim C6: `Load` stores a freshly allocated copy of the caller's
message: the internal pointer is fresh (distinct from the caller's
object), the caller's object is not mutated by `Load` nor by any
subsequent public operation (widget edits, `Msg`, `UpdateFromMsg`, further
`Load`s), and `Msg` returns the internal copy's address, never the
caller's. -/
theorem c6_load_copy_semantics (mi : MathImpl) (hs0 : HState) (src : ℕ)
    (m : PMsg) (hsrc : heapGet hs0.heap src = some m) :
    (loadH mi hs0 src).msgPtr = some (freshAddr hs0.heap) ∧
    freshAddr hs0.heap ≠ src ∧
    heapGet (loadH mi hs0 src).heap src = some m ∧
    (∀ hs2, HReach mi (loadH mi hs0 src) hs2 →
      heapGet hs2.heap src = some m ∧
      ∀ b, (msgCallH mi hs2).1 = some b → b ≠ src) := by
  have hfresh : freshAddr hs0.heap ≠ src := by
    intro hc
    exact absurd (hc ▸ heapGet_lt_freshAddr _ _ _ hsrc) (lt_irrefl _)
  have hload1 : (loadH mi hs0 src).msgPtr = some (freshAddr hs0.heap) := by
    unfold loadH
    rw [hsrc]
  have hload2 : heapGet (loadH mi hs0 src).heap src = some m := by
    unfold loadH
    rw [hsrc]
    rcases hp : parseMsg mi false "" 0 hs0.ws m with ⟨m', ws', c⟩
    simp only [hp]
    exact heapGet_append_left _ _ _ _ hsrc
  have hinv : ∀ hs2, HReach mi (loadH mi hs0 src) hs2 →
      heapGet hs2.heap src = some m ∧
      ∀ p, hs2.msgPtr = some p → p ≠ src := by
    intro hs2 hr
    induction hr with
    | refl =>
        refine ⟨hload2, ?_⟩
        intro p hp
        rw [hload1] at hp
        simp at hp
        subst hp
        exact hfresh
    | tail _ hstep ih => exact c6_inv_step mi src m hstep ih
  refine ⟨hload1, hfresh, hload2, ?_⟩
  intro hs2 hr
  rcases hinv hs2 hr with ⟨hh, hp⟩
  refine ⟨hh, ?_⟩
  intro b hb
  unfold msgCallH at hb
  cases hmp : hs2.msgPtr with
  | none => rw [hmp] at hb; simp at hb
  | some p =>
      rw [hmp] at hb
      dsimp only at hb
      have hbp : b = p := by
        cases hg2 : heapGet hs2.heap p with
        | none =>
            rw [hg2] at hb
            simpa using hb.symm
        | some mm =>
            rw [hg2] at hb
            simpa using hb.symm
      subst hbp
      exact hp b hmp

/-- Witness for C6 at a concrete heap. -/
theorem c6_load_copy_semantics_witness :
    (heapGet [(0, PMsg.mk "M" .nil)] 0 = some (PMsg.mk "M" .nil)) ∧
    (loadH dummyMath ⟨[(0, PMsg.mk "M" .nil)], none, emptyWS⟩ 0).msgPtr =
      some 1 ∧
    heapGet (loadH dummyMath ⟨[(0, PMsg.mk "M" .nil)], none, emptyWS⟩ 0).heap 0
      = some (PMsg.mk "M" .nil) := by
  have h0 : heapGet [(0, PMsg.mk "M" .nil)] 0 = some (PMsg.mk "M" .nil) := rfl
  have c := c6_load_copy_semantics dummyMath
    ⟨[(0, PMsg.mk "M" .nil)], none, emptyWS⟩ 0 (PMsg.mk "M" .nil) h0
  exact ⟨h0, c.1, c.2.2.1⟩

/-! ## Registration of the schema by `Parse` (claims C3, C4, C5)

`wgrows s s'` says the registry only gained names; every step of the walk
grows the registry, and a walk over a fully registered schema in update
mode leaves the registry untouched. -/

/-- The registry of `s'` binds every name the registry of `s` binds. -/
def wgrows (s s' : WState) : Prop :=
  ∀ n, (s.lookupW n).isSome → (s'.lookupW n).isSome

theorem wgrows_refl (s : WState) : wgrows s s := fun _ h => h

theorem wgrows_trans {a b c : WState} (h1 : wgrows a b) (h2 : wgrows b c) :
    wgrows a c := fun n h => h2 n (h1 n h)

theorem wgrows_setWidgetAt (s : WState) (n : String) (w : PWidget) :
    wgrows s (s.setWidgetAt n w) := by
  intro n' h
  by_cases hn : n' = n
  · subst hn
    rw [WState.lookupW_setWidgetAt_self]
    simpa using h
  · rwa [WState.lookupW_setWidgetAt_ne s n n' w hn]

theorem lookupW_addPropertyWidget_other (s : WState) (n n' : String)
    (c : Option (ℕ × PWidget)) (hne : n' ≠ n) :
    (s.addPropertyWidget n c).2.lookupW n' = s.lookupW n' := by
  match c with
  | none => rfl
  | some (i, w) =>
      unfold WState.addPropertyWidget
      dsimp only
      by_cases hn : n = ""
      · rw [if_pos hn]
      · rw [if_neg hn]
        by_cases hl : (s.lookupW n).isSome
        · rw [if_pos hl]
        · rw [if_neg hl]
          dsimp only
          unfold WState.lookupW
          simp only [List.find?_append]
          cases hf : s.entries.find? (fun p => p.1 = n') with
          | none =>
              simp [List.find?, Ne.symm hne]
          | some p =>
              simp

theorem lookupW_addPropertyWidget_success (s : WState) (n : String)
    (i : ℕ) (w : PWidget) (hn : n ≠ "") (hl : s.lookupW n = none) :
    (s.addPropertyWidget n (some (i, w))).2.lookupW n =
      some ⟨n, i, false, true, w⟩ := by
  unfold WState.addPropertyWidget
  dsimp only
  rw [if_neg hn, if_neg (by simp [hl])]
  dsimp only
  unfold WState.lookupW
  simp only [List.find?_append]
  have hff : s.entries.find? (fun p => p.1 = n) = none := by
    unfold WState.lookupW at hl
    cases hf : s.entries.find? (fun p => p.1 = n) with
    | none => rfl
    | some p => rw [hf] at hl; simp at hl
  simp [hff, List.find?]

theorem wgrows_addPropertyWidget (s : WState) (n : String)
    (c : Option (ℕ × PWidget)) :
    wgrows s (s.addPropertyWidget n c).2 := by
  intro n' h
  by_cases hne : n' = n
  · subst hne
    match c with
    | none => exact h
    | some (i, w) =>
        unfold WState.addPropertyWidget
        dsimp only
        by_cases hn : n' = ""
        · rw [if_pos hn]; exact h
        · rw [if_neg hn]
          by_cases hl : (s.lookupW n').isSome
          · rw [if_pos hl]; exact h
          · exact absurd h hl
  · rwa [lookupW_addPropertyWidget_other s n n' c hne]

theorem wgrows_nextId (s : WState) (k : ℕ) :
    wgrows s { s with nextId := k } := fun _ h => h

theorem wgrows_handleLeaf (s : WState) (sname : String)
    (ex : Option StoredW) (fresh : PWidget)
    (updFn : PWidget → Bool × PWidget) :
    wgrows s (s.handleLeaf sname ex fresh updFn).1 := by
  unfold WState.handleLeaf
  match ex with
  | none =>
      exact wgrows_trans (wgrows_nextId s _) (wgrows_addPropertyWidget _ _ _)
  | some st => exact wgrows_setWidgetAt s sname _

theorem wgrows_leafStep (s : WState) (sname : String) (ex : Option StoredW)
    (fresh : PWidget) (updFn : PWidget → Bool × PWidget) (f : PField) :
    wgrows s (leafStep s sname ex fresh updFn f).2.1 :=
  wgrows_handleLeaf s sname ex fresh updFn

theorem wgrows_geomFieldStep (s : WState) (sname : String)
    (ex : Option StoredW) (nm : String) (ft : FType) (rep : Bool)
    (m0 : PMsg) : wgrows s (geomFieldStep s sname ex nm ft rep m0).2.1 := by
  unfold geomFieldStep
  exact wgrows_handleLeaf s sname ex _ _

theorem wgrows_poseFieldStep (mi : MathImpl) (s : WState) (sname : String)
    (ex : Option StoredW) (nm : String) (ft : FType) (rep : Bool)
    (m0 : PMsg) :
    wgrows s (poseFieldStep mi s sname ex nm ft rep m0).2.1 := by
  unfold poseFieldStep
  exact wgrows_handleLeaf s sname ex _ _

theorem wgrows_vec3FieldStep (s : WState) (sname : String)
    (ex : Option StoredW) (nm : String) (ft : FType) (rep : Bool)
    (m0 : PMsg) : wgrows s (vec3FieldStep s sname ex nm ft rep m0).2.1 := by
  unfold vec3FieldStep
  exact wgrows_handleLeaf s sname ex _ _

theorem wgrows_colorFieldStep (s : WState) (sname : String)
    (ex : Option StoredW) (nm : String) (ft : FType) (rep : Bool)
    (m0 : PMsg) : wgrows s (colorFieldStep s sname ex nm ft rep m0).2.1 := by
  unfold colorFieldStep
  exact wgrows_handleLeaf s sname ex _ _

theorem wgrows_densityFieldStep (s : WState) (sname : String)
    (ex : Option StoredW) (nm : String) (ft : FType) (rep : Bool)
    (m0 : PMsg) :
    wgrows s (densityFieldStep s sname ex nm ft rep m0).2.1 := by
  unfold densityFieldStep
  exact wgrows_handleLeaf s sname ex _ _

theorem wgrows_genericWrapStep (s1 : WState) (sname : String)
    (ex : Option StoredW) (nm : String) (ft : FType) (rep : Bool)
    (m1 : PMsg) (created : Bool) :
    wgrows s1 (genericWrapStep s1 sname ex nm ft rep m1 created).2.1 := by
  unfold genericWrapStep
  cases created with
  | false =>
      rw [if_neg (by simp)]
      exact wgrows_refl s1
  | true =>
      rw [if_pos rfl]
      cases ex with
      | none =>
          dsimp only
          exact wgrows_trans (wgrows_nextId s1 _)
            (wgrows_addPropertyWidget _ _ _)
      | some st =>
          dsimp only
          exact wgrows_nextId s1 _

mutual

theorem parseField_wgrows (mi : MathImpl) (upd : Bool) (pre : String)
    (lvl : ℕ) (s : WState) (f : PField) :
    wgrows s (parseField mi upd pre lvl s f).2.1 := by
  cases f with
  | mk nm ft rep has v =>
      rw [parseField]
      by_cases h1 : rep = true
      · rw [if_pos h1]
        exact wgrows_refl s
      · rw [if_neg h1]
        by_cases h2 : upd = true ∧ ¬has = true
        · rw [if_pos h2]
          exact wgrows_refl s
        · rw [if_neg h2]
          cases ft
          · exact wgrows_leafStep _ _ _ _ _ _
          · exact wgrows_leafStep _ _ _ _ _ _
          · exact wgrows_leafStep _ _ _ _ _ _
          · exact wgrows_leafStep _ _ _ _ _ _
          · exact wgrows_leafStep _ _ _ _ _ _
          · exact wgrows_leafStep _ _ _ _ _ _
          · exact wgrows_leafStep _ _ _ _ _ _
          · exact wgrows_leafStep _ _ _ _ _ _
          · cases v
            · exact wgrows_refl s
            · exact wgrows_refl s
            · exact wgrows_refl s
            · exact wgrows_refl s
            · exact wgrows_refl s
            · next m0 =>
              dsimp only
              by_cases hg : m0.typeName = "Geometry"
              · rw [if_pos hg]
                exact wgrows_geomFieldStep _ _ _ _ _ _ _
              · rw [if_neg hg]
                by_cases hp : m0.typeName = "Pose"
                · rw [if_pos hp]
                  exact wgrows_poseFieldStep _ _ _ _ _ _ _ _
                · rw [if_neg hp]
                  by_cases hv : m0.typeName = "Vector3d"
                  · rw [if_pos hv]
                    exact wgrows_vec3FieldStep _ _ _ _ _ _ _
                  · rw [if_neg hv]
                    by_cases hc : m0.typeName = "Color"
                    · rw [if_pos hc]
                      exact wgrows_colorFieldStep _ _ _ _ _ _ _
                    · rw [if_neg hc]
                      by_cases hd : m0.typeName = "Density"
                      · rw [if_pos hd]
                        exact wgrows_densityFieldStep _ _ _ _ _ _ _
                      · rw [if_neg hd]
                        rcases hpm : parseMsg mi upd (scopedNameOf pre nm)
                            (lvl + 1) s m0 with ⟨m1, s1, created⟩
                        have hs1 : wgrows s s1 := by
                          have := parseMsg_wgrows mi upd (scopedNameOf pre nm)
                            (lvl + 1) s m0
                          rw [hpm] at this
                          exact this
                        simp only [hpm]
                        exact wgrows_trans hs1
                          (wgrows_genericWrapStep _ _ _ _ _ _ _ _)
            · exact wgrows_refl s
          · exact wgrows_leafStep _ _ _ _ _ _
          · exact wgrows_refl s

theorem parseFields_wgrows (mi : MathImpl) (upd : Bool) (pre : String)
    (lvl : ℕ) (s : WState) (fl : PFieldList) :
    wgrows s (parseFields mi upd pre lvl s fl).2.1 := by
  cases fl with
  | nil =>
      rw [parseFields]
      exact wgrows_refl s
  | cons f t =>
      rw [parseFields]
      rcases hf : parseField mi upd pre lvl s f with ⟨f', s', c1⟩
      have h' : wgrows s s' := by
        have := parseField_wgrows mi upd pre lvl s f
        rw [hf] at this
        exact this
      rcases ht : parseFields mi upd pre lvl s' t with ⟨t', s'', c2⟩
      have h'' : wgrows s' s'' := by
        have := parseFields_wgrows mi upd pre lvl s' t
        rw [ht] at this
        exact this
      simp only [hf, ht]
      exact wgrows_trans h' h''

theorem parseMsg_wgrows (mi : MathImpl) (upd : Bool) (pre : String)
    (lvl : ℕ) (s : WState) (m : PMsg) :
    wgrows s (parseMsg mi upd pre lvl s m).2.1 := by
  cases m with
  | mk tn fs =>
      rw [parseMsg]
      rcases hf : parseFields mi upd pre lvl s fs with ⟨fs', s', c⟩
      have h' : wgrows s s' := by
        have := parseFields_wgrows mi upd pre lvl s fs
        rw [hf] at this
        exact this
      simp only [hf]
      exact h'

end

/-! ## Registration: `Parse` registers a widget for every supported path -/

theorem scopedNameOf_ne_empty (pre nm : String) (h : nm ≠ "") :
    scopedNameOf pre nm ≠ "" := by
  unfold scopedNameOf
  split
  · exact h
  · intro hc
    have hlen := congrArg String.length hc
    rw [String.length_append, String.length_append] at hlen
    have h2 : ("::" : String).length = 2 := rfl
    have h0 : ("" : String).length = 0 := rfl
    omega

theorem handleLeaf_registers (s : WState) (sname : String)
    (fresh : PWidget) (updFn : PWidget → Bool × PWidget) (hn : sname ≠ "") :
    ((s.handleLeaf sname (s.lookupW sname) fresh updFn).1.lookupW
      sname).isSome = true := by
  unfold WState.handleLeaf
  cases hl : s.lookupW sname with
  | none =>
      dsimp only
      have hl' : ({ entries := s.entries, nextId := s.nextId + 1 } :
          WState).lookupW sname = none := hl
      rw [lookupW_addPropertyWidget_success _ sname _ _ hn hl']
      rfl
  | some st =>
      dsimp only
      rw [WState.lookupW_setWidgetAt_self, hl]
      rfl

theorem leafStep_registers (s : WState) (sname : String) (fresh : PWidget)
    (updFn : PWidget → Bool × PWidget) (f : PField) (hn : sname ≠ "") :
    ((leafStep s sname (s.lookupW sname) fresh updFn f).2.1.lookupW
      sname).isSome = true := by
  unfold leafStep
  exact handleLeaf_registers s sname fresh updFn hn

theorem geomFieldStep_registers (s : WState) (sname : String)
    (nm : String) (ft : FType) (rep : Bool) (m0 : PMsg) (hn : sname ≠ "") :
    ((geomFieldStep s sname (s.lookupW sname) nm ft rep m0).2.1.lookupW
      sname).isSome = true := by
  unfold geomFieldStep
  exact handleLeaf_registers s sname _ _ hn

theorem poseFieldStep_registers (mi : MathImpl) (s : WState)
    (sname : String) (nm : String) (ft : FType) (rep : Bool) (m0 : PMsg)
    (hn : sname ≠ "") :
    ((poseFieldStep mi s sname (s.lookupW sname) nm ft rep m0).2.1.lookupW
      sname).isSome = true := by
  unfold poseFieldStep
  exact handleLeaf_registers s sname _ _ hn

theorem vec3FieldStep_registers (s : WState) (sname : String)
    (nm : String) (ft : FType) (rep : Bool) (m0 : PMsg) (hn : sname ≠ "") :
    ((vec3FieldStep s sname (s.lookupW sname) nm ft rep m0).2.1.lookupW
      sname).isSome = true := by
  unfold vec3FieldStep
  exact handleLeaf_registers s sname _ _ hn

theorem colorFieldStep_registers (s : WState) (sname : String)
    (nm : String) (ft : FType) (rep : Bool) (m0 : PMsg) (hn : sname ≠ "") :
    ((colorFieldStep s sname (s.lookupW sname) nm ft rep m0).2.1.lookupW
      sname).isSome = true := by
  unfold colorFieldStep
  exact handleLeaf_registers s sname _ _ hn

theorem densityFieldStep_registers (s : WState) (sname : String)
    (nm : String) (ft : FType) (rep : Bool) (m0 : PMsg) (hn : sname ≠ "") :
    ((densityFieldStep s sname (s.lookupW sname) nm ft rep m0).2.1.lookupW
      sname).isSome = true := by
  unfold densityFieldStep
  exact handleLeaf_registers s sname _ _ hn

mutual

theorem regF_mono {s s' : WState} (hg : wgrows s s') (pre : String)
    (f : PField) (h : regF s pre f = true) : regF s' pre f = true := by
  cases f with
  | mk nm ft rep has v =>
      rw [regF] at h ⊢
      by_cases hr : rep = true
      · rw [if_pos hr]
      · rw [if_neg hr] at h ⊢
        cases ft
        · exact hg _ h
        · exact hg _ h
        · exact hg _ h
        · exact hg _ h
        · exact hg _ h
        · exact hg _ h
        · exact hg _ h
        · exact hg _ h
        · -- tMessage
          cases v
          · rfl
          · rfl
          · rfl
          · rfl
          · rfl
          · next m0 =>
              cases m0 with
              | mk tn0 fs0 =>
                  dsimp only at h ⊢
                  by_cases hc : compositeNames.contains tn0 = true
                  · rw [if_pos hc] at h ⊢
                    exact hg _ h
                  · rw [if_neg hc] at h ⊢
                    exact regL_mono hg _ fs0 h
          · rfl
        · exact hg _ h
        · rfl

theorem regL_mono {s s' : WState} (hg : wgrows s s') (pre : String)
    (fl : PFieldList) (h : regL s pre fl = true) : regL s' pre fl = true := by
  cases fl with
  | nil => rw [regL]
  | cons f t =>
      rw [regL] at h ⊢
      rw [Bool.and_eq_true] at h ⊢
      exact ⟨regF_mono hg pre f h.1, regL_mono hg pre t h.2⟩

end

set_option maxHeartbeats 2000000 in
mutual

theorem parseField_registers (mi : MathImpl) (pre : String) (lvl : ℕ)
    (s : WState) (f : PField) (hne : f.neNamesF = true) :
    regF (parseField mi false pre lvl s f).2.1 pre f = true := by
  cases f with
  | mk nm ft rep has v =>
      rw [PField.neNamesF.eq_def] at hne
      dsimp only at hne
      rw [Bool.and_eq_true] at hne
      obtain ⟨hnm0, hmatch⟩ := hne
      have hnm : nm ≠ "" := of_decide_eq_true hnm0
      have hsn := scopedNameOf_ne_empty pre nm hnm
      rw [parseField, regF]
      by_cases hr : rep = true
      · simp [hr]
      · simp only [if_neg hr]
        rw [if_neg (by simp)]
        cases ft
        · exact leafStep_registers s _ _ _ _ hsn
        · exact leafStep_registers s _ _ _ _ hsn
        · exact leafStep_registers s _ _ _ _ hsn
        · exact leafStep_registers s _ _ _ _ hsn
        · exact leafStep_registers s _ _ _ _ hsn
        · exact leafStep_registers s _ _ _ _ hsn
        · exact leafStep_registers s _ _ _ _ hsn
        · exact leafStep_registers s _ _ _ _ hsn
        · -- tMessage
          cases v
          · rfl
          · rfl
          · rfl
          · rfl
          · rfl
          · next m0 =>
              cases m0 with
              | mk tn0 fs0 =>
                  dsimp only [PMsg.typeName] at hmatch ⊢
                  by_cases hG : tn0 = "Geometry"
                  · subst hG
                    rw [if_pos rfl, if_pos (by decide)]
                    exact geomFieldStep_registers s _ nm _ rep _ hsn
                  · rw [if_neg hG]
                    by_cases hP : tn0 = "Pose"
                    · subst hP
                      rw [if_pos rfl, if_pos (by decide)]
                      exact poseFieldStep_registers mi s _ nm _ rep _ hsn
                    · rw [if_neg hP]
                      by_cases hV : tn0 = "Vector3d"
                      · subst hV
                        rw [if_pos rfl, if_pos (by decide)]
                        exact vec3FieldStep_registers s _ nm _ rep _ hsn
                      · rw [if_neg hV]
                        by_cases hC : tn0 = "Color"
                        · subst hC
                          rw [if_pos rfl, if_pos (by decide)]
                          exact colorFieldStep_registers s _ nm _ rep _ hsn
                        · rw [if_neg hC]
                          by_cases hD : tn0 = "Density"
                          · subst hD
                            rw [if_pos rfl, if_pos (by decide)]
                            exact densityFieldStep_registers s _ nm _ rep _ hsn
                          · rw [if_neg hD]
                            have hc : ¬(compositeNames.contains tn0 = true) := by
                              simp [compositeNames, hG, hP, hV, hC, hD]
                            rw [if_neg hc]
                            rw [if_neg hc] at hmatch
                            rcases hpm : parseMsg mi false
                                (scopedNameOf pre nm) (lvl + 1) s
                                (.mk tn0 fs0) with ⟨m1, s1, created⟩
                            have hr1 : regL s1 (scopedNameOf pre nm) fs0
                                = true := by
                              have := parseMsg_registers mi
                                (scopedNameOf pre nm) (lvl + 1) s
                                (.mk tn0 fs0) hmatch
                              rw [hpm] at this
                              exact this
                            simp only [hpm]
                            exact regL_mono
                              (wgrows_genericWrapStep s1 _ _ nm _ rep m1
                                created) _ fs0 hr1
          · rfl
        · exact leafStep_registers s _ _ _ _ hsn
        · rfl

theorem parseFields_registers (mi : MathImpl) (pre : String) (lvl : ℕ)
    (s : WState) (fl : PFieldList) (hne : fl.neNamesL = true) :
    regL (parseFields mi false pre lvl s fl).2.1 pre fl = true := by
  cases fl with
  | nil => rw [regL]
  | cons f t =>
      rw [PFieldList.neNamesL, Bool.and_eq_true] at hne
      rw [parseFields]
      rcases hf : parseField mi false pre lvl s f with ⟨f', s', c1⟩
      rcases ht : parseFields mi false pre lvl s' t with ⟨t', s'', c2⟩
      have h1 : regF s' pre f = true := by
        have := parseField_registers mi pre lvl s f hne.1
        rw [hf] at this
        exact this
      have h2 : regL s'' pre t = true := by
        have := parseFields_registers mi pre lvl s' t hne.2
        rw [ht] at this
        exact this
      have hgrow : wgrows s' s'' := by
        have := parseFields_wgrows mi false pre lvl s' t
        rw [ht] at this
        exact this
      simp only [hf, ht]
      rw [regL, Bool.and_eq_true]
      exact ⟨regF_mono hgrow pre f h1, h2⟩

theorem parseMsg_registers (mi : MathImpl) (pre : String) (lvl : ℕ)
    (s : WState) (m : PMsg) (hne : m.fields.neNamesL = true) :
    regL (parseMsg mi false pre lvl s m).2.1 pre m.fields = true := by
  cases m with
  | mk tn fs =>
      dsimp only [PMsg.fields] at hne ⊢
      rw [parseMsg]
      rcases hpf : parseFields mi false pre lvl s fs with ⟨fs', s', c⟩
      have := parseFields_registers mi pre lvl s fs hne
      rw [hpf] at this
      simp only [hpf]
      exact this

end

/-- Claim C4, counterexample to the literal claim: the widget tree does
not mirror repeated fields.  `Parse` skips every repeated field (the
`repeated` branch carries a `TODO: parse repeated fields` comment and
creates nothing), so a message whose only field is a repeated double gets
no widget registered under the field's scoped name, and the widget count
stays zero. -/
theorem c4_repeated_field_no_widget :
    (load dummyMath (.mk "M" (.cons (.mk "reps" .tDouble true false
        (.num 0)) .nil))).ws.lookupW "reps" = none ∧
    (load dummyMath (.mk "M" (.cons (.mk "reps" .tDouble true false
        (.num 0)) .nil))).ws.propertyWidgetCount = 0 := by
  have hp : load dummyMath (.mk "M" (.cons (.mk "reps" .tDouble true false
      (.num 0)) .nil)) =
      ⟨.mk "M" (.cons (.mk "reps" .tDouble true false (.num 0)) .nil),
       emptyWS⟩ := by
    unfold load
    rw [parseMsg, parseFields, parseField]
    simp [parseFields]
  rw [hp]
  exact ⟨rfl, rfl⟩

/-- Claim C4 (amended): structure mirroring holds for the non-repeated
fields of supported type.  For every message whose field names are
nonempty (`AddPropertyWidget` rejects an empty name), after `Load` every
non-repeated field of supported type has a property widget registered
under its `::`-joined scoped name, recursively through generic nested
messages (`schemaRegistered` = `regL`); repeated fields and fields of
unsupported descriptor type are skipped by `Parse` and get no widget. -/
theorem c4_structure_mirroring (mi : MathImpl) (m : PMsg)
    (hne : m.fields.neNamesL = true) :
    schemaRegistered (load mi m).ws m = true := by
  have := parseMsg_registers mi "" 0 emptyWS m hne
  exact this

/-- Witness for C4: a two-level message (a double plus a generic nested
message holding a string) with nonempty names is fully registered. -/
theorem c4_structure_mirroring_witness :
    (PMsg.mk "Outer" (.cons (.mk "a" .tDouble false true (.num (3/2)))
      (.cons (.mk "sub" .tMessage false false (.msg (.mk "Inner"
        (.cons (.mk "b" .tString false false (.str "")) .nil)))) .nil))
      ).fields.neNamesL = true ∧
    schemaRegistered (load dummyMath
      (PMsg.mk "Outer" (.cons (.mk "a" .tDouble false true (.num (3/2)))
        (.cons (.mk "sub" .tMessage false false (.msg (.mk "Inner"
          (.cons (.mk "b" .tString false false (.str "")) .nil)))) .nil))
      )).ws
      (PMsg.mk "Outer" (.cons (.mk "a" .tDouble false true (.num (3/2)))
        (.cons (.mk "sub" .tMessage false false (.msg (.mk "Inner"
          (.cons (.mk "b" .tString false false (.str "")) .nil)))) .nil))
      ) = true :=
  ⟨rfl, c4_structure_mirroring dummyMath _ rfl⟩

/-! ## The update pass edits widgets in place: shape preservation -/

theorem shape_setWidgetAt (s : WState) (n : String) (w : PWidget) :
    (s.setWidgetAt n w).shape = s.shape := by
  unfold WState.setWidgetAt WState.shape
  rw [List.map_map]
  apply List.map_congr_left
  intro p _
  by_cases h : p.1 = n <;> simp [h]

theorem lookupW_isSome_shape (s : WState) (n : String) :
    (s.lookupW n).isSome = true ↔ ∃ y ∈ s.shape, y.1 = n := by
  unfold WState.lookupW WState.shape
  simp only [Option.isSome_map']
  rw [List.find?_isSome]
  constructor
  · rintro ⟨p, hp, he⟩
    exact ⟨(p.1, p.2.id, p.2.readOnly, p.2.visible),
      List.mem_map_of_mem _ hp, by simpa using he⟩
  · rintro ⟨y, hy, he⟩
    rcases List.mem_map.mp hy with ⟨p, hp, rfl⟩
    exact ⟨p, hp, by simpa using he⟩

theorem wgrows_of_shape {s s' : WState} (h : s.shape = s'.shape) :
    wgrows s s' := by
  intro n hn
  rw [lookupW_isSome_shape] at hn ⊢
  rw [← h]
  exact hn

theorem handleLeaf_shape (s : WState) (sname : String) (st : StoredW)
    (fresh : PWidget) (updFn : PWidget → Bool × PWidget) :
    (s.handleLeaf sname (some st) fresh updFn).1.shape = s.shape ∧
    (s.handleLeaf sname (some st) fresh updFn).2 = false := by
  unfold WState.handleLeaf
  exact ⟨shape_setWidgetAt s sname _, rfl⟩

theorem leafStep_shape (s : WState) (sname : String) (st : StoredW)
    (fresh : PWidget) (updFn : PWidget → Bool × PWidget) (f : PField) :
    (leafStep s sname (some st) fresh updFn f).2.1.shape = s.shape ∧
    (leafStep s sname (some st) fresh updFn f).2.2 = false := by
  unfold leafStep
  exact handleLeaf_shape s sname st fresh updFn

theorem geomFieldStep_shape (s : WState) (sname : String) (st : StoredW)
    (nm : String) (ft : FType) (rep : Bool) (m0 : PMsg) :
    (geomFieldStep s sname (some st) nm ft rep m0).2.1.shape = s.shape ∧
    (geomFieldStep s sname (some st) nm ft rep m0).2.2 = false := by
  unfold geomFieldStep
  cases hft : m0.fields.findByName "type" with
  | none =>
      dsimp only
      exact handleLeaf_shape s sname st freshGeomW (fun w => (true, w))
  | some tf =>
      dsimp only
      by_cases htf : tf.hasF = true
      · rw [if_pos htf]
        exact handleLeaf_shape s sname st freshGeomW
          (fun w => w.updateGeometryWidget tf.getEnum.toLower
            ((geomDimsLoop m0.fields).2.getD ⟨0, 0, 0⟩) "")
      · rw [if_neg htf]
        exact handleLeaf_shape s sname st freshGeomW (fun w => (true, w))

theorem poseFieldStep_shape (mi : MathImpl) (s : WState) (sname : String)
    (st : StoredW) (nm : String) (ft : FType) (rep : Bool) (m0 : PMsg) :
    (poseFieldStep mi s sname (some st) nm ft rep m0).2.1.shape = s.shape ∧
    (poseFieldStep mi s sname (some st) nm ft rep m0).2.2 = false := by
  unfold poseFieldStep
  rcases hpl : poseLoop m0.fields ⟨0, 0, 0⟩ ⟨0, 0, 0, 1⟩ with ⟨fs2, pos, quat⟩
  dsimp only
  exact handleLeaf_shape s sname st (.poseW ⟨0, 0, 0, 0, 0, 0⟩)
    (fun w => w.updatePoseWidget ⟨pos.x, pos.y, pos.z,
      (mi.quatToEuler quat).1, (mi.quatToEuler quat).2.1,
      (mi.quatToEuler quat).2.2⟩)

theorem vec3FieldStep_shape (s : WState) (sname : String) (st : StoredW)
    (nm : String) (ft : FType) (rep : Bool) (m0 : PMsg) :
    (vec3FieldStep s sname (some st) nm ft rep m0).2.1.shape = s.shape ∧
    (vec3FieldStep s sname (some st) nm ft rep m0).2.2 = false := by
  unfold vec3FieldStep
  exact handleLeaf_shape s sname st (.vec3W 0 0 0 0)
    (fun w => w.updateVector3dWidget (parseVector3d m0))

theorem colorFieldStep_shape (s : WState) (sname : String) (st : StoredW)
    (nm : String) (ft : FType) (rep : Bool) (m0 : PMsg) :
    (colorFieldStep s sname (some st) nm ft rep m0).2.1.shape = s.shape ∧
    (colorFieldStep s sname (some st) nm ft rep m0).2.2 = false := by
  unfold colorFieldStep
  exact handleLeaf_shape s sname st (.colorW 0 0 0 0)
    (fun w => w.updateColorWidget (colorFrom m0 st.w.widgetsSize))

theorem densityFieldStep_shape (s : WState) (sname : String) (st : StoredW)
    (nm : String) (ft : FType) (rep : Bool) (m0 : PMsg) :
    (densityFieldStep s sname (some st) nm ft rep m0).2.1.shape = s.shape ∧
    (densityFieldStep s sname (some st) nm ft rep m0).2.2 = false := by
  unfold densityFieldStep
  exact handleLeaf_shape s sname st (.densityW 0)
    (fun w => w.updateDensityWidget (densityScan m0.fields 1))

theorem genericWrapStep_false (s1 : WState) (sname : String)
    (ex : Option StoredW) (nm : String) (ft : FType) (rep : Bool)
    (m1 : PMsg) :
    genericWrapStep s1 sname ex nm ft rep m1 false =
      (.mk nm ft rep true (.msg m1), s1, false) := by
  unfold genericWrapStep
  rw [if_neg (by simp)]

set_option maxHeartbeats 2000000 in
mutual

theorem parseField_shape (mi : MathImpl) (upd : Bool) (pre : String)
    (lvl : ℕ) (s : WState) (f : PField) (h : regF s pre f = true) :
    (parseField mi upd pre lvl s f).2.1.shape = s.shape ∧
    (parseField mi upd pre lvl s f).2.2 = false := by
  cases f with
  | mk nm ft rep has v =>
      rw [parseField]
      rw [regF] at h
      by_cases hr : rep = true
      · simp only [if_pos hr]
        simp
      · simp only [if_neg hr]
        rw [if_neg hr] at h
        by_cases h2 : upd = true ∧ ¬has = true
        · rw [if_pos h2]
          exact ⟨rfl, rfl⟩
        · rw [if_neg h2]
          cases ft
          · obtain ⟨st, hst⟩ := Option.isSome_iff_exists.mp h
            rw [hst]
            exact leafStep_shape s _ st _ _ _
          · obtain ⟨st, hst⟩ := Option.isSome_iff_exists.mp h
            rw [hst]
            exact leafStep_shape s _ st _ _ _
          · obtain ⟨st, hst⟩ := Option.isSome_iff_exists.mp h
            rw [hst]
            exact leafStep_shape s _ st _ _ _
          · obtain ⟨st, hst⟩ := Option.isSome_iff_exists.mp h
            rw [hst]
            exact leafStep_shape s _ st _ _ _
          · obtain ⟨st, hst⟩ := Option.isSome_iff_exists.mp h
            rw [hst]
            exact leafStep_shape s _ st _ _ _
          · obtain ⟨st, hst⟩ := Option.isSome_iff_exists.mp h
            rw [hst]
            exact leafStep_shape s _ st _ _ _
          · obtain ⟨st, hst⟩ := Option.isSome_iff_exists.mp h
            rw [hst]
            exact leafStep_shape s _ st _ _ _
          · obtain ⟨st, hst⟩ := Option.isSome_iff_exists.mp h
            rw [hst]
            exact leafStep_shape s _ st _ _ _
          · -- tMessage
            cases v
            · exact ⟨rfl, rfl⟩
            · exact ⟨rfl, rfl⟩
            · exact ⟨rfl, rfl⟩
            · exact ⟨rfl, rfl⟩
            · exact ⟨rfl, rfl⟩
            · next m0 =>
                cases m0 with
                | mk tn0 fs0 =>
                    dsimp only [PMsg.typeName] at h ⊢
                    by_cases hG : tn0 = "Geometry"
                    · subst hG
                      rw [if_pos rfl]
                      rw [if_pos (by decide)] at h
                      obtain ⟨st, hst⟩ := Option.isSome_iff_exists.mp h
                      rw [hst]
                      exact geomFieldStep_shape s _ st nm _ rep _
                    · rw [if_neg hG]
                      by_cases hP : tn0 = "Pose"
                      · subst hP
                        rw [if_pos rfl]
                        rw [if_pos (by decide)] at h
                        obtain ⟨st, hst⟩ := Option.isSome_iff_exists.mp h
                        rw [hst]
                        exact poseFieldStep_shape mi s _ st nm _ rep _
                      · rw [if_neg hP]
                        by_cases hV : tn0 = "Vector3d"
                        · subst hV
                          rw [if_pos rfl]
                          rw [if_pos (by decide)] at h
                          obtain ⟨st, hst⟩ := Option.isSome_iff_exists.mp h
                          rw [hst]
                          exact vec3FieldStep_shape s _ st nm _ rep _
                        · rw [if_neg hV]
                          by_cases hC : tn0 = "Color"
                          · subst hC
                            rw [if_pos rfl]
                            rw [if_pos (by decide)] at h
                            obtain ⟨st, hst⟩ :=
                              Option.isSome_iff_exists.mp h
                            rw [hst]
                            exact colorFieldStep_shape s _ st nm _ rep _
                          · rw [if_neg hC]
                            by_cases hD : tn0 = "Density"
                            · subst hD
                              rw [if_pos rfl]
                              rw [if_pos (by decide)] at h
                              obtain ⟨st, hst⟩ :=
                                Option.isSome_iff_exists.mp h
                              rw [hst]
                              exact densityFieldStep_shape s _ st nm _ rep _
                            · rw [if_neg hD]
                              have hc :
                                  ¬(compositeNames.contains tn0 = true) := by
                                simp [compositeNames, hG, hP, hV, hC, hD]
                              rw [if_neg hc] at h
                              rcases hpm : parseMsg mi upd
                                  (scopedNameOf pre nm) (lvl + 1) s
                                  (.mk tn0 fs0) with ⟨m1, s1, created⟩
                              have hin := parseMsg_shape mi upd
                                (scopedNameOf pre nm) (lvl + 1) s
                                (.mk tn0 fs0) h
                              rw [hpm] at hin
                              obtain ⟨hsh, hcr⟩ := hin
                              subst hcr
                              simp only [hpm]
                              rw [genericWrapStep_false]
                              exact ⟨hsh, rfl⟩
            · exact ⟨rfl, rfl⟩
          · obtain ⟨st, hst⟩ := Option.isSome_iff_exists.mp h
            rw [hst]
            exact leafStep_shape s _ st _ _ _
          · exact ⟨rfl, rfl⟩

theorem parseFields_shape (mi : MathImpl) (upd : Bool) (pre : String)
    (lvl : ℕ) (s : WState) (fl : PFieldList) (h : regL s pre fl = true) :
    (parseFields mi upd pre lvl s fl).2.1.shape = s.shape ∧
    (parseFields mi upd pre lvl s fl).2.2 = false := by
  cases fl with
  | nil =>
      rw [parseFields]
      exact ⟨rfl, rfl⟩
  | cons f t =>
      rw [regL, Bool.and_eq_true] at h
      rw [parseFields]
      rcases hf : parseField mi upd pre lvl s f with ⟨f', s', c1⟩
      have h1 := parseField_shape mi upd pre lvl s f h.1
      rw [hf] at h1
      obtain ⟨hsh1, hc1⟩ := h1
      have hreg' : regL s' pre t = true :=
        regL_mono (wgrows_of_shape hsh1.symm) pre t h.2
      rcases ht : parseFields mi upd pre lvl s' t with ⟨t', s'', c2⟩
      have h2 := parseFields_shape mi upd pre lvl s' t hreg'
      rw [ht] at h2
      obtain ⟨hsh2, hc2⟩ := h2
      simp only [hf, ht]
      subst hc1
      subst hc2
      exact ⟨hsh2.trans hsh1, rfl⟩

theorem parseMsg_shape (mi : MathImpl) (upd : Bool) (pre : String)
    (lvl : ℕ) (s : WState) (m : PMsg) (h : regL s pre m.fields = true) :
    (parseMsg mi upd pre lvl s m).2.1.shape = s.shape ∧
    (parseMsg mi upd pre lvl s m).2.2 = false := by
  cases m with
  | mk tn fs =>
      dsimp only [PMsg.fields] at h
      rw [parseMsg]
      rcases hpf : parseFields mi upd pre lvl s fs with ⟨fs', s', c⟩
      have h1 := parseFields_shape mi upd pre lvl s fs h
      rw [hpf] at h1
      simp only [hpf]
      exact h1

end

mutual

theorem regF_schema (s : WState) (pre : String) (f f' : PField)
    (h : f.sameSchemaF f' = true) : regF s pre f = regF s pre f' := by
  cases f with
  | mk n t r hb v =>
      cases f' with
      | mk n' t' r' hb' v' =>
          rw [PField.sameSchemaF] at h
          simp only [Bool.and_eq_true, decide_eq_true_eq] at h
          obtain ⟨⟨⟨hn, ht⟩, hr⟩, hv⟩ := h
          subst hn
          subst ht
          subst hr
          rw [regF, regF]
          cases t
          · rfl
          · rfl
          · rfl
          · rfl
          · rfl
          · rfl
          · rfl
          · rfl
          · -- tMessage: only here does the slot's submessage matter
            cases v <;> cases v' <;>
              first
              | rfl
              | (refine absurd hv ?_
                 simp [PValue.sameSchemaV]
                 done)
              | (rename_i m0 m0'
                 simp only [PValue.sameSchemaV] at hv
                 cases m0 with
                 | mk tn0 fs0 =>
                     cases m0' with
                     | mk tn0' fs0' =>
                         rw [PMsg.sameSchemaM] at hv
                         simp only [Bool.and_eq_true, decide_eq_true_eq]
                           at hv
                         obtain ⟨htn, hfs⟩ := hv
                         subst htn
                         dsimp only
                         rw [regL_schema s (scopedNameOf pre n) fs0 fs0'
                           hfs])
          · rfl
          · rfl

theorem regL_schema (s : WState) (pre : String) (fl fl' : PFieldList)
    (h : fl.sameSchemaL fl' = true) : regL s pre fl = regL s pre fl' := by
  cases fl with
  | nil =>
      cases fl' with
      | nil => rfl
      | cons f' t' => simp [PFieldList.sameSchemaL] at h
  | cons f t =>
      cases fl' with
      | nil => simp [PFieldList.sameSchemaL] at h
      | cons f' t' =>
          rw [PFieldList.sameSchemaL, Bool.and_eq_true] at h
          rw [regL, regL]
          rw [regF_schema s pre f f' h.1, regL_schema s pre t t' h.2]

end

/-- Claim C3: incremental re-synchronization without rebuilding.  After
`Load(m)`, updating from any message of the same descriptor registers no
new property widget and discards none: the registry's shape — the scoped
names in order, each entry's identity, read-only and visibility bits — is
unchanged (each name stays bound to the same widget object, updated in
place), and `PropertyWidgetCount()` is unchanged.  Nonempty field names
are assumed so that `Load` registers the full schema. -/
theorem c3_incremental_resync (mi : MathImpl) (m m' : PMsg)
    (hne : m.fields.neNamesL = true) (hs : m.sameSchemaM m' = true) :
    (updateFromMsg mi m' (load mi m)).ws.shape = (load mi m).ws.shape ∧
    (updateFromMsg mi m' (load mi m)).ws.propertyWidgetCount =
      (load mi m).ws.propertyWidgetCount := by
  have hreg : regL (load mi m).ws "" m.fields = true :=
    parseMsg_registers mi "" 0 emptyWS m hne
  have hfs : m.fields.sameSchemaL m'.fields = true := by
    cases m with
    | mk tn fs =>
        cases m' with
        | mk tn' fs' =>
            rw [PMsg.sameSchemaM, Bool.and_eq_true] at hs
            exact hs.2
  have hreg' : regL (load mi m).ws "" m'.fields = true := by
    rw [← regL_schema (load mi m).ws "" m.fields m'.fields hfs]
    exact hreg
  have hsh := parseMsg_shape mi true "" 0 (load mi m).ws m' hreg'
  have hlen : ∀ t : WState, t.propertyWidgetCount = t.shape.length := by
    intro t
    unfold WState.propertyWidgetCount WState.shape
    rw [List.length_map]
  refine ⟨hsh.1, ?_⟩
  rw [hlen, hlen]
  exact congrArg List.length hsh.1

/-- Witness for C3: updating the loaded two-field message from a
same-schema message with different values keeps the registry's shape and
widget count. -/
theorem c3_incremental_resync_witness :
    (PMsg.mk "Outer" (PFieldList.cons (PField.mk "a" FType.tDouble false true (PValue.num 1)) (PFieldList.cons (PField.mk "sub" FType.tMessage false true (PValue.msg (PMsg.mk "Inner" (PFieldList.cons (PField.mk "b" FType.tString false true (PValue.str "x")) PFieldList.nil)))) PFieldList.nil))).fields.neNamesL = true ∧
    (PMsg.sameSchemaM (PMsg.mk "Outer" (PFieldList.cons (PField.mk "a" FType.tDouble false true (PValue.num 1)) (PFieldList.cons (PField.mk "sub" FType.tMessage false true (PValue.msg (PMsg.mk "Inner" (PFieldList.cons (PField.mk "b" FType.tString false true (PValue.str "x")) PFieldList.nil)))) PFieldList.nil))) (PMsg.mk "Outer" (PFieldList.cons (PField.mk "a" FType.tDouble false true (PValue.num 2)) (PFieldList.cons (PField.mk "sub" FType.tMessage false true (PValue.msg (PMsg.mk "Inner" (PFieldList.cons (PField.mk "b" FType.tString false true (PValue.str "y")) PFieldList.nil)))) PFieldList.nil)))) = true ∧
    ((updateFromMsg dummyMath (PMsg.mk "Outer" (PFieldList.cons (PField.mk "a" FType.tDouble false true (PValue.num 2)) (PFieldList.cons (PField.mk "sub" FType.tMessage false true (PValue.msg (PMsg.mk "Inner" (PFieldList.cons (PField.mk "b" FType.tString false true (PValue.str "y")) PFieldList.nil)))) PFieldList.nil))) (load dummyMath (PMsg.mk "Outer" (PFieldList.cons (PField.mk "a" FType.tDouble false true (PValue.num 1)) (PFieldList.cons (PField.mk "sub" FType.tMessage false true (PValue.msg (PMsg.mk "Inner" (PFieldList.cons (PField.mk "b" FType.tString false true (PValue.str "x")) PFieldList.nil)))) PFieldList.nil))))).ws.shape = (load dummyMath (PMsg.mk "Outer" (PFieldList.cons (PField.mk "a" FType.tDouble false true (PValue.num 1)) (PFieldList.cons (PField.mk "sub" FType.tMessage false true (PValue.msg (PMsg.mk "Inner" (PFieldList.cons (PField.mk "b" FType.tString false true (PValue.str "x")) PFieldList.nil)))) PFieldList.nil)))).ws.shape ∧
     (updateFromMsg dummyMath (PMsg.mk "Outer" (PFieldList.cons (PField.mk "a" FType.tDouble false true (PValue.num 2)) (PFieldList.cons (PField.mk "sub" FType.tMessage false true (PValue.msg (PMsg.mk "Inner" (PFieldList.cons (PField.mk "b" FType.tString false true (PValue.str "y")) PFieldList.nil)))) PFieldList.nil))) (load dummyMath (PMsg.mk "Outer" (PFieldList.cons (PField.mk "a" FType.tDouble false true (PValue.num 1)) (PFieldList.cons (PField.mk "sub" FType.tMessage false true (PValue.msg (PMsg.mk "Inner" (PFieldList.cons (PField.mk "b" FType.tString false true (PValue.str "x")) PFieldList.nil)))) PFieldList.nil))))).ws.propertyWidgetCount = (load dummyMath (PMsg.mk "Outer" (PFieldList.cons (PField.mk "a" FType.tDouble false true (PValue.num 1)) (PFieldList.cons (PField.mk "sub" FType.tMessage false true (PValue.msg (PMsg.mk "Inner" (PFieldList.cons (PField.mk "b" FType.tString false true (PValue.str "x")) PFieldList.nil)))) PFieldList.nil)))).ws.propertyWidgetCount) :=
  ⟨rfl,
   by simp [PMsg.sameSchemaM, PFieldList.sameSchemaL, PField.sameSchemaF,
     PValue.sameSchemaV],
   c3_incremental_resync dummyMath _ _ rfl
     (by simp [PMsg.sameSchemaM, PFieldList.sameSchemaL,
       PField.sameSchemaF, PValue.sameSchemaV])⟩

/-! ## The type dispatch of `Parse` on message-typed fields -/

theorem handleLeaf_none_lookup (s : WState) (sname : String)
    (fresh : PWidget) (updFn : PWidget → Bool × PWidget)
    (hn : sname ≠ "") (hl : s.lookupW sname = none) :
    (s.handleLeaf sname none fresh updFn).1.lookupW sname =
      some ⟨sname, s.nextId, false, true, (updFn fresh).2⟩ ∧
    (s.handleLeaf sname none fresh updFn).2 = true := by
  unfold WState.handleLeaf
  dsimp only
  constructor
  · have hl' : ({ entries := s.entries, nextId := s.nextId + 1 } :
        WState).lookupW sname = none := hl
    rw [lookupW_addPropertyWidget_success _ sname _ _ hn hl']
  · rfl

theorem kind_updateGeometryWidget (idx : ℕ) (sx sy sz r l : ℚ)
    (u v : String) (dims : Vec3) (uri : String) :
    (PWidget.updateGeometryWidget (.geomW idx sx sy sz r l u) v dims
      uri).2.kind = .kGeom := by
  unfold PWidget.updateGeometryWidget
  dsimp only
  cases findTextIdx geomItems v <;> rfl

/-- Claim C5: type dispatch with special-cased composites.  For a singular
message-typed field under a fresh nonempty scoped name: when the
submessage's type name is one of "Geometry", "Pose", "Vector3d", "Color",
"Density", `Parse` creates (registers, with a fresh identity) a widget of
the corresponding dedicated composite kind; for every other type name, the
field is handled by the generic recursive case — `Parse` is called on the
nested message with the scoped-name prefix extended (`pre::name`) and one
level deeper, and the result is wrapped by the group-registration step.
The skip hypothesis rules out the update-pass skip of unset fields. -/
theorem c5_type_dispatch (mi : MathImpl) (upd : Bool) (pre nm : String)
    (lvl : ℕ) (s : WState) (has : Bool) (m0 : PMsg)
    (hskip : upd = false ∨ has = true)
    (hn : scopedNameOf pre nm ≠ "")
    (hfresh : s.lookupW (scopedNameOf pre nm) = none) :
    (m0.typeName ∈ compositeNames →
      (∃ st : StoredW,
        (parseField mi upd pre lvl s
            (.mk nm .tMessage false has (.msg m0))).2.1.lookupW
          (scopedNameOf pre nm) = some st ∧
        st.id = s.nextId ∧
        st.w.kind = compositeKindOf m0.typeName) ∧
      (parseField mi upd pre lvl s
          (.mk nm .tMessage false has (.msg m0))).2.2 = true) ∧
    (m0.typeName ∉ compositeNames →
      parseField mi upd pre lvl s (.mk nm .tMessage false has (.msg m0)) =
        genericWrapStep
          (parseMsg mi upd (scopedNameOf pre nm) (lvl + 1) s m0).2.1
          (scopedNameOf pre nm) none nm .tMessage false
          (parseMsg mi upd (scopedNameOf pre nm) (lvl + 1) s m0).1
          (parseMsg mi upd (scopedNameOf pre nm) (lvl + 1) s m0).2.2) := by
  rw [parseField]
  rw [if_neg (by simp)]
  have h2 : ¬(upd = true ∧ ¬has = true) := by
    rcases hskip with h | h <;> simp [h]
  rw [if_neg h2]
  dsimp only
  rw [hfresh]
  constructor
  · -- the five dedicated composite cases
    intro hcomp
    by_cases hG : m0.typeName = "Geometry"
    · rw [if_pos hG]
      unfold geomFieldStep
      cases hft : m0.fields.findByName "type" with
      | none =>
          dsimp only
          obtain ⟨h1, hc⟩ := handleLeaf_none_lookup s _ freshGeomW
            (fun w => (true, w)) hn hfresh
          exact ⟨⟨_, h1, rfl, by rw [hG]; rfl⟩, hc⟩
      | some tf =>
          dsimp only
          by_cases htf : tf.hasF = true
          · rw [if_pos htf]
            obtain ⟨h1, hc⟩ := handleLeaf_none_lookup s _ freshGeomW
              (fun w => w.updateGeometryWidget tf.getEnum.toLower
                ((geomDimsLoop m0.fields).2.getD ⟨0, 0, 0⟩) "") hn hfresh
            refine ⟨⟨_, h1, rfl, ?_⟩, hc⟩
            rw [hG]
            exact kind_updateGeometryWidget _ _ _ _ _ _ _ _ _ _
          · rw [if_neg htf]
            obtain ⟨h1, hc⟩ := handleLeaf_none_lookup s _ freshGeomW
              (fun w => (true, w)) hn hfresh
            exact ⟨⟨_, h1, rfl, by rw [hG]; rfl⟩, hc⟩
    · rw [if_neg hG]
      by_cases hP : m0.typeName = "Pose"
      · rw [if_pos hP]
        unfold poseFieldStep
        rcases hpl : poseLoop m0.fields ⟨0, 0, 0⟩ ⟨0, 0, 0, 1⟩ with
          ⟨fs2, pos, quat⟩
        dsimp only
        obtain ⟨h1, hc⟩ := handleLeaf_none_lookup s _
          (.poseW ⟨0, 0, 0, 0, 0, 0⟩)
          (fun w => w.updatePoseWidget ⟨pos.x, pos.y, pos.z,
            (mi.quatToEuler quat).1, (mi.quatToEuler quat).2.1,
            (mi.quatToEuler quat).2.2⟩) hn hfresh
        exact ⟨⟨_, h1, rfl, by rw [hP]; rfl⟩, hc⟩
      · rw [if_neg hP]
        by_cases hV : m0.typeName = "Vector3d"
        · rw [if_pos hV]
          unfold vec3FieldStep
          obtain ⟨h1, hc⟩ := handleLeaf_none_lookup s _ (.vec3W 0 0 0 0)
            (fun w => w.updateVector3dWidget (parseVector3d m0)) hn hfresh
          exact ⟨⟨_, h1, rfl, by rw [hV]; rfl⟩, hc⟩
        · rw [if_neg hV]
          by_cases hC : m0.typeName = "Color"
          · rw [if_pos hC]
            unfold colorFieldStep
            obtain ⟨h1, hc⟩ := handleLeaf_none_lookup s _ (.colorW 0 0 0 0)
              (fun w => w.updateColorWidget (colorFrom m0
                ((Option.map (fun st => st.w.widgetsSize)
                  (none : Option StoredW)).getD 4))) hn hfresh
            exact ⟨⟨_, h1, rfl, by rw [hC]; rfl⟩, hc⟩
          · rw [if_neg hC]
            by_cases hD : m0.typeName = "Density"
            · rw [if_pos hD]
              unfold densityFieldStep
              obtain ⟨h1, hc⟩ := handleLeaf_none_lookup s _ (.densityW 0)
                (fun w => w.updateDensityWidget (densityScan m0.fields 1))
                hn hfresh
              exact ⟨⟨_, h1, rfl, by rw [hD]; rfl⟩, hc⟩
            · exact absurd hcomp (by simp [compositeNames, hG, hP, hV,
                hC, hD])
  · -- the generic recursive case
    intro hother
    have hG : ¬m0.typeName = "Geometry" := by
      intro h; exact hother (by simp [compositeNames, h])
    have hP : ¬m0.typeName = "Pose" := by
      intro h; exact hother (by simp [compositeNames, h])
    have hV : ¬m0.typeName = "Vector3d" := by
      intro h; exact hother (by simp [compositeNames, h])
    have hC : ¬m0.typeName = "Color" := by
      intro h; exact hother (by simp [compositeNames, h])
    have hD : ¬m0.typeName = "Density" := by
      intro h; exact hother (by simp [compositeNames, h])
    rw [if_neg hG, if_neg hP, if_neg hV, if_neg hC, if_neg hD]

/-- Witness for C5: a field holding a `Geometry` submessage under a fresh
name gets a dedicated geometry widget; the generic part holds vacuously
for it. -/
theorem c5_type_dispatch_witness :
    (false = false ∨ true = true) ∧
    scopedNameOf "" "geometry" ≠ "" ∧
    emptyWS.lookupW (scopedNameOf "" "geometry") = none ∧
    (((PMsg.mk "Geometry" .nil).typeName ∈ compositeNames →
      (∃ st : StoredW,
        (parseField dummyMath false "" 0 emptyWS
            (.mk "geometry" .tMessage false true
              (.msg (.mk "Geometry" .nil)))).2.1.lookupW
          (scopedNameOf "" "geometry") = some st ∧
        st.id = emptyWS.nextId ∧
        st.w.kind = compositeKindOf (PMsg.mk "Geometry" .nil).typeName) ∧
      (parseField dummyMath false "" 0 emptyWS
          (.mk "geometry" .tMessage false true
            (.msg (.mk "Geometry" .nil)))).2.2 = true) ∧
    ((PMsg.mk "Geometry" .nil).typeName ∉ compositeNames →
      parseField dummyMath false "" 0 emptyWS
          (.mk "geometry" .tMessage false true
            (.msg (.mk "Geometry" .nil))) =
        genericWrapStep
          (parseMsg dummyMath false (scopedNameOf "" "geometry") (0 + 1)
            emptyWS (.mk "Geometry" .nil)).2.1
          (scopedNameOf "" "geometry") none "geometry" .tMessage false
          (parseMsg dummyMath false (scopedNameOf "" "geometry") (0 + 1)
            emptyWS (.mk "Geometry" .nil)).1
          (parseMsg dummyMath false (scopedNameOf "" "geometry") (0 + 1)
            emptyWS (.mk "Geometry" .nil)).2.2)) :=
  ⟨Or.inl rfl, by decide, rfl,
   c5_type_dispatch dummyMath false "" "geometry" 0 emptyWS true
     (.mk "Geometry" .nil) (Or.inl rfl) (by decide) rfl⟩

/-! ## Termination: the fuel-bounded walks agree with the total ones -/

set_option maxHeartbeats 2000000 in
mutual

theorem parseFieldF_agree (mi : MathImpl) (upd : Bool) (pre : String)
    (lvl fuel : ℕ) (s : WState) (f : PField) (h : f.depthF ≤ fuel) :
    parseFieldF mi upd pre lvl fuel s f =
      some (parseField mi upd pre lvl s f) := by
  cases f with
  | mk nm ft rep has v =>
      rw [parseFieldF, parseField]
      by_cases hr : rep = true
      · rw [if_pos hr, if_pos hr]
      · rw [if_neg hr, if_neg hr]
        by_cases h2 : upd = true ∧ ¬has = true
        · rw [if_pos h2, if_pos h2]
        · rw [if_neg h2, if_neg h2]
          cases ft
          · rfl
          · rfl
          · rfl
          · rfl
          · rfl
          · rfl
          · rfl
          · rfl
          · -- tMessage
            cases v
            · rfl
            · rfl
            · rfl
            · rfl
            · rfl
            · next m0 =>
                dsimp only
                by_cases hG : m0.typeName = "Geometry"
                · rw [if_pos hG, if_pos hG]
                · rw [if_neg hG, if_neg hG]
                  by_cases hP : m0.typeName = "Pose"
                  · rw [if_pos hP, if_pos hP]
                  · rw [if_neg hP, if_neg hP]
                    by_cases hV : m0.typeName = "Vector3d"
                    · rw [if_pos hV, if_pos hV]
                    · rw [if_neg hV, if_neg hV]
                      by_cases hC : m0.typeName = "Color"
                      · rw [if_pos hC, if_pos hC]
                      · rw [if_neg hC, if_neg hC]
                        by_cases hD : m0.typeName = "Density"
                        · rw [if_pos hD, if_pos hD]
                        · rw [if_neg hD, if_neg hD]
                          have hm : m0.depthM ≤ fuel := by
                            rw [PField.depthF, PValue.depthV] at h
                            exact h
                          rw [parseMsgF_agree mi upd (scopedNameOf pre nm)
                            (lvl + 1) fuel s m0 hm]
            · rfl
          · rfl
          · rfl

theorem parseFieldsF_agree (mi : MathImpl) (upd : Bool) (pre : String)
    (lvl fuel : ℕ) (s : WState) (fl : PFieldList) (h : fl.depthL ≤ fuel) :
    parseFieldsF mi upd pre lvl fuel s fl =
      some (parseFields mi upd pre lvl s fl) := by
  cases fl with
  | nil => rw [parseFieldsF, parseFields]
  | cons f t =>
      rw [PFieldList.depthL] at h
      have hf : f.depthF ≤ fuel := le_trans (le_max_left _ _) h
      have ht : t.depthL ≤ fuel := le_trans (le_max_right _ _) h
      rw [parseFieldsF, parseFields]
      rw [parseFieldF_agree mi upd pre lvl fuel s f hf]
      rcases hpf : parseField mi upd pre lvl s f with ⟨f', s', c1⟩
      dsimp only
      rw [parseFieldsF_agree mi upd pre lvl fuel s' t ht]

theorem parseMsgF_agree (mi : MathImpl) (upd : Bool) (pre : String)
    (lvl fuel : ℕ) (s : WState) (m : PMsg) (h : m.depthM ≤ fuel) :
    parseMsgF mi upd pre lvl fuel s m =
      some (parseMsg mi upd pre lvl s m) := by
  cases m with
  | mk tn fs =>
      rw [PMsg.depthM] at h
      cases fuel with
      | zero => omega
      | succ fuel =>
          have hfs : fs.depthL ≤ fuel := by omega
          rw [parseMsgF, parseMsg]
          rw [parseFieldsF_agree mi upd pre lvl fuel s fs hfs]

end

theorem updCompositeField_of_composite (mi : MathImpl) (w : PWidget)
    (nm : String) (ft : FType) (rep : Bool) (m0 : PMsg) (r1 r2 : PMsg)
    (hc : compositeNames.contains m0.typeName = true) :
    updCompositeField mi w nm ft rep m0 r1 =
      updCompositeField mi w nm ft rep m0 r2 := by
  unfold updCompositeField
  simp only [compositeNames] at hc
  rw [List.contains_iff_exists_mem_beq] at hc
  simp only [List.mem_cons, List.not_mem_nil, or_false, beq_iff_eq] at hc
  rcases hc with ⟨a, ha, he⟩
  subst he
  rcases ha with h | h | h | h | h <;> simp [h]

set_option maxHeartbeats 2000000 in
mutual

theorem updMsgFieldF_agree (mi : MathImpl) (pre : String) (s : WState)
    (fuel : ℕ) (f : PField) (h : f.depthF ≤ fuel) :
    updMsgFieldF mi pre s fuel f = some (updMsgField mi pre s f) := by
  cases f with
  | mk nm ft rep has v =>
      rw [updMsgFieldF, updMsgField]
      by_cases hr : rep = true
      · rw [if_pos hr, if_pos hr]
      · rw [if_neg hr, if_neg hr]
        dsimp only
        cases hl : s.lookupW (scopedNameOf pre nm) with
        | none => rfl
        | some st =>
            dsimp only
            by_cases hro : st.readOnly = true
            · rw [if_pos hro, if_pos hro]
            · rw [if_neg hro, if_neg hro]
              cases ft
              · rfl
              · rfl
              · rfl
              · rfl
              · rfl
              · rfl
              · rfl
              · rfl
              · -- tMessage
                cases v
                · rfl
                · rfl
                · rfl
                · rfl
                · rfl
                · next m0 =>
                    dsimp only
                    by_cases hc : compositeNames.contains m0.typeName = true
                    · rw [if_pos hc]
                      rw [updCompositeField_of_composite mi st.w nm
                        .tMessage rep m0 m0 (updMsg mi
                          (scopedNameOf pre nm) s m0) hc]
                    · rw [if_neg hc]
                      have hm : m0.depthM ≤ fuel := by
                        rw [PField.depthF, PValue.depthV] at h
                        exact h
                      rw [updMsgF_agree mi (scopedNameOf pre nm) s fuel
                        m0 hm]
                · rfl
              · rfl
              · rfl

theorem updMsgFieldsF_agree (mi : MathImpl) (pre : String) (s : WState)
    (fuel : ℕ) (fl : PFieldList) (h : fl.depthL ≤ fuel) :
    updMsgFieldsF mi pre s fuel fl = some (updMsgFields mi pre s fl) := by
  cases fl with
  | nil => rw [updMsgFieldsF, updMsgFields]
  | cons f t =>
      rw [PFieldList.depthL] at h
      have hf : f.depthF ≤ fuel := le_trans (le_max_left _ _) h
      have ht : t.depthL ≤ fuel := le_trans (le_max_right _ _) h
      rw [updMsgFieldsF, updMsgFields]
      rw [updMsgFieldF_agree mi pre s fuel f hf]
      dsimp only
      rw [updMsgFieldsF_agree mi pre s fuel t ht]

theorem updMsgF_agree (mi : MathImpl) (pre : String) (s : WState)
    (fuel : ℕ) (m : PMsg) (h : m.depthM ≤ fuel) :
    updMsgF mi pre s fuel m = some (updMsg mi pre s m) := by
  cases m with
  | mk tn fs =>
      rw [PMsg.depthM] at h
      cases fuel with
      | zero => omega
      | succ fuel =>
          have hfs : fs.depthL ≤ fuel := by omega
          rw [updMsgF, updMsg]
          rw [updMsgFieldsF_agree mi pre s fuel fs hfs]

end

/-- Claim C7: the mutually recursive tree-walks terminate.  The
fuel-bounded transcriptions of `Parse` and `UpdateMsg` — in which every
generic recursive call visibly descends into a strict submessage and each
level iterates over the finite field list — return a result (rather than
running out of fuel) as soon as the fuel exceeds the message's
submessage-nesting depth, and that result is exactly the value of the
total structural functions. -/
theorem c7_tree_walk_terminates (mi : MathImpl) (upd : Bool)
    (pre : String) (lvl : ℕ) (s : WState) (m : PMsg) (fuel : ℕ)
    (h : m.depthM ≤ fuel) :
    parseMsgF mi upd pre lvl fuel s m =
      some (parseMsg mi upd pre lvl s m) ∧
    updMsgF mi pre s fuel m = some (updMsg mi pre s m) :=
  ⟨parseMsgF_agree mi upd pre lvl fuel s m h,
   updMsgF_agree mi pre s fuel m h⟩

/-- Witness for C7: a two-level message has depth 2, and fuel 2 already
suffices for both walks. -/
theorem c7_tree_walk_terminates_witness :
    (PMsg.mk "Outer" (.cons (.mk "sub" .tMessage false true (.msg
      (.mk "Inner" (.cons (.mk "b" .tBool false true (.bool true))
        .nil)))) .nil)).depthM ≤ 2 ∧
    (parseMsgF dummyMath false "" 0 2 emptyWS
        (PMsg.mk "Outer" (.cons (.mk "sub" .tMessage false true (.msg
          (.mk "Inner" (.cons (.mk "b" .tBool false true (.bool true))
            .nil)))) .nil)) =
      some (parseMsg dummyMath false "" 0 emptyWS
        (PMsg.mk "Outer" (.cons (.mk "sub" .tMessage false true (.msg
          (.mk "Inner" (.cons (.mk "b" .tBool false true (.bool true))
            .nil)))) .nil))) ∧
     updMsgF dummyMath "" emptyWS 2
        (PMsg.mk "Outer" (.cons (.mk "sub" .tMessage false true (.msg
          (.mk "Inner" (.cons (.mk "b" .tBool false true (.bool true))
            .nil)))) .nil)) =
      some (updMsg dummyMath "" emptyWS
        (PMsg.mk "Outer" (.cons (.mk "sub" .tMessage false true (.msg
          (.mk "Inner" (.cons (.mk "b" .tBool false true (.bool true))
            .nil)))) .nil)))) :=
  ⟨by simp [PMsg.depthM, PFieldList.depthL, PField.depthF, PValue.depthV],
   c7_tree_walk_terminates dummyMath false "" 0 emptyWS _ 2
     (by simp [PMsg.depthM, PFieldList.depthL, PField.depthF,
       PValue.depthV])⟩

/-! ## Content relations: the parse loops read the stored content -/

theorem mutableMsg_fst (f : PField) : f.mutableMsg.1 = f.val.msgD := by
  cases f with
  | mk n t r h v => cases v <;> rfl

theorem eraseHasF_mutableMsg (f : PField) :
    (f.mutableMsg.2).eraseHasF = f.eraseHasF := by
  cases f with
  | mk n t r h v =>
      cases v <;>
        simp [PField.mutableMsg, PField.eraseHasF, PField.val,
          PField.name, PField.ftype, PField.isRep]

theorem findTextIdx_getD (items : List String) (v : String) (i : ℕ)
    (h : findTextIdx items v = some i) : items.getD i "" = v := by
  induction items generalizing i with
  | nil => simp [findTextIdx] at h
  | cons a t ih =>
      rw [findTextIdx] at h
      by_cases ha : a = v
      · rw [if_pos ha] at h
        obtain rfl : (0 : ℕ) = i := Option.some_injective _ h
        simpa using ha
      · rw [if_neg ha] at h
        cases hf : findTextIdx t v with
        | none => rw [hf] at h; simp at h
        | some j =>
            rw [hf] at h
            simp only [Option.map_some'] at h
            obtain rfl : j + 1 = i := Option.some_injective _ h
            simpa using ih j hf

theorem poseLoop_read (fl : PFieldList) (p : Vec3) (q : Quat4) :
    (poseLoop fl p q).2 = poseRead fl p q := by
  cases fl with
  | nil => rfl
  | cons vf t =>
      rw [poseLoop, poseRead]
      by_cases h1 : vf.ftype ≠ FType.tMessage
      · rw [if_pos h1, if_pos h1]
        rw [← poseLoop_read t p q]
      · rw [if_neg h1, if_neg h1]
        by_cases h2 : vf.msgTypeName = "Vector3d"
        · rw [if_pos h2, if_pos h2]
          rcases hmm : vf.mutableMsg with ⟨pm, vf2⟩
          have hpm : pm = vf.val.msgD := by
            rw [← mutableMsg_fst vf, hmm]
          subst hpm
          dsimp only
          rw [← poseLoop_read t (parseVector3d vf.val.msgD) q]
        · rw [if_neg h2, if_neg h2]
          by_cases h3 : vf.msgTypeName = "Quaternion"
          · rw [if_pos h3, if_pos h3]
            rcases hmm : vf.mutableMsg with ⟨qm, vf2⟩
            have hqm : qm = vf.val.msgD := by
              rw [← mutableMsg_fst vf, hmm]
            subst hqm
            dsimp only
            rw [← poseLoop_read t p ⟨vf.val.msgD.numAt 0,
              vf.val.msgD.numAt 1, vf.val.msgD.numAt 2,
              vf.val.msgD.numAt 3⟩]
          · rw [if_neg h3, if_neg h3]
            rw [← poseLoop_read t p q]

theorem geomDimsLoop_read (fl : PFieldList) :
    (geomDimsLoop fl).2 = geomDimsRead fl := by
  cases fl with
  | nil => rfl
  | cons gf t =>
      rw [geomDimsLoop, geomDimsRead]
      by_cases h1 : gf.isRep = true
      · rw [if_pos h1, if_pos h1]
        rw [← geomDimsLoop_read t]
      · rw [if_neg h1, if_neg h1]
        by_cases h2 : gf.ftype ≠ FType.tMessage ∨ ¬gf.hasF = true
        · rw [if_pos h2, if_pos h2]
          rw [← geomDimsLoop_read t]
        · rw [if_neg h2, if_neg h2]
          rcases hmm : gf.mutableMsg with ⟨gm, gf1⟩
          have hgm : gm = gf.val.msgD := by
            rw [← mutableMsg_fst gf, hmm]
          subst hgm
          dsimp only
          by_cases h3 : gf.msgTypeName = "BoxGeom" ∨ gf.msgTypeName = "MeshGeom"
          · rw [if_pos h3, if_pos h3]
            cases hdf : gf.val.msgD.fields.get?
              (if gf.msgTypeName = "BoxGeom" then 0 else 1) with
            | none => rfl
            | some df =>
                dsimp only
                rcases hdm : df.mutableMsg with ⟨dimMsg, df2⟩
                have hdim : dimMsg = df.val.msgD := by
                  rw [← mutableMsg_fst df, hdm]
                subst hdim
                dsimp only
          · rw [if_neg h3, if_neg h3]
            by_cases h4 : gf.msgTypeName = "CylinderGeom"
            · rw [if_pos h4, if_pos h4]
            · rw [if_neg h4, if_neg h4]
              by_cases h5 : gf.msgTypeName = "SphereGeom"
              · rw [if_pos h5, if_pos h5]
              · rw [if_neg h5, if_neg h5]
                rw [← geomDimsLoop_read t]

/-! ## The parse pass changes the message only in its presence marks -/

theorem mutableMsg_setMsg (f : PField) (m : PMsg) :
    (f.mutableMsg.2).setMsg m = f.setMsg m := by
  cases f with
  | mk n t r h v =>
      cases v <;>
        simp [PField.mutableMsg, PField.setMsg, PField.val, PField.name,
          PField.ftype, PField.isRep]

theorem eraseHasL_setAt (fs : PFieldList) (i : ℕ) (g df : PField)
    (hget : fs.get? i = some df) (hg : g.eraseHasF = df.eraseHasF) :
    (fs.setAt i g).eraseHasL = fs.eraseHasL := by
  cases fs with
  | nil => simp [PFieldList.get?] at hget
  | cons f t =>
      cases i with
      | zero =>
          rw [PFieldList.get?] at hget
          obtain rfl : f = df := by
            have := Option.some_injective _ hget
            exact this
          rw [PFieldList.setAt]
          simp only [PFieldList.eraseHasL]
          rw [hg]
      | succ i =>
          rw [PFieldList.get?] at hget
          rw [PFieldList.setAt]
          simp only [PFieldList.eraseHasL]
          rw [eraseHasL_setAt t i g df hget hg]

theorem poseLoop_eraseHas (fl : PFieldList) (p : Vec3) (q : Quat4) :
    (poseLoop fl p q).1.eraseHasL = fl.eraseHasL := by
  cases fl with
  | nil => rfl
  | cons vf t =>
      rw [poseLoop]
      by_cases h1 : vf.ftype ≠ FType.tMessage
      · rw [if_pos h1]
        dsimp only
        simp only [PFieldList.eraseHasL]
        rw [poseLoop_eraseHas t p q]
      · rw [if_neg h1]
        by_cases h2 : vf.msgTypeName = "Vector3d"
        · rw [if_pos h2]
          rcases hmm : vf.mutableMsg with ⟨pm, vf2⟩
          have h5 := eraseHasF_mutableMsg vf
          rw [hmm] at h5
          dsimp only at h5
          dsimp only
          simp only [PFieldList.eraseHasL]
          rw [h5, poseLoop_eraseHas t (parseVector3d pm) q]
        · rw [if_neg h2]
          by_cases h3 : vf.msgTypeName = "Quaternion"
          · rw [if_pos h3]
            rcases hmm : vf.mutableMsg with ⟨qm, vf2⟩
            have h5 := eraseHasF_mutableMsg vf
            rw [hmm] at h5
            dsimp only at h5
            dsimp only
            simp only [PFieldList.eraseHasL]
            rw [h5, poseLoop_eraseHas t p
              ⟨qm.numAt 0, qm.numAt 1, qm.numAt 2, qm.numAt 3⟩]
          · rw [if_neg h3]
            dsimp only
            simp only [PFieldList.eraseHasL]
            rw [poseLoop_eraseHas t p q]

theorem eraseHasM_eq (m : PMsg) :
    m.eraseHasM = .mk m.typeName m.fields.eraseHasL := by
  cases m with
  | mk n fs =>
      rw [PMsg.eraseHasM]
      rfl

theorem geomDimsLoop_eraseHas (fl : PFieldList) :
    (geomDimsLoop fl).1.eraseHasL = fl.eraseHasL := by
  cases fl with
  | nil => rfl
  | cons gf t =>
      rw [geomDimsLoop]
      by_cases h1 : gf.isRep = true
      · rw [if_pos h1]
        rcases hgl : geomDimsLoop t with ⟨t2, d⟩
        dsimp only
        simp only [PFieldList.eraseHasL]
        have := geomDimsLoop_eraseHas t
        rw [hgl] at this
        rw [this]
      · rw [if_neg h1]
        by_cases h2 : gf.ftype ≠ FType.tMessage ∨ ¬gf.hasF = true
        · rw [if_pos h2]
          rcases hgl : geomDimsLoop t with ⟨t2, d⟩
          dsimp only
          simp only [PFieldList.eraseHasL]
          have := geomDimsLoop_eraseHas t
          rw [hgl] at this
          rw [this]
        · rw [if_neg h2]
          rcases hmm : gf.mutableMsg with ⟨gm, gf1⟩
          dsimp only
          have hg1 := eraseHasF_mutableMsg gf
          rw [hmm] at hg1
          by_cases h3 : gf.msgTypeName = "BoxGeom" ∨ gf.msgTypeName = "MeshGeom"
          · rw [if_pos h3]
            cases hdf : gm.fields.get?
              (if gf.msgTypeName = "BoxGeom" then 0 else 1) with
            | none =>
                dsimp only
                simp only [PFieldList.eraseHasL]
                rw [hg1]
            | some df =>
                dsimp only
                rcases hdm : df.mutableMsg with ⟨dimMsg, df2⟩
                dsimp only
                simp only [PFieldList.eraseHasL]
                have hsm : gf1.setMsg (PMsg.mk gm.typeName
                    (gm.fields.setAt
                      (if gf.msgTypeName = "BoxGeom" then 0 else 1) df2)) =
                    gf.setMsg (PMsg.mk gm.typeName
                      (gm.fields.setAt
                        (if gf.msgTypeName = "BoxGeom" then 0 else 1)
                        df2)) := by
                  have := mutableMsg_setMsg gf (PMsg.mk gm.typeName
                    (gm.fields.setAt
                      (if gf.msgTypeName = "BoxGeom" then 0 else 1) df2))
                  rw [hmm] at this
                  exact this
                rw [hsm]
                -- the geometry field's slot is a submessage, since its
                -- message-type name is nonempty
                rcases gf with ⟨gn, gt, gr, gh, gv⟩
                cases gv with
                | msg gm0 =>
                    have hgm0 : gm = gm0 := by
                      have := mutableMsg_fst (.mk gn gt gr gh (.msg gm0))
                      rw [hmm] at this
                      simpa [PField.val, PValue.msgD] using this
                    subst hgm0
                    simp only [PField.setMsg, PField.eraseHasF,
                      PValue.eraseHasV, PMsg.eraseHasM, PField.name,
                      PField.ftype, PField.isRep]
                    have hdf2 := eraseHasF_mutableMsg df
                    rw [hdm] at hdf2
                    rw [eraseHasL_setAt gm.fields _ df2 df hdf hdf2]
                    rw [eraseHasM_eq gm]
                | num x =>
                    exact absurd h3 (by
                      simp [PField.msgTypeName, PField.val, PValue.msgD,
                        PMsg.typeName])
                | int x =>
                    exact absurd h3 (by
                      simp [PField.msgTypeName, PField.val, PValue.msgD,
                        PMsg.typeName])
                | bool b =>
                    exact absurd h3 (by
                      simp [PField.msgTypeName, PField.val, PValue.msgD,
                        PMsg.typeName])
                | str v =>
                    exact absurd h3 (by
                      simp [PField.msgTypeName, PField.val, PValue.msgD,
                        PMsg.typeName])
                | enum c a =>
                    exact absurd h3 (by
                      simp [PField.msgTypeName, PField.val, PValue.msgD,
                        PMsg.typeName])
                | unset =>
                    exact absurd h3 (by
                      simp [PField.msgTypeName, PField.val, PValue.msgD,
                        PMsg.typeName])
          · rw [if_neg h3]
            by_cases h4 : gf.msgTypeName = "CylinderGeom"
            · rw [if_pos h4]
              dsimp only
              simp only [PFieldList.eraseHasL]
              rw [hg1]
            · rw [if_neg h4]
              by_cases h5 : gf.msgTypeName = "SphereGeom"
              · rw [if_pos h5]
                dsimp only
                simp only [PFieldList.eraseHasL]
                rw [hg1]
              · rw [if_neg h5]
                rcases hgl : geomDimsLoop t with ⟨t2, d⟩
                dsimp only
                simp only [PFieldList.eraseHasL]
                rw [hg1]
                have := geomDimsLoop_eraseHas t
                rw [hgl] at this
                rw [this]

set_option maxHeartbeats 2000000 in
mutual

theorem parseField_eraseHas (mi : MathImpl) (upd : Bool) (pre : String)
    (lvl : ℕ) (s : WState) (f : PField) :
    (parseField mi upd pre lvl s f).1.eraseHasF = f.eraseHasF := by
  cases f with
  | mk nm ft rep has v =>
      rw [parseField]
      by_cases hr : rep = true
      · rw [if_pos hr]
      · rw [if_neg hr]
        by_cases h2 : upd = true ∧ ¬has = true
        · rw [if_pos h2]
        · rw [if_neg h2]
          cases ft
          · rfl
          · rfl
          · rfl
          · rfl
          · rfl
          · rfl
          · rfl
          · rfl
          · -- tMessage
            cases v
            · rfl
            · rfl
            · rfl
            · rfl
            · rfl
            · next m0 =>
                dsimp only
                by_cases hG : m0.typeName = "Geometry"
                · rw [if_pos hG]
                  unfold geomFieldStep
                  cases hft : m0.fields.findByName "type" with
                  | none =>
                      dsimp only
                      simp only [PField.eraseHasF, PValue.eraseHasV]
                  | some tf =>
                      dsimp only
                      by_cases htf : tf.hasF = true
                      · rw [if_pos htf]
                        dsimp only
                        simp only [PField.eraseHasF, PValue.eraseHasV]
                        rw [eraseHasM_eq, eraseHasM_eq]
                        dsimp only [PMsg.typeName, PMsg.fields]
                        rw [geomDimsLoop_eraseHas]
                      · rw [if_neg htf]
                        dsimp only
                        simp only [PField.eraseHasF, PValue.eraseHasV]
                · rw [if_neg hG]
                  by_cases hP : m0.typeName = "Pose"
                  · rw [if_pos hP]
                    unfold poseFieldStep
                    rcases hpl : poseLoop m0.fields ⟨0, 0, 0⟩
                      ⟨0, 0, 0, 1⟩ with ⟨fs2, pos, quat⟩
                    dsimp only
                    simp only [PField.eraseHasF, PValue.eraseHasV]
                    rw [eraseHasM_eq, eraseHasM_eq]
                    dsimp only [PMsg.typeName, PMsg.fields]
                    have := poseLoop_eraseHas m0.fields ⟨0, 0, 0⟩
                      ⟨0, 0, 0, 1⟩
                    rw [hpl] at this
                    dsimp only at this
                    rw [this]
                    rfl
                  · rw [if_neg hP]
                    by_cases hV : m0.typeName = "Vector3d"
                    · rw [if_pos hV]
                      unfold vec3FieldStep
                      dsimp only
                      simp only [PField.eraseHasF, PValue.eraseHasV]
                    · rw [if_neg hV]
                      by_cases hC : m0.typeName = "Color"
                      · rw [if_pos hC]
                        unfold colorFieldStep
                        dsimp only
                        simp only [PField.eraseHasF, PValue.eraseHasV]
                      · rw [if_neg hC]
                        by_cases hD : m0.typeName = "Density"
                        · rw [if_pos hD]
                          unfold densityFieldStep
                          dsimp only
                          simp only [PField.eraseHasF, PValue.eraseHasV]
                        · rw [if_neg hD]
                          rcases hpm : parseMsg mi upd
                              (scopedNameOf pre nm) (lvl + 1) s m0 with
                            ⟨m1, s1, created⟩
                          simp only [hpm]
                          unfold genericWrapStep
                          have hm1 : m1.eraseHasM = m0.eraseHasM := by
                            have := parseMsg_eraseHas mi upd
                              (scopedNameOf pre nm) (lvl + 1) s m0
                            rw [hpm] at this
                            exact this
                          by_cases hcr : created = true
                          · rw [if_pos hcr]
                            cases s.lookupW (scopedNameOf pre nm) with
                            | none =>
                                dsimp only
                                simp only [PField.eraseHasF,
                                  PValue.eraseHasV]
                                rw [hm1]
                            | some st =>
                                dsimp only
                                simp only [PField.eraseHasF,
                                  PValue.eraseHasV]
                                rw [hm1]
                          · rw [if_neg hcr]
                            simp only [PField.eraseHasF, PValue.eraseHasV]
                            rw [hm1]
            · rfl
          · rfl
          · rfl

theorem parseFields_eraseHas (mi : MathImpl) (upd : Bool) (pre : String)
    (lvl : ℕ) (s : WState) (fl : PFieldList) :
    (parseFields mi upd pre lvl s fl).1.eraseHasL = fl.eraseHasL := by
  cases fl with
  | nil => rw [parseFields]
  | cons f t =>
      rw [parseFields]
      rcases hf : parseField mi upd pre lvl s f with ⟨f', s', c1⟩
      rcases ht : parseFields mi upd pre lvl s' t with ⟨t', s'', c2⟩
      dsimp only
      simp only [PFieldList.eraseHasL]
      have h1 := parseField_eraseHas mi upd pre lvl s f
      rw [hf] at h1
      have h2 := parseFields_eraseHas mi upd pre lvl s' t
      rw [ht] at h2
      dsimp only at h1 h2
      rw [h1, ht]
      dsimp only
      rw [h2]

theorem parseMsg_eraseHas (mi : MathImpl) (upd : Bool) (pre : String)
    (lvl : ℕ) (s : WState) (m : PMsg) :
    (parseMsg mi upd pre lvl s m).1.eraseHasM = m.eraseHasM := by
  cases m with
  | mk tn fs =>
      rw [parseMsg]
      rcases hpf : parseFields mi upd pre lvl s fs with ⟨fs', s', c⟩
      dsimp only
      rw [eraseHasM_eq, eraseHasM_eq]
      dsimp only [PMsg.typeName, PMsg.fields]
      have := parseFields_eraseHas mi upd pre lvl s fs
      rw [hpf] at this
      dsimp only at this
      rw [this]

end

/-! ## Frame: parsing a field touches no other field's widgets -/

theorem handleLeaf_frame (s : WState) (sname : String)
    (ex : Option StoredW) (fresh : PWidget)
    (updFn : PWidget → Bool × PWidget) (n : String) (hne : n ≠ sname) :
    (s.handleLeaf sname ex fresh updFn).1.lookupW n = s.lookupW n := by
  unfold WState.handleLeaf
  match ex with
  | none =>
      dsimp only
      rw [lookupW_addPropertyWidget_other _ sname n _ hne]
      rfl
  | some st =>
      exact WState.lookupW_setWidgetAt_ne s sname n _ hne

theorem leafStep_frame (s : WState) (sname : String)
    (ex : Option StoredW) (fresh : PWidget)
    (updFn : PWidget → Bool × PWidget) (f : PField) (n : String)
    (hne : n ≠ sname) :
    (leafStep s sname ex fresh updFn f).2.1.lookupW n = s.lookupW n := by
  unfold leafStep
  exact handleLeaf_frame s sname ex fresh updFn n hne

set_option maxHeartbeats 2000000 in
mutual

theorem parseField_frame (mi : MathImpl) (upd : Bool) (pre : String)
    (lvl : ℕ) (s : WState) (f : PField) (n : String)
    (hn : n ∉ pathNamesF pre f) :
    (parseField mi upd pre lvl s f).2.1.lookupW n = s.lookupW n := by
  cases f with
  | mk nm ft rep has v =>
      rw [parseField]
      rw [pathNamesF] at hn
      by_cases hr : rep = true
      · rw [if_pos hr]
      · rw [if_neg hr]
        rw [if_neg hr] at hn
        by_cases h2 : upd = true ∧ ¬has = true
        · rw [if_pos h2]
        · rw [if_neg h2]
          cases ft
          · dsimp only at hn
            exact leafStep_frame s _ _ _ _ _ n (by simpa using hn)
          · dsimp only at hn
            exact leafStep_frame s _ _ _ _ _ n (by simpa using hn)
          · dsimp only at hn
            exact leafStep_frame s _ _ _ _ _ n (by simpa using hn)
          · dsimp only at hn
            exact leafStep_frame s _ _ _ _ _ n (by simpa using hn)
          · dsimp only at hn
            exact leafStep_frame s _ _ _ _ _ n (by simpa using hn)
          · dsimp only at hn
            exact leafStep_frame s _ _ _ _ _ n (by simpa using hn)
          · dsimp only at hn
            exact leafStep_frame s _ _ _ _ _ n (by simpa using hn)
          · dsimp only at hn
            exact leafStep_frame s _ _ _ _ _ n (by simpa using hn)
          · -- tMessage
            cases v
            · rfl
            · rfl
            · rfl
            · rfl
            · rfl
            · next m0 =>
                cases m0 with
                | mk tn0 fs0 =>
                    dsimp only at hn ⊢
                    by_cases hG : tn0 = "Geometry"
                    · rw [if_pos (by rw [PMsg.typeName]; exact hG)]
                      rw [if_pos (by rw [hG]; decide)] at hn
                      unfold geomFieldStep
                      exact handleLeaf_frame s _ _ _ _ n (by simpa using hn)
                    · rw [if_neg (by rw [PMsg.typeName]; exact hG)]
                      by_cases hP : tn0 = "Pose"
                      · rw [if_pos (by rw [PMsg.typeName]; exact hP)]
                        rw [if_pos (by rw [hP]; decide)] at hn
                        unfold poseFieldStep
                        rcases hpl : poseLoop fs0 ⟨0, 0, 0⟩ ⟨0, 0, 0, 1⟩
                          with ⟨fs2, pos, quat⟩
                        dsimp only
                        exact handleLeaf_frame s _ _ _ _ n
                          (by simpa using hn)
                      · rw [if_neg (by rw [PMsg.typeName]; exact hP)]
                        by_cases hV : tn0 = "Vector3d"
                        · rw [if_pos (by rw [PMsg.typeName]; exact hV)]
                          rw [if_pos (by rw [hV]; decide)] at hn
                          unfold vec3FieldStep
                          exact handleLeaf_frame s _ _ _ _ n
                            (by simpa using hn)
                        · rw [if_neg (by rw [PMsg.typeName]; exact hV)]
                          by_cases hC : tn0 = "Color"
                          · rw [if_pos (by rw [PMsg.typeName]; exact hC)]
                            rw [if_pos (by rw [hC]; decide)] at hn
                            unfold colorFieldStep
                            exact handleLeaf_frame s _ _ _ _ n
                              (by simpa using hn)
                          · rw [if_neg (by rw [PMsg.typeName]; exact hC)]
                            by_cases hD : tn0 = "Density"
                            · rw [if_pos (by rw [PMsg.typeName]; exact hD)]
                              rw [if_pos (by rw [hD]; decide)] at hn
                              unfold densityFieldStep
                              exact handleLeaf_frame s _ _ _ _ n
                                (by simpa using hn)
                            · rw [if_neg (by rw [PMsg.typeName]; exact hD)]
                              have hc :
                                  ¬(compositeNames.contains tn0 = true) := by
                                simp [compositeNames, hG, hP, hV, hC, hD]
                              rw [if_neg hc] at hn
                              simp only [List.mem_cons, not_or] at hn
                              obtain ⟨hn1, hn2⟩ := hn
                              rcases hpm : parseMsg mi upd
                                  (scopedNameOf pre nm) (lvl + 1) s
                                  (.mk tn0 fs0) with ⟨m1, s1, created⟩
                              have hrec : s1.lookupW n = s.lookupW n := by
                                have := parseMsg_frame mi upd
                                  (scopedNameOf pre nm) (lvl + 1) s
                                  (.mk tn0 fs0) n (by
                                    dsimp only [PMsg.fields]
                                    exact hn2)
                                rw [hpm] at this
                                exact this
                              simp only [hpm]
                              unfold genericWrapStep
                              by_cases hcr : created = true
                              · rw [if_pos hcr]
                                cases s.lookupW (scopedNameOf pre nm) with
                                | none =>
                                    dsimp only
                                    rw [lookupW_addPropertyWidget_other _ _
                                      n _ hn1]
                                    exact hrec
                                | some st =>
                                    dsimp only
                                    exact hrec
                              · rw [if_neg hcr]
                                exact hrec
            · rfl
          · dsimp only at hn
            exact leafStep_frame s _ _ _ _ _ n (by simpa using hn)
          · rfl

theorem parseFields_frame (mi : MathImpl) (upd : Bool) (pre : String)
    (lvl : ℕ) (s : WState) (fl : PFieldList) (n : String)
    (hn : n ∉ pathNamesL pre fl) :
    (parseFields mi upd pre lvl s fl).2.1.lookupW n = s.lookupW n := by
  cases fl with
  | nil => rw [parseFields]
  | cons f t =>
      rw [pathNamesL] at hn
      simp only [List.mem_append, not_or] at hn
      rw [parseFields]
      rcases hf : parseField mi upd pre lvl s f with ⟨f', s', c1⟩
      rcases ht : parseFields mi upd pre lvl s' t with ⟨t', s'', c2⟩
      have h1 : s'.lookupW n = s.lookupW n := by
        have := parseField_frame mi upd pre lvl s f n hn.1
        rw [hf] at this
        exact this
      have h2 : s''.lookupW n = s'.lookupW n := by
        have := parseFields_frame mi upd pre lvl s' t n hn.2
        rw [ht] at this
        exact this
      simp only [hf, ht]
      rw [h2, h1]

theorem parseMsg_frame (mi : MathImpl) (upd : Bool) (pre : String)
    (lvl : ℕ) (s : WState) (m : PMsg) (n : String)
    (hn : n ∉ pathNamesL pre m.fields) :
    (parseMsg mi upd pre lvl s m).2.1.lookupW n = s.lookupW n := by
  cases m with
  | mk tn fs =>
      dsimp only [PMsg.fields] at hn
      rw [parseMsg]
      rcases hpf : parseFields mi upd pre lvl s fs with ⟨fs', s', c⟩
      have := parseFields_frame mi upd pre lvl s fs n hn
      rw [hpf] at this
      simp only [hpf]
      exact this

end

/-! ## What a field displays depends only on its own widgets -/

theorem dispLeaf_congr (s s' : WState) (sname : String) (ft : FType)
    (f : PField) (hx : s'.lookupW sname = s.lookupW sname) :
    dispLeaf s' sname ft f = dispLeaf s sname ft f := by
  unfold dispLeaf WState.doubleWidgetValue WState.intWidgetValue
    WState.uintWidgetValue WState.boolWidgetValue WState.stringWidgetValue
    WState.enumWidgetValue
  rw [hx]

theorem vecDisp_congr (s s' : WState) (sname : String) (m0 : PMsg)
    (hx : s'.lookupW sname = s.lookupW sname) :
    vecDisp s' sname m0 = vecDisp s sname m0 := by
  unfold vecDisp WState.vector3dWidgetValue
  rw [hx]

theorem colorDisp_congr (s s' : WState) (sname : String) (m0 : PMsg)
    (hx : s'.lookupW sname = s.lookupW sname) :
    colorDisp s' sname m0 = colorDisp s sname m0 := by
  unfold colorDisp WState.colorWidgetValue
  rw [hx]

theorem poseDisp_congr (mi : MathImpl) (s s' : WState) (sname : String)
    (m0 : PMsg) (hx : s'.lookupW sname = s.lookupW sname) :
    poseDisp mi s' sname m0 = poseDisp mi s sname m0 := by
  unfold poseDisp WState.poseWidgetValue
  rw [hx]

theorem densDisp_congr (s s' : WState) (sname : String) (m0 : PMsg)
    (hx : s'.lookupW sname = s.lookupW sname) :
    densDisp s' sname m0 = densDisp s sname m0 := by
  unfold densDisp WState.densityWidgetValue
  rw [hx]

theorem geomDisp_congr (s s' : WState) (sname : String) (m0 : PMsg)
    (hx : s'.lookupW sname = s.lookupW sname) :
    geomDisp s' sname m0 = geomDisp s sname m0 := by
  unfold geomDisp WState.geometryWidgetValue
  rw [hx]

set_option maxHeartbeats 2000000 in
mutual

theorem dispF_congr (mi : MathImpl) (s s' : WState) (pre : String)
    (f : PField)
    (hA : ∀ x ∈ pathNamesF pre f, s'.lookupW x = s.lookupW x) :
    dispF mi s' pre f = dispF mi s pre f := by
  cases f with
  | mk nm ft rep has v =>
      rw [pathNamesF] at hA
      rw [dispF]
      rw [dispF]
      by_cases hr : rep = true
      · rw [if_pos hr, if_pos hr]
      · rw [if_neg hr, if_neg hr]
        rw [if_neg hr] at hA
        by_cases hh : ¬has = true
        · rw [if_pos hh, if_pos hh]
        · rw [if_neg hh, if_neg hh]
          cases ft
          · dsimp only at hA ⊢
            exact dispLeaf_congr s s' _ _ _
              (hA (scopedNameOf pre nm) (by simp))
          · dsimp only at hA ⊢
            exact dispLeaf_congr s s' _ _ _
              (hA (scopedNameOf pre nm) (by simp))
          · dsimp only at hA ⊢
            exact dispLeaf_congr s s' _ _ _
              (hA (scopedNameOf pre nm) (by simp))
          · dsimp only at hA ⊢
            exact dispLeaf_congr s s' _ _ _
              (hA (scopedNameOf pre nm) (by simp))
          · dsimp only at hA ⊢
            exact dispLeaf_congr s s' _ _ _
              (hA (scopedNameOf pre nm) (by simp))
          · dsimp only at hA ⊢
            exact dispLeaf_congr s s' _ _ _
              (hA (scopedNameOf pre nm) (by simp))
          · dsimp only at hA ⊢
            exact dispLeaf_congr s s' _ _ _
              (hA (scopedNameOf pre nm) (by simp))
          · dsimp only at hA ⊢
            exact dispLeaf_congr s s' _ _ _
              (hA (scopedNameOf pre nm) (by simp))
          · -- tMessage
            cases v
            · dsimp only
            · dsimp only
            · dsimp only
            · dsimp only
            · dsimp only
            · next m0 =>
                cases m0 with
                | mk tn0 fs0 =>
                    dsimp only at hA ⊢
                    by_cases hG : tn0 = "Geometry"
                    · rw [if_pos hG, if_pos hG]
                      exact geomDisp_congr s s' _ _
                        (hA _ (by rw [if_pos (by rw [hG]; decide)]; simp))
                    · rw [if_neg hG, if_neg hG]
                      by_cases hP : tn0 = "Pose"
                      · rw [if_pos hP, if_pos hP]
                        exact poseDisp_congr mi s s' _ _
                          (hA _ (by rw [if_pos (by rw [hP]; decide)]; simp))
                      · rw [if_neg hP, if_neg hP]
                        by_cases hV : tn0 = "Vector3d"
                        · rw [if_pos hV, if_pos hV]
                          exact vecDisp_congr s s' _ _
                            (hA _ (by rw [if_pos (by rw [hV]; decide)]; simp))
                        · rw [if_neg hV, if_neg hV]
                          by_cases hC : tn0 = "Color"
                          · rw [if_pos hC, if_pos hC]
                            exact colorDisp_congr s s' _ _
                              (hA _ (by rw [if_pos (by rw [hC]; decide)]; simp))
                          · rw [if_neg hC, if_neg hC]
                            by_cases hD : tn0 = "Density"
                            · rw [if_pos hD, if_pos hD]
                              exact densDisp_congr s s' _ _
                                (hA _ (by rw [if_pos (by rw [hD]; decide)]; simp))
                            · rw [if_neg hD, if_neg hD]
                              have hc :
                                  ¬(compositeNames.contains tn0 = true) := by
                                simp [compositeNames, hG, hP, hV, hC, hD]
                              rw [if_neg hc] at hA
                              exact dispL_congr mi s s' _ fs0
                                (fun x hxm => hA x (by simp [hxm]))
            · dsimp only
          · dsimp only at hA ⊢
            exact dispLeaf_congr s s' _ _ _
              (hA (scopedNameOf pre nm) (by simp))
          · dsimp only
            rfl

theorem dispL_congr (mi : MathImpl) (s s' : WState) (pre : String)
    (fl : PFieldList)
    (hA : ∀ x ∈ pathNamesL pre fl, s'.lookupW x = s.lookupW x) :
    dispL mi s' pre fl = dispL mi s pre fl := by
  cases fl with
  | nil =>
      rw [dispL]
      rw [dispL]
  | cons f t =>
      rw [pathNamesL] at hA
      rw [dispL]
      rw [dispL]
      rw [dispF_congr mi s s' pre f
        (fun x hx => hA x (by simp [hx]))]
      rw [dispL_congr mi s s' pre t
        (fun x hx => hA x (by simp [hx]))]

end

set_option maxHeartbeats 2000000 in
mutual

theorem kindOkF_congr (s s' : WState) (pre : String) (f : PField)
    (hA : ∀ x ∈ pathNamesF pre f, s'.lookupW x = s.lookupW x) :
    kindOkF s' pre f = kindOkF s pre f := by
  cases f with
  | mk nm ft rep has v =>
      rw [pathNamesF] at hA
      rw [kindOkF]
      rw [kindOkF]
      by_cases hr : rep = true
      · rw [if_pos hr, if_pos hr]
      · rw [if_neg hr, if_neg hr]
        rw [if_neg hr] at hA
        cases ft
        · dsimp only at hA ⊢
          rw [hA (scopedNameOf pre nm) (by simp)]
        · dsimp only at hA ⊢
          rw [hA (scopedNameOf pre nm) (by simp)]
        · dsimp only at hA ⊢
          rw [hA (scopedNameOf pre nm) (by simp)]
        · dsimp only at hA ⊢
          rw [hA (scopedNameOf pre nm) (by simp)]
        · dsimp only at hA ⊢
          rw [hA (scopedNameOf pre nm) (by simp)]
        · dsimp only at hA ⊢
          rw [hA (scopedNameOf pre nm) (by simp)]
        · dsimp only at hA ⊢
          rw [hA (scopedNameOf pre nm) (by simp)]
        · dsimp only at hA ⊢
          rw [hA (scopedNameOf pre nm) (by simp)]
        · -- tMessage
          cases v
          · dsimp only
          · dsimp only
          · dsimp only
          · dsimp only
          · dsimp only
          · next m0 =>
              cases m0 with
              | mk tn0 fs0 =>
                  dsimp only at hA ⊢
                  by_cases hc : compositeNames.contains tn0 = true
                  · rw [if_pos hc, if_pos hc]
                    rw [if_pos hc] at hA
                    rw [hA (scopedNameOf pre nm) (by simp)]
                  · rw [if_neg hc, if_neg hc]
                    rw [if_neg hc] at hA
                    exact kindOkL_congr s s' _ fs0
                      (fun x hxm => hA x (by simp [hxm]))
          · dsimp only
        · dsimp only at hA ⊢
          rw [hA (scopedNameOf pre nm) (by simp)]
        · dsimp only
          cases s'.lookupW (scopedNameOf pre nm) <;>
            cases s.lookupW (scopedNameOf pre nm) <;> rfl

theorem kindOkL_congr (s s' : WState) (pre : String) (fl : PFieldList)
    (hA : ∀ x ∈ pathNamesL pre fl, s'.lookupW x = s.lookupW x) :
    kindOkL s' pre fl = kindOkL s pre fl := by
  cases fl with
  | nil =>
      rw [kindOkL]
      rw [kindOkL]
  | cons f t =>
      rw [pathNamesL] at hA
      rw [kindOkL]
      rw [kindOkL]
      rw [kindOkF_congr s s' pre f (fun x hx => hA x (by simp [hx]))]
      rw [kindOkL_congr s s' pre t (fun x hx => hA x (by simp [hx]))]

end

/-! ## The create-or-update step and what it leaves under the name -/

theorem handleLeaf_lookup (s : WState) (sname : String) (fresh : PWidget)
    (updFn : PWidget → Bool × PWidget) (hn : sname ≠ "") :
    ∃ st' : StoredW,
      (s.handleLeaf sname (s.lookupW sname) fresh updFn).1.lookupW sname =
        some st' ∧
      st'.w = (updFn ((s.lookupW sname).elim fresh
        (fun st0 => st0.w))).2 := by
  cases hl : s.lookupW sname with
  | none =>
      have h := handleLeaf_none_lookup s sname fresh updFn hn hl
      exact ⟨_, h.1, rfl⟩
  | some st =>
      unfold WState.handleLeaf
      dsimp only
      rw [WState.lookupW_setWidgetAt_self, hl]
      exact ⟨_, rfl, rfl⟩

theorem kindW_double (w : PWidget) (h : w.kind = .kDouble) :
    ∃ x, w = .doubleW x := by
  cases w <;> simp [PWidget.kind] at h ⊢

theorem kindW_int (w : PWidget) (h : w.kind = .kInt) :
    ∃ x, w = .intW x := by
  cases w <;> simp [PWidget.kind] at h ⊢

theorem kindW_uint (w : PWidget) (h : w.kind = .kUInt) :
    ∃ x, w = .uintW x := by
  cases w <;> simp [PWidget.kind] at h ⊢

theorem kindW_bool (w : PWidget) (h : w.kind = .kBool) :
    ∃ b, w = .boolW b := by
  cases w <;> simp [PWidget.kind] at h ⊢

theorem kindW_string (w : PWidget) (h : w.kind = .kString) :
    ∃ k v, w = .stringW k v := by
  cases w <;> simp [PWidget.kind] at h ⊢

theorem kindW_vec3 (w : PWidget) (h : w.kind = .kVec3) :
    ∃ x y z p, w = .vec3W x y z p := by
  cases w <;> simp [PWidget.kind] at h ⊢

theorem kindW_color (w : PWidget) (h : w.kind = .kColor) :
    ∃ r g b a, w = .colorW r g b a := by
  cases w <;> simp [PWidget.kind] at h ⊢

theorem kindW_pose (w : PWidget) (h : w.kind = .kPose) :
    ∃ p, w = .poseW p := by
  cases w <;> simp [PWidget.kind] at h ⊢

theorem kindW_geom (w : PWidget) (h : w.kind = .kGeom) :
    ∃ i sx sy sz r l u, w = .geomW i sx sy sz r l u := by
  cases w <;> simp [PWidget.kind] at h ⊢

theorem kindW_density (w : PWidget) (h : w.kind = .kDensity) :
    ∃ d, w = .densityW d := by
  cases w <;> simp [PWidget.kind] at h ⊢

theorem kindW_enum (w : PWidget) (f : PField)
    (h : kindLeafOk w .tEnum f = true) :
    ∃ idx, w = .enumW f.enumNames idx := by
  cases w
  case enumW items idx =>
    simp only [kindLeafOk, beq_iff_eq] at h
    subst h
    exact ⟨idx, rfl⟩
  all_goals simp [kindLeafOk] at h

theorem findTextIdx_isSome_of_mem (l : List String) (v : String)
    (h : l.contains v = true) : (findTextIdx l v).isSome = true := by
  induction l with
  | nil => simp at h
  | cons a t ih =>
      rw [findTextIdx]
      by_cases ha : a = v
      · rw [if_pos ha]
        rfl
      · rw [if_neg ha]
        simp only [List.contains_cons] at h
        have ht : t.contains v = true := by
          rcases Bool.or_eq_true_iff.mp h with h1 | h1
          · exact absurd (beq_iff_eq.mp h1).symm ha
          · exact h1
        cases hf : findTextIdx t v with
        | none =>
            have hsome := ih ht
            rw [hf] at hsome
            simp at hsome
        | some j => rfl

theorem findTextIdx_lt_length (l : List String) (v : String) (i : ℕ)
    (h : findTextIdx l v = some i) : i < l.length := by
  induction l generalizing i with
  | nil => simp [findTextIdx] at h
  | cons a t ih =>
      rw [findTextIdx] at h
      by_cases ha : a = v
      · rw [if_pos ha] at h
        obtain rfl : (0 : ℕ) = i := Option.some_injective _ h
        simp
      · rw [if_neg ha] at h
        cases hf : findTextIdx t v with
        | none => rw [hf] at h; simp at h
        | some j =>
            rw [hf] at h
            simp only [Option.map_some'] at h
            obtain rfl : j + 1 = i := Option.some_injective _ h
            have := ih j hf
            simp only [List.length_cons]
            omega

/-! ## Per-kind effect of the leaf create-or-update step -/

theorem step_ok_double (s : WState) (sname : String) (f : PField)
    (hn : sname ≠ "")
    (hk : (match s.lookupW sname with
           | none => true
           | some st => kindLeafOk st.w .tDouble f) = true) :
    dispLeaf (leafStep s sname (s.lookupW sname) (.doubleW 0)
        (fun w => w.updateDoubleWidget f.getNum) f).2.1 sname .tDouble f = true ∧
    (match (leafStep s sname (s.lookupW sname) (.doubleW 0)
        (fun w => w.updateDoubleWidget f.getNum) f).2.1.lookupW sname with
     | none => true
     | some st => kindLeafOk st.w .tDouble f) = true := by
  unfold leafStep
  cases hl : s.lookupW sname with
  | none =>
      obtain ⟨h1, _⟩ := handleLeaf_none_lookup s sname (.doubleW 0)
        (fun w => w.updateDoubleWidget f.getNum) hn hl
      dsimp only
      constructor
      · unfold dispLeaf WState.doubleWidgetValue WState.intWidgetValue
          WState.uintWidgetValue WState.boolWidgetValue
          WState.stringWidgetValue WState.enumWidgetValue
        rw [h1]
        simp [PWidget.updateDoubleWidget, PWidget.updateIntWidget,
          PWidget.updateUIntWidget, PWidget.boolSetValue,
          PWidget.updateStringWidget, PWidget.doubleWidgetValue,
          PWidget.intWidgetValue, PWidget.uintWidgetValue,
          PWidget.boolValue, PWidget.stringWidgetValue]
      · rw [h1]
        simp [kindLeafOk, PWidget.kind, PWidget.updateDoubleWidget,
          PWidget.updateIntWidget, PWidget.updateUIntWidget,
          PWidget.boolSetValue, PWidget.updateStringWidget]
  | some st0 =>
      rw [hl] at hk
      dsimp only at hk
      obtain ⟨y, hy⟩ := kindW_double st0.w (by
        simpa [kindLeafOk] using hk)
      unfold WState.handleLeaf
      dsimp only
      constructor
      · unfold dispLeaf WState.doubleWidgetValue WState.intWidgetValue
          WState.uintWidgetValue WState.boolWidgetValue
          WState.stringWidgetValue WState.enumWidgetValue
        rw [WState.lookupW_setWidgetAt_self, hl]
        rw [hy]
        simp [PWidget.updateDoubleWidget, PWidget.updateIntWidget,
          PWidget.updateUIntWidget, PWidget.boolSetValue,
          PWidget.updateStringWidget, PWidget.doubleWidgetValue,
          PWidget.intWidgetValue, PWidget.uintWidgetValue,
          PWidget.boolValue, PWidget.stringWidgetValue]
      · rw [WState.lookupW_setWidgetAt_self, hl]
        rw [hy]
        simp [kindLeafOk, PWidget.kind, PWidget.updateDoubleWidget,
          PWidget.updateIntWidget, PWidget.updateUIntWidget,
          PWidget.boolSetValue, PWidget.updateStringWidget]

theorem step_ok_float (s : WState) (sname : String) (f : PField)
    (hn : sname ≠ "")
    (hk : (match s.lookupW sname with
           | none => true
           | some st => kindLeafOk st.w .tFloat f) = true) :
    dispLeaf (leafStep s sname (s.lookupW sname) (.doubleW 0)
        (fun w => w.updateDoubleWidget f.getNum) f).2.1 sname .tFloat f = true ∧
    (match (leafStep s sname (s.lookupW sname) (.doubleW 0)
        (fun w => w.updateDoubleWidget f.getNum) f).2.1.lookupW sname with
     | none => true
     | some st => kindLeafOk st.w .tFloat f) = true := by
  unfold leafStep
  cases hl : s.lookupW sname with
  | none =>
      obtain ⟨h1, _⟩ := handleLeaf_none_lookup s sname (.doubleW 0)
        (fun w => w.updateDoubleWidget f.getNum) hn hl
      dsimp only
      constructor
      · unfold dispLeaf WState.doubleWidgetValue WState.intWidgetValue
          WState.uintWidgetValue WState.boolWidgetValue
          WState.stringWidgetValue WState.enumWidgetValue
        rw [h1]
        simp [PWidget.updateDoubleWidget, PWidget.updateIntWidget,
          PWidget.updateUIntWidget, PWidget.boolSetValue,
          PWidget.updateStringWidget, PWidget.doubleWidgetValue,
          PWidget.intWidgetValue, PWidget.uintWidgetValue,
          PWidget.boolValue, PWidget.stringWidgetValue]
      · rw [h1]
        simp [kindLeafOk, PWidget.kind, PWidget.updateDoubleWidget,
          PWidget.updateIntWidget, PWidget.updateUIntWidget,
          PWidget.boolSetValue, PWidget.updateStringWidget]
  | some st0 =>
      rw [hl] at hk
      dsimp only at hk
      obtain ⟨y, hy⟩ := kindW_double st0.w (by
        simpa [kindLeafOk] using hk)
      unfold WState.handleLeaf
      dsimp only
      constructor
      · unfold dispLeaf WState.doubleWidgetValue WState.intWidgetValue
          WState.uintWidgetValue WState.boolWidgetValue
          WState.stringWidgetValue WState.enumWidgetValue
        rw [WState.lookupW_setWidgetAt_self, hl]
        rw [hy]
        simp [PWidget.updateDoubleWidget, PWidget.updateIntWidget,
          PWidget.updateUIntWidget, PWidget.boolSetValue,
          PWidget.updateStringWidget, PWidget.doubleWidgetValue,
          PWidget.intWidgetValue, PWidget.uintWidgetValue,
          PWidget.boolValue, PWidget.stringWidgetValue]
      · rw [WState.lookupW_setWidgetAt_self, hl]
        rw [hy]
        simp [kindLeafOk, PWidget.kind, PWidget.updateDoubleWidget,
          PWidget.updateIntWidget, PWidget.updateUIntWidget,
          PWidget.boolSetValue, PWidget.updateStringWidget]

theorem step_ok_int64 (s : WState) (sname : String) (f : PField)
    (hn : sname ≠ "")
    (hk : (match s.lookupW sname with
           | none => true
           | some st => kindLeafOk st.w .tInt64 f) = true) :
    dispLeaf (leafStep s sname (s.lookupW sname) (.intW 0)
        (fun w => w.updateIntWidget (wrap32 f.getInt)) f).2.1 sname .tInt64 f = true ∧
    (match (leafStep s sname (s.lookupW sname) (.intW 0)
        (fun w => w.updateIntWidget (wrap32 f.getInt)) f).2.1.lookupW sname with
     | none => true
     | some st => kindLeafOk st.w .tInt64 f) = true := by
  unfold leafStep
  cases hl : s.lookupW sname with
  | none =>
      obtain ⟨h1, _⟩ := handleLeaf_none_lookup s sname (.intW 0)
        (fun w => w.updateIntWidget (wrap32 f.getInt)) hn hl
      dsimp only
      constructor
      · unfold dispLeaf WState.doubleWidgetValue WState.intWidgetValue
          WState.uintWidgetValue WState.boolWidgetValue
          WState.stringWidgetValue WState.enumWidgetValue
        rw [h1]
        simp [PWidget.updateDoubleWidget, PWidget.updateIntWidget,
          PWidget.updateUIntWidget, PWidget.boolSetValue,
          PWidget.updateStringWidget, PWidget.doubleWidgetValue,
          PWidget.intWidgetValue, PWidget.uintWidgetValue,
          PWidget.boolValue, PWidget.stringWidgetValue]
      · rw [h1]
        simp [kindLeafOk, PWidget.kind, PWidget.updateDoubleWidget,
          PWidget.updateIntWidget, PWidget.updateUIntWidget,
          PWidget.boolSetValue, PWidget.updateStringWidget]
  | some st0 =>
      rw [hl] at hk
      dsimp only at hk
      obtain ⟨y, hy⟩ := kindW_int st0.w (by
        simpa [kindLeafOk] using hk)
      unfold WState.handleLeaf
      dsimp only
      constructor
      · unfold dispLeaf WState.doubleWidgetValue WState.intWidgetValue
          WState.uintWidgetValue WState.boolWidgetValue
          WState.stringWidgetValue WState.enumWidgetValue
        rw [WState.lookupW_setWidgetAt_self, hl]
        rw [hy]
        simp [PWidget.updateDoubleWidget, PWidget.updateIntWidget,
          PWidget.updateUIntWidget, PWidget.boolSetValue,
          PWidget.updateStringWidget, PWidget.doubleWidgetValue,
          PWidget.intWidgetValue, PWidget.uintWidgetValue,
          PWidget.boolValue, PWidget.stringWidgetValue]
      · rw [WState.lookupW_setWidgetAt_self, hl]
        rw [hy]
        simp [kindLeafOk, PWidget.kind, PWidget.updateDoubleWidget,
          PWidget.updateIntWidget, PWidget.updateUIntWidget,
          PWidget.boolSetValue, PWidget.updateStringWidget]

theorem step_ok_int32 (s : WState) (sname : String) (f : PField)
    (hn : sname ≠ "")
    (hk : (match s.lookupW sname with
           | none => true
           | some st => kindLeafOk st.w .tInt32 f) = true) :
    dispLeaf (leafStep s sname (s.lookupW sname) (.intW 0)
        (fun w => w.updateIntWidget f.getInt) f).2.1 sname .tInt32 f = true ∧
    (match (leafStep s sname (s.lookupW sname) (.intW 0)
        (fun w => w.updateIntWidget f.getInt) f).2.1.lookupW sname with
     | none => true
     | some st => kindLeafOk st.w .tInt32 f) = true := by
  unfold leafStep
  cases hl : s.lookupW sname with
  | none =>
      obtain ⟨h1, _⟩ := handleLeaf_none_lookup s sname (.intW 0)
        (fun w => w.updateIntWidget f.getInt) hn hl
      dsimp only
      constructor
      · unfold dispLeaf WState.doubleWidgetValue WState.intWidgetValue
          WState.uintWidgetValue WState.boolWidgetValue
          WState.stringWidgetValue WState.enumWidgetValue
        rw [h1]
        simp [PWidget.updateDoubleWidget, PWidget.updateIntWidget,
          PWidget.updateUIntWidget, PWidget.boolSetValue,
          PWidget.updateStringWidget, PWidget.doubleWidgetValue,
          PWidget.intWidgetValue, PWidget.uintWidgetValue,
          PWidget.boolValue, PWidget.stringWidgetValue]
      · rw [h1]
        simp [kindLeafOk, PWidget.kind, PWidget.updateDoubleWidget,
          PWidget.updateIntWidget, PWidget.updateUIntWidget,
          PWidget.boolSetValue, PWidget.updateStringWidget]
  | some st0 =>
      rw [hl] at hk
      dsimp only at hk
      obtain ⟨y, hy⟩ := kindW_int st0.w (by
        simpa [kindLeafOk] using hk)
      unfold WState.handleLeaf
      dsimp only
      constructor
      · unfold dispLeaf WState.doubleWidgetValue WState.intWidgetValue
          WState.uintWidgetValue WState.boolWidgetValue
          WState.stringWidgetValue WState.enumWidgetValue
        rw [WState.lookupW_setWidgetAt_self, hl]
        rw [hy]
        simp [PWidget.updateDoubleWidget, PWidget.updateIntWidget,
          PWidget.updateUIntWidget, PWidget.boolSetValue,
          PWidget.updateStringWidget, PWidget.doubleWidgetValue,
          PWidget.intWidgetValue, PWidget.uintWidgetValue,
          PWidget.boolValue, PWidget.stringWidgetValue]
      · rw [WState.lookupW_setWidgetAt_self, hl]
        rw [hy]
        simp [kindLeafOk, PWidget.kind, PWidget.updateDoubleWidget,
          PWidget.updateIntWidget, PWidget.updateUIntWidget,
          PWidget.boolSetValue, PWidget.updateStringWidget]

theorem step_ok_uint64 (s : WState) (sname : String) (f : PField)
    (hn : sname ≠ "")
    (hk : (match s.lookupW sname with
           | none => true
           | some st => kindLeafOk st.w .tUInt64 f) = true) :
    dispLeaf (leafStep s sname (s.lookupW sname) (.uintW 0)
        (fun w => w.updateUIntWidget (toUnsigned32 f.getInt).toNat) f).2.1 sname .tUInt64 f = true ∧
    (match (leafStep s sname (s.lookupW sname) (.uintW 0)
        (fun w => w.updateUIntWidget (toUnsigned32 f.getInt).toNat) f).2.1.lookupW sname with
     | none => true
     | some st => kindLeafOk st.w .tUInt64 f) = true := by
  unfold leafStep
  cases hl : s.lookupW sname with
  | none =>
      obtain ⟨h1, _⟩ := handleLeaf_none_lookup s sname (.uintW 0)
        (fun w => w.updateUIntWidget (toUnsigned32 f.getInt).toNat) hn hl
      dsimp only
      constructor
      · unfold dispLeaf WState.doubleWidgetValue WState.intWidgetValue
          WState.uintWidgetValue WState.boolWidgetValue
          WState.stringWidgetValue WState.enumWidgetValue
        rw [h1]
        simp [PWidget.updateDoubleWidget, PWidget.updateIntWidget,
          PWidget.updateUIntWidget, PWidget.boolSetValue,
          PWidget.updateStringWidget, PWidget.doubleWidgetValue,
          PWidget.intWidgetValue, PWidget.uintWidgetValue,
          PWidget.boolValue, PWidget.stringWidgetValue]
      · rw [h1]
        simp [kindLeafOk, PWidget.kind, PWidget.updateDoubleWidget,
          PWidget.updateIntWidget, PWidget.updateUIntWidget,
          PWidget.boolSetValue, PWidget.updateStringWidget]
  | some st0 =>
      rw [hl] at hk
      dsimp only at hk
      obtain ⟨y, hy⟩ := kindW_uint st0.w (by
        simpa [kindLeafOk] using hk)
      unfold WState.handleLeaf
      dsimp only
      constructor
      · unfold dispLeaf WState.doubleWidgetValue WState.intWidgetValue
          WState.uintWidgetValue WState.boolWidgetValue
          WState.stringWidgetValue WState.enumWidgetValue
        rw [WState.lookupW_setWidgetAt_self, hl]
        rw [hy]
        simp [PWidget.updateDoubleWidget, PWidget.updateIntWidget,
          PWidget.updateUIntWidget, PWidget.boolSetValue,
          PWidget.updateStringWidget, PWidget.doubleWidgetValue,
          PWidget.intWidgetValue, PWidget.uintWidgetValue,
          PWidget.boolValue, PWidget.stringWidgetValue]
      · rw [WState.lookupW_setWidgetAt_self, hl]
        rw [hy]
        simp [kindLeafOk, PWidget.kind, PWidget.updateDoubleWidget,
          PWidget.updateIntWidget, PWidget.updateUIntWidget,
          PWidget.boolSetValue, PWidget.updateStringWidget]

theorem step_ok_uint32 (s : WState) (sname : String) (f : PField)
    (hn : sname ≠ "")
    (hk : (match s.lookupW sname with
           | none => true
           | some st => kindLeafOk st.w .tUInt32 f) = true) :
    dispLeaf (leafStep s sname (s.lookupW sname) (.uintW 0)
        (fun w => w.updateUIntWidget (toUnsigned32 f.getInt).toNat) f).2.1 sname .tUInt32 f = true ∧
    (match (leafStep s sname (s.lookupW sname) (.uintW 0)
        (fun w => w.updateUIntWidget (toUnsigned32 f.getInt).toNat) f).2.1.lookupW sname with
     | none => true
     | some st => kindLeafOk st.w .tUInt32 f) = true := by
  unfold leafStep
  cases hl : s.lookupW sname with
  | none =>
      obtain ⟨h1, _⟩ := handleLeaf_none_lookup s sname (.uintW 0)
        (fun w => w.updateUIntWidget (toUnsigned32 f.getInt).toNat) hn hl
      dsimp only
      constructor
      · unfold dispLeaf WState.doubleWidgetValue WState.intWidgetValue
          WState.uintWidgetValue WState.boolWidgetValue
          WState.stringWidgetValue WState.enumWidgetValue
        rw [h1]
        simp [PWidget.updateDoubleWidget, PWidget.updateIntWidget,
          PWidget.updateUIntWidget, PWidget.boolSetValue,
          PWidget.updateStringWidget, PWidget.doubleWidgetValue,
          PWidget.intWidgetValue, PWidget.uintWidgetValue,
          PWidget.boolValue, PWidget.stringWidgetValue]
      · rw [h1]
        simp [kindLeafOk, PWidget.kind, PWidget.updateDoubleWidget,
          PWidget.updateIntWidget, PWidget.updateUIntWidget,
          PWidget.boolSetValue, PWidget.updateStringWidget]
  | some st0 =>
      rw [hl] at hk
      dsimp only at hk
      obtain ⟨y, hy⟩ := kindW_uint st0.w (by
        simpa [kindLeafOk] using hk)
      unfold WState.handleLeaf
      dsimp only
      constructor
      · unfold dispLeaf WState.doubleWidgetValue WState.intWidgetValue
          WState.uintWidgetValue WState.boolWidgetValue
          WState.stringWidgetValue WState.enumWidgetValue
        rw [WState.lookupW_setWidgetAt_self, hl]
        rw [hy]
        simp [PWidget.updateDoubleWidget, PWidget.updateIntWidget,
          PWidget.updateUIntWidget, PWidget.boolSetValue,
          PWidget.updateStringWidget, PWidget.doubleWidgetValue,
          PWidget.intWidgetValue, PWidget.uintWidgetValue,
          PWidget.boolValue, PWidget.stringWidgetValue]
      · rw [WState.lookupW_setWidgetAt_self, hl]
        rw [hy]
        simp [kindLeafOk, PWidget.kind, PWidget.updateDoubleWidget,
          PWidget.updateIntWidget, PWidget.updateUIntWidget,
          PWidget.boolSetValue, PWidget.updateStringWidget]

theorem step_ok_bool (s : WState) (sname : String) (f : PField)
    (hn : sname ≠ "")
    (hk : (match s.lookupW sname with
           | none => true
           | some st => kindLeafOk st.w .tBool f) = true) :
    dispLeaf (leafStep s sname (s.lookupW sname) (.boolW false)
        (fun w => w.boolSetValue f.getBool) f).2.1 sname .tBool f = true ∧
    (match (leafStep s sname (s.lookupW sname) (.boolW false)
        (fun w => w.boolSetValue f.getBool) f).2.1.lookupW sname with
     | none => true
     | some st => kindLeafOk st.w .tBool f) = true := by
  unfold leafStep
  cases hl : s.lookupW sname with
  | none =>
      obtain ⟨h1, _⟩ := handleLeaf_none_lookup s sname (.boolW false)
        (fun w => w.boolSetValue f.getBool) hn hl
      dsimp only
      constructor
      · unfold dispLeaf WState.doubleWidgetValue WState.intWidgetValue
          WState.uintWidgetValue WState.boolWidgetValue
          WState.stringWidgetValue WState.enumWidgetValue
        rw [h1]
        simp [PWidget.updateDoubleWidget, PWidget.updateIntWidget,
          PWidget.updateUIntWidget, PWidget.boolSetValue,
          PWidget.updateStringWidget, PWidget.doubleWidgetValue,
          PWidget.intWidgetValue, PWidget.uintWidgetValue,
          PWidget.boolValue, PWidget.stringWidgetValue]
      · rw [h1]
        simp [kindLeafOk, PWidget.kind, PWidget.updateDoubleWidget,
          PWidget.updateIntWidget, PWidget.updateUIntWidget,
          PWidget.boolSetValue, PWidget.updateStringWidget]
  | some st0 =>
      rw [hl] at hk
      dsimp only at hk
      obtain ⟨y, hy⟩ := kindW_bool st0.w (by
        simpa [kindLeafOk] using hk)
      unfold WState.handleLeaf
      dsimp only
      constructor
      · unfold dispLeaf WState.doubleWidgetValue WState.intWidgetValue
          WState.uintWidgetValue WState.boolWidgetValue
          WState.stringWidgetValue WState.enumWidgetValue
        rw [WState.lookupW_setWidgetAt_self, hl]
        rw [hy]
        simp [PWidget.updateDoubleWidget, PWidget.updateIntWidget,
          PWidget.updateUIntWidget, PWidget.boolSetValue,
          PWidget.updateStringWidget, PWidget.doubleWidgetValue,
          PWidget.intWidgetValue, PWidget.uintWidgetValue,
          PWidget.boolValue, PWidget.stringWidgetValue]
      · rw [WState.lookupW_setWidgetAt_self, hl]
        rw [hy]
        simp [kindLeafOk, PWidget.kind, PWidget.updateDoubleWidget,
          PWidget.updateIntWidget, PWidget.updateUIntWidget,
          PWidget.boolSetValue, PWidget.updateStringWidget]


theorem step_ok_string (s : WState) (sname : String) (f : PField)
    (km : Bool) (hn : sname ≠ "")
    (hk : (match s.lookupW sname with
           | none => true
           | some st => kindLeafOk st.w .tString f) = true) :
    dispLeaf (leafStep s sname (s.lookupW sname) (.stringW km "")
        (fun w => w.updateStringWidget f.getStr) f).2.1 sname .tString f
      = true ∧
    (match (leafStep s sname (s.lookupW sname) (.stringW km "")
        (fun w => w.updateStringWidget f.getStr) f).2.1.lookupW sname with
     | none => true
     | some st => kindLeafOk st.w .tString f) = true := by
  unfold leafStep
  cases hl : s.lookupW sname with
  | none =>
      obtain ⟨h1, _⟩ := handleLeaf_none_lookup s sname (.stringW km "")
        (fun w => w.updateStringWidget f.getStr) hn hl
      dsimp only
      constructor
      · unfold dispLeaf WState.stringWidgetValue
        rw [h1]
        simp [PWidget.updateStringWidget, PWidget.stringWidgetValue]
      · rw [h1]
        simp [kindLeafOk, PWidget.kind, PWidget.updateStringWidget]
  | some st0 =>
      rw [hl] at hk
      dsimp only at hk
      obtain ⟨k0, v0, hy⟩ := kindW_string st0.w (by
        simpa [kindLeafOk] using hk)
      unfold WState.handleLeaf
      dsimp only
      constructor
      · unfold dispLeaf WState.stringWidgetValue
        rw [WState.lookupW_setWidgetAt_self, hl]
        rw [hy]
        simp [PWidget.updateStringWidget, PWidget.stringWidgetValue]
      · rw [WState.lookupW_setWidgetAt_self, hl]
        rw [hy]
        simp [kindLeafOk, PWidget.kind, PWidget.updateStringWidget]

theorem step_ok_enum (s : WState) (sname : String) (f : PField)
    (hn : sname ≠ "")
    (hk : (match s.lookupW sname with
           | none => true
           | some st => kindLeafOk st.w .tEnum f) = true) :
    dispLeaf (leafStep s sname (s.lookupW sname) (.enumW f.enumNames 0)
        (fun w => w.updateEnumWidget f.getEnum) f).2.1 sname .tEnum f
      = true ∧
    (match (leafStep s sname (s.lookupW sname) (.enumW f.enumNames 0)
        (fun w => w.updateEnumWidget f.getEnum) f).2.1.lookupW sname with
     | none => true
     | some st => kindLeafOk st.w .tEnum f) = true := by
  unfold leafStep
  cases hl : s.lookupW sname with
  | none =>
      obtain ⟨h1, _⟩ := handleLeaf_none_lookup s sname
        (.enumW f.enumNames 0)
        (fun w => w.updateEnumWidget f.getEnum) hn hl
      dsimp only
      constructor
      · unfold dispLeaf WState.enumWidgetValue
        dsimp only
        by_cases hc : f.enumNames.contains f.getEnum = true
        · rw [if_pos hc]
          rw [h1]
          obtain ⟨i, hfi⟩ := Option.isSome_iff_exists.mp
            (findTextIdx_isSome_of_mem _ _ hc)
          simp only [PWidget.updateEnumWidget, hfi]
          simp [PWidget.enumWidgetValue]
          have hgd := findTextIdx_getD _ _ _ hfi
          rw [List.getD_eq_getElem?_getD] at hgd
          exact hgd
        · rw [if_neg hc]
      · rw [h1]
        cases hfi : findTextIdx f.enumNames f.getEnum <;>
          simp [PWidget.updateEnumWidget, hfi, kindLeafOk]
  | some st0 =>
      rw [hl] at hk
      dsimp only at hk
      obtain ⟨idx0, hy⟩ := kindW_enum st0.w f hk
      unfold WState.handleLeaf
      dsimp only
      constructor
      · unfold dispLeaf WState.enumWidgetValue
        dsimp only
        by_cases hc : f.enumNames.contains f.getEnum = true
        · rw [if_pos hc]
          rw [WState.lookupW_setWidgetAt_self, hl]
          rw [hy]
          obtain ⟨i, hfi⟩ := Option.isSome_iff_exists.mp
            (findTextIdx_isSome_of_mem _ _ hc)
          simp only [PWidget.updateEnumWidget, hfi]
          simp [PWidget.enumWidgetValue]
          have hgd := findTextIdx_getD _ _ _ hfi
          rw [List.getD_eq_getElem?_getD] at hgd
          exact hgd
        · rw [if_neg hc]
      · rw [WState.lookupW_setWidgetAt_self, hl]
        rw [hy]
        cases hfi : findTextIdx f.enumNames f.getEnum <;>
          simp [PWidget.updateEnumWidget, hfi, kindLeafOk]

theorem geomUpdate_value (idx0 : ℕ) (sx0 sy0 sz0 r0 l0 : ℚ) (u0 : String)
    (v : String) (dims : Vec3) (i : ℕ)
    (hfi : findTextIdx geomItems v = some i) :
    PWidget.geometryWidgetValue
      ((PWidget.geomW idx0 sx0 sy0 sz0 r0 l0 u0).updateGeometryWidget v
        dims "").2 ⟨0, 0, 0⟩ "" = (v, geomExpectedDims v dims, "") := by
  have hlt := findTextIdx_lt_length _ _ _ hfi
  have hv := findTextIdx_getD _ _ _ hfi
  simp only [geomItems, List.length_cons, List.length_nil] at hlt
  unfold PWidget.updateGeometryWidget
  dsimp only
  rw [hfi]
  dsimp only
  interval_cases i <;>
    simp only [geomItems, List.getD, List.getElem?_cons_zero,
      List.getElem?_cons_succ, Option.getD_some] at hv <;>
    subst hv <;>
    simp [PWidget.geometryWidgetValue, geomExpectedDims, geomItems,
      List.getD]

/-! ## Per-kind effect of the composite create-or-update steps -/

theorem step_ok_vec3C (s : WState) (sname : String) (nm : String)
    (ft : FType) (rep : Bool) (m0 : PMsg) (hn : sname ≠ "")
    (hk : (match s.lookupW sname with
           | none => true
           | some st => st.w.kind == WKind.kVec3) = true) :
    vecDisp (vec3FieldStep s sname (s.lookupW sname) nm ft rep m0).2.1
      sname m0 = true ∧
    (match (vec3FieldStep s sname (s.lookupW sname) nm ft rep
        m0).2.1.lookupW sname with
     | none => true
     | some st => st.w.kind == WKind.kVec3) = true := by
  unfold vec3FieldStep
  cases hl : s.lookupW sname with
  | none =>
      obtain ⟨h1, _⟩ := handleLeaf_none_lookup s sname (.vec3W 0 0 0 0)
        (fun w => w.updateVector3dWidget (parseVector3d m0)) hn hl
      dsimp only
      constructor
      · unfold vecDisp WState.vector3dWidgetValue
        rw [h1]
        simp [PWidget.updateVector3dWidget, PWidget.vector3dWidgetValue]
      · rw [h1]
        simp [PWidget.updateVector3dWidget, PWidget.kind]
  | some st0 =>
      rw [hl] at hk
      dsimp only at hk
      obtain ⟨x0, y0, z0, p0, hy⟩ := kindW_vec3 st0.w (by simpa using hk)
      unfold WState.handleLeaf
      dsimp only
      constructor
      · unfold vecDisp WState.vector3dWidgetValue
        rw [WState.lookupW_setWidgetAt_self, hl]
        rw [hy]
        simp [PWidget.updateVector3dWidget, PWidget.vector3dWidgetValue]
      · rw [WState.lookupW_setWidgetAt_self, hl]
        rw [hy]
        simp [PWidget.updateVector3dWidget, PWidget.kind]

theorem step_ok_colorC (s : WState) (sname : String) (nm : String)
    (ft : FType) (rep : Bool) (m0 : PMsg) (hn : sname ≠ "")
    (hk : (match s.lookupW sname with
           | none => true
           | some st => st.w.kind == WKind.kColor) = true) :
    colorDisp (colorFieldStep s sname (s.lookupW sname) nm ft rep
      m0).2.1 sname m0 = true ∧
    (match (colorFieldStep s sname (s.lookupW sname) nm ft rep
        m0).2.1.lookupW sname with
     | none => true
     | some st => st.w.kind == WKind.kColor) = true := by
  unfold colorFieldStep
  cases hl : s.lookupW sname with
  | none =>
      dsimp only
      simp only [Option.map_none', Option.getD_none]
      obtain ⟨h1, _⟩ := handleLeaf_none_lookup s sname (.colorW 0 0 0 0)
        (fun w => w.updateColorWidget (colorFrom m0 4)) hn hl
      constructor
      · unfold colorDisp WState.colorWidgetValue
        rw [h1]
        simp [PWidget.updateColorWidget, PWidget.colorWidgetValue]
      · rw [h1]
        simp [PWidget.updateColorWidget, PWidget.kind]
  | some st0 =>
      rw [hl] at hk
      dsimp only at hk
      obtain ⟨r0, g0, b0, a0, hy⟩ := kindW_color st0.w (by simpa using hk)
      dsimp only
      simp only [Option.map_some', Option.getD_some, hy,
        PWidget.widgetsSize]
      unfold WState.handleLeaf
      dsimp only
      constructor
      · unfold colorDisp WState.colorWidgetValue
        rw [WState.lookupW_setWidgetAt_self, hl]
        simp [hy, PWidget.updateColorWidget, PWidget.colorWidgetValue]
      · rw [WState.lookupW_setWidgetAt_self, hl]
        simp [hy, PWidget.updateColorWidget, PWidget.kind]

theorem step_ok_poseC (mi : MathImpl) (s : WState) (sname : String)
    (nm : String) (ft : FType) (rep : Bool) (m0 : PMsg) (hn : sname ≠ "")
    (hk : (match s.lookupW sname with
           | none => true
           | some st => st.w.kind == WKind.kPose) = true) :
    poseDisp mi (poseFieldStep mi s sname (s.lookupW sname) nm ft rep
      m0).2.1 sname m0 = true ∧
    (match (poseFieldStep mi s sname (s.lookupW sname) nm ft rep
        m0).2.1.lookupW sname with
     | none => true
     | some st => st.w.kind == WKind.kPose) = true := by
  unfold poseFieldStep
  rcases hpl : poseLoop m0.fields ⟨0, 0, 0⟩ ⟨0, 0, 0, 1⟩ with
    ⟨fs2, pos, quat⟩
  have hread := poseLoop_read m0.fields ⟨0, 0, 0⟩ ⟨0, 0, 0, 1⟩
  rw [hpl] at hread
  dsimp only at hread
  cases hl : s.lookupW sname with
  | none =>
      dsimp only
      obtain ⟨h1, _⟩ := handleLeaf_none_lookup s sname
        (.poseW ⟨0, 0, 0, 0, 0, 0⟩)
        (fun w => w.updatePoseWidget ⟨pos.x, pos.y, pos.z,
          (mi.quatToEuler quat).1, (mi.quatToEuler quat).2.1,
          (mi.quatToEuler quat).2.2⟩) hn hl
      constructor
      · unfold poseDisp WState.poseWidgetValue
        rw [h1]
        simp [PWidget.updatePoseWidget, PWidget.poseWidgetValue,
          poseDispVals, ← hread]
      · rw [h1]
        simp [PWidget.updatePoseWidget, PWidget.kind]
  | some st0 =>
      rw [hl] at hk
      dsimp only at hk
      obtain ⟨p0, hy⟩ := kindW_pose st0.w (by simpa using hk)
      dsimp only
      unfold WState.handleLeaf
      dsimp only
      constructor
      · unfold poseDisp WState.poseWidgetValue
        rw [WState.lookupW_setWidgetAt_self, hl]
        rw [hy]
        simp [PWidget.updatePoseWidget, PWidget.poseWidgetValue,
          poseDispVals, ← hread]
      · rw [WState.lookupW_setWidgetAt_self, hl]
        rw [hy]
        simp [PWidget.updatePoseWidget, PWidget.kind]

theorem step_ok_densC (s : WState) (sname : String) (nm : String)
    (ft : FType) (rep : Bool) (m0 : PMsg) (hn : sname ≠ "")
    (hk : (match s.lookupW sname with
           | none => true
           | some st => st.w.kind == WKind.kDensity) = true) :
    densDisp (densityFieldStep s sname (s.lookupW sname) nm ft rep
      m0).2.1 sname m0 = true ∧
    (match (densityFieldStep s sname (s.lookupW sname) nm ft rep
        m0).2.1.lookupW sname with
     | none => true
     | some st => st.w.kind == WKind.kDensity) = true := by
  unfold densityFieldStep
  cases hl : s.lookupW sname with
  | none =>
      dsimp only
      obtain ⟨h1, _⟩ := handleLeaf_none_lookup s sname (.densityW 0)
        (fun w => w.updateDensityWidget (densityScan m0.fields 1)) hn hl
      constructor
      · unfold densDisp WState.densityWidgetValue
        rw [h1]
        simp [PWidget.updateDensityWidget, PWidget.densityValue]
      · rw [h1]
        simp [PWidget.updateDensityWidget, PWidget.kind]
  | some st0 =>
      rw [hl] at hk
      dsimp only at hk
      obtain ⟨d0, hy⟩ := kindW_density st0.w (by simpa using hk)
      unfold WState.handleLeaf
      dsimp only
      constructor
      · unfold densDisp WState.densityWidgetValue
        rw [WState.lookupW_setWidgetAt_self, hl]
        rw [hy]
        simp [PWidget.updateDensityWidget, PWidget.densityValue]
      · rw [WState.lookupW_setWidgetAt_self, hl]
        rw [hy]
        simp [PWidget.updateDensityWidget, PWidget.kind]

theorem step_ok_geomC (s : WState) (sname : String) (nm : String)
    (ft : FType) (rep : Bool) (m0 : PMsg) (hn : sname ≠ "")
    (hk : (match s.lookupW sname with
           | none => true
           | some st => st.w.kind == WKind.kGeom) = true) :
    geomDisp (geomFieldStep s sname (s.lookupW sname) nm ft rep m0).2.1
      sname m0 = true ∧
    (match (geomFieldStep s sname (s.lookupW sname) nm ft rep
        m0).2.1.lookupW sname with
     | none => true
     | some st => st.w.kind == WKind.kGeom) = true := by
  unfold geomFieldStep
  have hdims := geomDimsLoop_read m0.fields
  cases hft : m0.fields.findByName "type" with
  | none =>
      dsimp only
      cases hl : s.lookupW sname with
      | none =>
          obtain ⟨h1, _⟩ := handleLeaf_none_lookup s sname freshGeomW
            (fun w => (true, w)) hn hl
          constructor
          · unfold geomDisp geomTypeStr
            rw [hft]
          · rw [h1]
            simp [freshGeomW, PWidget.kind]
      | some st0 =>
          rw [hl] at hk
          dsimp only at hk
          obtain ⟨i0, a0, b0, c0, r0, l0, u0, hy⟩ :=
            kindW_geom st0.w (by simpa using hk)
          unfold WState.handleLeaf
          dsimp only
          constructor
          · unfold geomDisp geomTypeStr
            rw [hft]
          · rw [WState.lookupW_setWidgetAt_self, hl]
            rw [hy]
            simp [PWidget.kind]
  | some tf =>
      dsimp only
      by_cases htf : tf.hasF = true
      · rw [if_pos htf]
        by_cases hfi : (findTextIdx geomItems tf.getEnum.toLower).isSome
            = true
        · obtain ⟨i, hfi2⟩ := Option.isSome_iff_exists.mp hfi
          cases hl : s.lookupW sname with
          | none =>
              obtain ⟨h1, _⟩ := handleLeaf_none_lookup s sname freshGeomW
                (fun w => w.updateGeometryWidget tf.getEnum.toLower
                  ((geomDimsLoop m0.fields).2.getD ⟨0, 0, 0⟩) "") hn hl
              constructor
              · unfold geomDisp geomTypeStr WState.geometryWidgetValue
                rw [hft]
                dsimp only
                rw [if_pos htf]
                rw [hfi2]
                dsimp only
                rw [h1]
                dsimp only
                rw [show freshGeomW = PWidget.geomW 0 1 1 1 (1/2) 1 ""
                  from rfl]
                apply decide_eq_true
                rw [geomUpdate_value 0 1 1 1 (1/2) 1 "" _ _ i hfi2]
                rw [hdims]
              · rw [h1]
                rw [show freshGeomW = PWidget.geomW 0 1 1 1 (1/2) 1 ""
                  from rfl]
                simp [kind_updateGeometryWidget]
          | some st0 =>
              rw [hl] at hk
              dsimp only at hk
              obtain ⟨i0, a0, b0, c0, r0, l0, u0, hy⟩ :=
                kindW_geom st0.w (by simpa using hk)
              unfold WState.handleLeaf
              dsimp only
              constructor
              · unfold geomDisp geomTypeStr WState.geometryWidgetValue
                rw [hft]
                dsimp only
                rw [if_pos htf]
                rw [hfi2]
                dsimp only
                rw [WState.lookupW_setWidgetAt_self, hl]
                simp only [Option.map_some']
                rw [hy]
                apply decide_eq_true
                rw [geomUpdate_value i0 a0 b0 c0 r0 l0 u0 _ _ i hfi2]
                rw [hdims]
              · rw [WState.lookupW_setWidgetAt_self, hl]
                rw [hy]
                simp [kind_updateGeometryWidget]
        · have hfin : findTextIdx geomItems tf.getEnum.toLower = none := by
            cases hx : findTextIdx geomItems tf.getEnum.toLower
            · rfl
            · rw [hx] at hfi
              simp at hfi
          cases hl : s.lookupW sname with
          | none =>
              obtain ⟨h1, _⟩ := handleLeaf_none_lookup s sname freshGeomW
                (fun w => w.updateGeometryWidget tf.getEnum.toLower
                  ((geomDimsLoop m0.fields).2.getD ⟨0, 0, 0⟩) "") hn hl
              constructor
              · unfold geomDisp geomTypeStr
                rw [hft]
                dsimp only
                rw [if_pos htf]
                rw [hfin]
              · rw [h1]
                rw [show freshGeomW = PWidget.geomW 0 1 1 1 (1/2) 1 ""
                  from rfl]
                simp [kind_updateGeometryWidget]
          | some st0 =>
              rw [hl] at hk
              dsimp only at hk
              obtain ⟨i0, a0, b0, c0, r0, l0, u0, hy⟩ :=
                kindW_geom st0.w (by simpa using hk)
              unfold WState.handleLeaf
              dsimp only
              constructor
              · unfold geomDisp geomTypeStr
                rw [hft]
                dsimp only
                rw [if_pos htf]
                rw [hfin]
              · rw [WState.lookupW_setWidgetAt_self, hl]
                rw [hy]
                simp [kind_updateGeometryWidget]
      · rw [if_neg htf]
        cases hl : s.lookupW sname with
        | none =>
            obtain ⟨h1, _⟩ := handleLeaf_none_lookup s sname freshGeomW
              (fun w => (true, w)) hn hl
            constructor
            · unfold geomDisp geomTypeStr
              rw [hft]
              dsimp only
              rw [if_neg htf]
            · rw [h1]
              simp [freshGeomW, PWidget.kind]
        | some st0 =>
            rw [hl] at hk
            dsimp only at hk
            obtain ⟨i0, a0, b0, c0, r0, l0, u0, hy⟩ :=
              kindW_geom st0.w (by simpa using hk)
            unfold WState.handleLeaf
            dsimp only
            constructor
            · unfold geomDisp geomTypeStr
              rw [hft]
              dsimp only
              rw [if_neg htf]
            · rw [WState.lookupW_setWidgetAt_self, hl]
              rw [hy]
              simp [PWidget.kind]

theorem genericWrapStep_frame (s1 : WState) (sname : String)
    (ex : Option StoredW) (nm : String) (ft : FType) (rep : Bool)
    (m1 : PMsg) (created : Bool) (n : String) (hne : n ≠ sname) :
    (genericWrapStep s1 sname ex nm ft rep m1 created).2.1.lookupW n =
      s1.lookupW n := by
  unfold genericWrapStep
  by_cases hcr : created = true
  · rw [if_pos hcr]
    cases ex with
    | none =>
        dsimp only
        rw [lookupW_addPropertyWidget_other _ sname n _ hne]
        rfl
    | some st => rfl
  · rw [if_neg hcr]

set_option maxHeartbeats 2000000 in
mutual

theorem parseField_dispkind (mi : MathImpl) (upd : Bool) (pre : String)
    (lvl : ℕ) (s : WState) (f : PField) (hne : f.neNamesF = true)
    (hnd : (pathNamesF pre f).Nodup) (hk : kindOkF s pre f = true) :
    dispF mi (parseField mi upd pre lvl s f).2.1 pre f = true ∧
    kindOkF (parseField mi upd pre lvl s f).2.1 pre f = true := by
  cases f with
  | mk nm ft rep has v =>
      rw [PField.neNamesF.eq_def] at hne
      dsimp only at hne
      rw [Bool.and_eq_true] at hne
      obtain ⟨hnm0, hmatch⟩ := hne
      have hnm : nm ≠ "" := of_decide_eq_true hnm0
      have hsn := scopedNameOf_ne_empty pre nm hnm
      rw [pathNamesF] at hnd
      rw [kindOkF] at hk
      rw [parseField]
      by_cases hr : rep = true
      · rw [if_pos hr]
        constructor
        · rw [dispF]
          rw [if_pos hr]
        · rw [kindOkF]
          rw [if_pos hr]
      · rw [if_neg hr]
        rw [if_neg hr] at hnd hk
        by_cases h2 : upd = true ∧ ¬has = true
        · rw [if_pos h2]
          constructor
          · rw [dispF]
            rw [if_neg hr]
            rw [if_pos h2.2]
          · rw [kindOkF]
            rw [if_neg hr]
            exact hk
        · rw [if_neg h2]
          cases ft
          · -- tDouble
            dsimp only at hk
            obtain ⟨hd, hkk⟩ := step_ok_double s (scopedNameOf pre nm)
              (.mk nm .tDouble rep has v) hsn hk
            constructor
            · rw [dispF]
              rw [if_neg hr]
              by_cases hh : has = true
              · rw [if_neg (not_not_intro hh)]
                dsimp only
                exact hd
              · rw [if_pos hh]
            · rw [kindOkF]
              rw [if_neg hr]
              dsimp only
              exact hkk
          · -- tFloat
            dsimp only at hk
            obtain ⟨hd, hkk⟩ := step_ok_float s (scopedNameOf pre nm)
              (.mk nm .tFloat rep has v) hsn hk
            constructor
            · rw [dispF]
              rw [if_neg hr]
              by_cases hh : has = true
              · rw [if_neg (not_not_intro hh)]
                dsimp only
                exact hd
              · rw [if_pos hh]
            · rw [kindOkF]
              rw [if_neg hr]
              dsimp only
              exact hkk
          · -- tInt64
            dsimp only at hk
            obtain ⟨hd, hkk⟩ := step_ok_int64 s (scopedNameOf pre nm)
              (.mk nm .tInt64 rep has v) hsn hk
            constructor
            · rw [dispF]
              rw [if_neg hr]
              by_cases hh : has = true
              · rw [if_neg (not_not_intro hh)]
                dsimp only
                exact hd
              · rw [if_pos hh]
            · rw [kindOkF]
              rw [if_neg hr]
              dsimp only
              exact hkk
          · -- tUInt64
            dsimp only at hk
            obtain ⟨hd, hkk⟩ := step_ok_uint64 s (scopedNameOf pre nm)
              (.mk nm .tUInt64 rep has v) hsn hk
            constructor
            · rw [dispF]
              rw [if_neg hr]
              by_cases hh : has = true
              · rw [if_neg (not_not_intro hh)]
                dsimp only
                exact hd
              · rw [if_pos hh]
            · rw [kindOkF]
              rw [if_neg hr]
              dsimp only
              exact hkk
          · -- tInt32
            dsimp only at hk
            obtain ⟨hd, hkk⟩ := step_ok_int32 s (scopedNameOf pre nm)
              (.mk nm .tInt32 rep has v) hsn hk
            constructor
            · rw [dispF]
              rw [if_neg hr]
              by_cases hh : has = true
              · rw [if_neg (not_not_intro hh)]
                dsimp only
                exact hd
              · rw [if_pos hh]
            · rw [kindOkF]
              rw [if_neg hr]
              dsimp only
              exact hkk
          · -- tUInt32
            dsimp only at hk
            obtain ⟨hd, hkk⟩ := step_ok_uint32 s (scopedNameOf pre nm)
              (.mk nm .tUInt32 rep has v) hsn hk
            constructor
            · rw [dispF]
              rw [if_neg hr]
              by_cases hh : has = true
              · rw [if_neg (not_not_intro hh)]
                dsimp only
                exact hd
              · rw [if_pos hh]
            · rw [kindOkF]
              rw [if_neg hr]
              dsimp only
              exact hkk
          · -- tBool
            dsimp only at hk
            obtain ⟨hd, hkk⟩ := step_ok_bool s (scopedNameOf pre nm)
              (.mk nm .tBool rep has v) hsn hk
            constructor
            · rw [dispF]
              rw [if_neg hr]
              by_cases hh : has = true
              · rw [if_neg (not_not_intro hh)]
                dsimp only
                exact hd
              · rw [if_pos hh]
            · rw [kindOkF]
              rw [if_neg hr]
              dsimp only
              exact hkk
          · -- tString
            dsimp only at hk
            obtain ⟨hd, hkk⟩ := step_ok_string s (scopedNameOf pre nm)
              (.mk nm .tString rep has v) (decide (nm = "innerxml")) hsn hk
            constructor
            · rw [dispF]
              rw [if_neg hr]
              by_cases hh : has = true
              · rw [if_neg (not_not_intro hh)]
                dsimp only
                exact hd
              · rw [if_pos hh]
            · rw [kindOkF]
              rw [if_neg hr]
              dsimp only
              exact hkk
          · -- tMessage
            cases v
            · constructor
              · rw [dispF]
                rw [if_neg hr]
                by_cases hh : has = true
                · rw [if_neg (not_not_intro hh)]
                · rw [if_pos hh]
              · rw [kindOkF]
                rw [if_neg hr]
            · constructor
              · rw [dispF]
                rw [if_neg hr]
                by_cases hh : has = true
                · rw [if_neg (not_not_intro hh)]
                · rw [if_pos hh]
              · rw [kindOkF]
                rw [if_neg hr]
            · constructor
              · rw [dispF]
                rw [if_neg hr]
                by_cases hh : has = true
                · rw [if_neg (not_not_intro hh)]
                · rw [if_pos hh]
              · rw [kindOkF]
                rw [if_neg hr]
            · constructor
              · rw [dispF]
                rw [if_neg hr]
                by_cases hh : has = true
                · rw [if_neg (not_not_intro hh)]
                · rw [if_pos hh]
              · rw [kindOkF]
                rw [if_neg hr]
            · constructor
              · rw [dispF]
                rw [if_neg hr]
                by_cases hh : has = true
                · rw [if_neg (not_not_intro hh)]
                · rw [if_pos hh]
              · rw [kindOkF]
                rw [if_neg hr]
            · next m0 =>
                cases m0 with
                | mk tn0 fs0 =>
                    dsimp only [PMsg.typeName] at hmatch hnd hk ⊢
                    by_cases hG : tn0 = "Geometry"
                    · subst hG
                      rw [if_pos rfl]
                      rw [if_pos (by decide)] at hk
                      have hck : compositeKindOf "Geometry" = WKind.kGeom :=
                        rfl
                      simp only [hck] at hk
                      obtain ⟨hd, hkk⟩ := step_ok_geomC s
                        (scopedNameOf pre nm) nm .tMessage rep
                        (.mk "Geometry" fs0) hsn hk
                      constructor
                      · rw [dispF]
                        rw [if_neg hr]
                        by_cases hh : has = true
                        · rw [if_neg (not_not_intro hh)]
                          dsimp only
                          rw [if_pos rfl]
                          exact hd
                        · rw [if_pos hh]
                      · rw [kindOkF]
                        rw [if_neg hr]
                        dsimp only
                        rw [if_pos (by decide)]
                        simp only [hck]
                        exact hkk
                    · rw [if_neg hG]
                      by_cases hP : tn0 = "Pose"
                      · subst hP
                        rw [if_pos rfl]
                        rw [if_pos (by decide)] at hk
                        have hck : compositeKindOf "Pose" = WKind.kPose := rfl
                        simp only [hck] at hk
                        obtain ⟨hd, hkk⟩ := step_ok_poseC mi s
                          (scopedNameOf pre nm) nm .tMessage rep
                          (.mk "Pose" fs0) hsn hk
                        constructor
                        · rw [dispF]
                          rw [if_neg hr]
                          by_cases hh : has = true
                          · rw [if_neg (not_not_intro hh)]
                            dsimp only
                            rw [if_neg (by decide), if_pos rfl]
                            exact hd
                          · rw [if_pos hh]
                        · rw [kindOkF]
                          rw [if_neg hr]
                          dsimp only
                          rw [if_pos (by decide)]
                          simp only [hck]
                          exact hkk
                      · rw [if_neg hP]
                        by_cases hV : tn0 = "Vector3d"
                        · subst hV
                          rw [if_pos rfl]
                          rw [if_pos (by decide)] at hk
                          have hck : compositeKindOf "Vector3d" = WKind.kVec3 :=
                            rfl
                          simp only [hck] at hk
                          obtain ⟨hd, hkk⟩ := step_ok_vec3C s
                            (scopedNameOf pre nm) nm .tMessage rep
                            (.mk "Vector3d" fs0) hsn hk
                          constructor
                          · rw [dispF]
                            rw [if_neg hr]
                            by_cases hh : has = true
                            · rw [if_neg (not_not_intro hh)]
                              dsimp only
                              rw [if_neg (by decide), if_neg (by decide),
                                if_pos rfl]
                              exact hd
                            · rw [if_pos hh]
                          · rw [kindOkF]
                            rw [if_neg hr]
                            dsimp only
                            rw [if_pos (by decide)]
                            simp only [hck]
                            exact hkk
                        · rw [if_neg hV]
                          by_cases hC : tn0 = "Color"
                          · subst hC
                            rw [if_pos rfl]
                            rw [if_pos (by decide)] at hk
                            have hck : compositeKindOf "Color" = WKind.kColor :=
                              rfl
                            simp only [hck] at hk
                            obtain ⟨hd, hkk⟩ := step_ok_colorC s
                              (scopedNameOf pre nm) nm .tMessage rep
                              (.mk "Color" fs0) hsn hk
                            constructor
                            · rw [dispF]
                              rw [if_neg hr]
                              by_cases hh : has = true
                              · rw [if_neg (not_not_intro hh)]
                                dsimp only
                                rw [if_neg (by decide), if_neg (by decide),
                                  if_neg (by decide), if_pos rfl]
                                exact hd
                              · rw [if_pos hh]
                            · rw [kindOkF]
                              rw [if_neg hr]
                              dsimp only
                              rw [if_pos (by decide)]
                              simp only [hck]
                              exact hkk
                          · rw [if_neg hC]
                            by_cases hD : tn0 = "Density"
                            · subst hD
                              rw [if_pos rfl]
                              rw [if_pos (by decide)] at hk
                              have hck :
                                  compositeKindOf "Density" = WKind.kDensity :=
                                rfl
                              simp only [hck] at hk
                              obtain ⟨hd, hkk⟩ := step_ok_densC s
                                (scopedNameOf pre nm) nm .tMessage rep
                                (.mk "Density" fs0) hsn hk
                              constructor
                              · rw [dispF]
                                rw [if_neg hr]
                                by_cases hh : has = true
                                · rw [if_neg (not_not_intro hh)]
                                  dsimp only
                                  rw [if_neg (by decide), if_neg (by decide),
                                    if_neg (by decide), if_neg (by decide),
                                    if_pos rfl]
                                  exact hd
                                · rw [if_pos hh]
                              · rw [kindOkF]
                                rw [if_neg hr]
                                dsimp only
                                rw [if_pos (by decide)]
                                simp only [hck]
                                exact hkk
                            · rw [if_neg hD]
                              have hc :
                                  ¬(compositeNames.contains tn0 = true) := by
                                simp [compositeNames, hG, hP, hV, hC, hD]
                              rw [if_neg hc] at hmatch hnd hk
                              rw [List.nodup_cons] at hnd
                              obtain ⟨hnot, hnd2⟩ := hnd
                              rcases hpm : parseMsg mi upd
                                  (scopedNameOf pre nm) (lvl + 1) s
                                  (.mk tn0 fs0) with ⟨m1, s1, created⟩
                              have hrec := parseMsg_dispkind mi upd
                                (scopedNameOf pre nm) (lvl + 1) s
                                (.mk tn0 fs0) hmatch hnd2 hk
                              rw [hpm] at hrec
                              dsimp only [PMsg.fields] at hrec
                              obtain ⟨hdL, hkL⟩ := hrec
                              simp only [hpm]
                              have hagree : ∀ x ∈
                                  pathNamesL (scopedNameOf pre nm) fs0,
                                  (genericWrapStep s1 (scopedNameOf pre nm)
                                    (s.lookupW (scopedNameOf pre nm)) nm
                                    .tMessage rep m1 created).2.1.lookupW x =
                                    s1.lookupW x := by
                                intro x hx
                                exact genericWrapStep_frame s1
                                  (scopedNameOf pre nm)
                                  (s.lookupW (scopedNameOf pre nm)) nm
                                  .tMessage rep m1 created x
                                  (fun he => hnot (he ▸ hx))
                              constructor
                              · rw [dispF]
                                rw [if_neg hr]
                                by_cases hh : has = true
                                · rw [if_neg (not_not_intro hh)]
                                  dsimp only
                                  rw [if_neg hG, if_neg hP, if_neg hV,
                                    if_neg hC, if_neg hD]
                                  rw [dispL_congr mi s1 _
                                    (scopedNameOf pre nm) fs0 hagree]
                                  exact hdL
                                · rw [if_pos hh]
                              · rw [kindOkF]
                                rw [if_neg hr]
                                dsimp only
                                rw [if_neg hc]
                                rw [kindOkL_congr s1 _
                                  (scopedNameOf pre nm) fs0 hagree]
                                exact hkL
            · constructor
              · rw [dispF]
                rw [if_neg hr]
                by_cases hh : has = true
                · rw [if_neg (not_not_intro hh)]
                · rw [if_pos hh]
              · rw [kindOkF]
                rw [if_neg hr]
          · -- tEnum
            dsimp only at hk
            obtain ⟨hd, hkk⟩ := step_ok_enum s (scopedNameOf pre nm)
              (.mk nm .tEnum rep has v) hsn hk
            constructor
            · rw [dispF]
              rw [if_neg hr]
              by_cases hh : has = true
              · rw [if_neg (not_not_intro hh)]
                dsimp only
                exact hd
              · rw [if_pos hh]
            · rw [kindOkF]
              rw [if_neg hr]
              dsimp only
              exact hkk
          · -- tOther
            constructor
            · rw [dispF]
              rw [if_neg hr]
              by_cases hh : has = true
              · rw [if_neg (not_not_intro hh)]
                rfl
              · rw [if_pos hh]
            · rw [kindOkF]
              rw [if_neg hr]
              dsimp only
              exact hk

theorem parseFields_dispkind (mi : MathImpl) (upd : Bool) (pre : String)
    (lvl : ℕ) (s : WState) (fl : PFieldList)
    (hne : fl.neNamesL = true) (hnd : (pathNamesL pre fl).Nodup)
    (hk : kindOkL s pre fl = true) :
    dispL mi (parseFields mi upd pre lvl s fl).2.1 pre fl = true ∧
    kindOkL (parseFields mi upd pre lvl s fl).2.1 pre fl = true := by
  cases fl with
  | nil =>
      constructor
      · rw [parseFields]
        rw [dispL]
      · rw [parseFields]
        rw [kindOkL]
  | cons f t =>
      rw [PFieldList.neNamesL, Bool.and_eq_true] at hne
      obtain ⟨hne1, hne2⟩ := hne
      rw [pathNamesL, List.nodup_append] at hnd
      obtain ⟨hnd1, hnd2, hdisj⟩ := hnd
      rw [kindOkL, Bool.and_eq_true] at hk
      obtain ⟨hk1, hk2⟩ := hk
      rw [parseFields]
      rcases hf : parseField mi upd pre lvl s f with ⟨f', s', c1⟩
      rcases ht : parseFields mi upd pre lvl s' t with ⟨t', s'', c2⟩
      have hhead := parseField_dispkind mi upd pre lvl s f hne1 hnd1 hk1
      rw [hf] at hhead
      obtain ⟨hd1, hk1x⟩ := hhead
      have hagree1 : ∀ x ∈ pathNamesL pre t, s'.lookupW x = s.lookupW x := by
        intro x hx
        have hxn : x ∉ pathNamesF pre f := fun hmem => hdisj hmem hx
        have h0 := parseField_frame mi upd pre lvl s f x hxn
        rw [hf] at h0
        exact h0
      have hk2x : kindOkL s' pre t = true := by
        rw [kindOkL_congr s s' pre t hagree1]
        exact hk2
      have htail := parseFields_dispkind mi upd pre lvl s' t hne2 hnd2 hk2x
      rw [ht] at htail
      obtain ⟨hd2, hk2y⟩ := htail
      have hagree2 : ∀ x ∈ pathNamesF pre f,
          s''.lookupW x = s'.lookupW x := by
        intro x hx
        have hxn : x ∉ pathNamesL pre t := fun hmem => hdisj hx hmem
        have h0 := parseFields_frame mi upd pre lvl s' t x hxn
        rw [ht] at h0
        exact h0
      simp only [hf, ht]
      constructor
      · rw [dispL]
        rw [Bool.and_eq_true]
        exact ⟨by rw [dispF_congr mi s' s'' pre f hagree2]; exact hd1, hd2⟩
      · rw [kindOkL]
        rw [Bool.and_eq_true]
        exact ⟨by rw [kindOkF_congr s' s'' pre f hagree2]; exact hk1x, hk2y⟩

theorem parseMsg_dispkind (mi : MathImpl) (upd : Bool) (pre : String)
    (lvl : ℕ) (s : WState) (m : PMsg)
    (hne : m.fields.neNamesL = true)
    (hnd : (pathNamesL pre m.fields).Nodup)
    (hk : kindOkL s pre m.fields = true) :
    dispL mi (parseMsg mi upd pre lvl s m).2.1 pre m.fields = true ∧
    kindOkL (parseMsg mi upd pre lvl s m).2.1 pre m.fields = true := by
  cases m with
  | mk tn fs =>
      dsimp only [PMsg.fields] at hne hnd hk ⊢
      rw [parseMsg]
      rcases hpf : parseFields mi upd pre lvl s fs with ⟨fs', s', c⟩
      have h0 := parseFields_dispkind mi upd pre lvl s fs hne hnd hk
      rw [hpf] at h0
      simp only [hpf]
      exact h0

end

theorem enumAll_schema (v v' : PValue) (h : v.sameSchemaV v' = true) :
    v.enumAll = v'.enumAll := by
  cases v <;> cases v' <;>
    first
    | rfl
    | (refine absurd h ?_
       simp [PValue.sameSchemaV]
       done)
    | (simp only [PValue.sameSchemaV, decide_eq_true_eq] at h
       simp [PValue.enumAll, h])

theorem kindLeafOk_schema (w : PWidget) (ft : FType) (f f' : PField)
    (he : f.enumNames = f'.enumNames) :
    kindLeafOk w ft f = kindLeafOk w ft f' := by
  cases ft
  · rfl
  · rfl
  · rfl
  · rfl
  · rfl
  · rfl
  · rfl
  · rfl
  · rfl
  · unfold kindLeafOk
    rw [he]
  · rfl

mutual

theorem neNamesF_schema (f f' : PField) (h : f.sameSchemaF f' = true) :
    f.neNamesF = f'.neNamesF := by
  cases f with
  | mk n t r hb v =>
      cases f' with
      | mk n' t' r' hb' v' =>
          rw [PField.sameSchemaF] at h
          simp only [Bool.and_eq_true, decide_eq_true_eq] at h
          obtain ⟨⟨⟨hn, ht⟩, hr⟩, hv⟩ := h
          subst hn
          subst ht
          subst hr
          rw [PField.neNamesF.eq_def, PField.neNamesF.eq_def]
          dsimp only
          cases t
          · rfl
          · rfl
          · rfl
          · rfl
          · rfl
          · rfl
          · rfl
          · rfl
          · cases v <;> cases v' <;>
              first
              | rfl
              | (refine absurd hv ?_
                 simp [PValue.sameSchemaV]
                 done)
              | (rename_i m0 m0'
                 simp only [PValue.sameSchemaV] at hv
                 cases m0 with
                 | mk tn0 fs0 =>
                     cases m0' with
                     | mk tn0' fs0' =>
                         rw [PMsg.sameSchemaM] at hv
                         simp only [Bool.and_eq_true, decide_eq_true_eq]
                           at hv
                         obtain ⟨htn, hfs⟩ := hv
                         subst htn
                         dsimp only
                         rw [neNamesL_schema fs0 fs0' hfs])
          · rfl
          · rfl

theorem neNamesL_schema (fl fl' : PFieldList)
    (h : fl.sameSchemaL fl' = true) : fl.neNamesL = fl'.neNamesL := by
  cases fl with
  | nil =>
      cases fl' with
      | nil => rfl
      | cons f' t' => simp [PFieldList.sameSchemaL] at h
  | cons f t =>
      cases fl' with
      | nil => simp [PFieldList.sameSchemaL] at h
      | cons f' t' =>
          rw [PFieldList.sameSchemaL, Bool.and_eq_true] at h
          rw [PFieldList.neNamesL, PFieldList.neNamesL]
          rw [neNamesF_schema f f' h.1, neNamesL_schema t t' h.2]

end

mutual

theorem pathNamesF_schema (pre : String) (f f' : PField)
    (h : f.sameSchemaF f' = true) :
    pathNamesF pre f = pathNamesF pre f' := by
  cases f with
  | mk n t r hb v =>
      cases f' with
      | mk n' t' r' hb' v' =>
          rw [PField.sameSchemaF] at h
          simp only [Bool.and_eq_true, decide_eq_true_eq] at h
          obtain ⟨⟨⟨hn, ht⟩, hr⟩, hv⟩ := h
          subst hn
          subst ht
          subst hr
          rw [pathNamesF, pathNamesF]
          cases t
          · rfl
          · rfl
          · rfl
          · rfl
          · rfl
          · rfl
          · rfl
          · rfl
          · cases v <;> cases v' <;>
              first
              | rfl
              | (refine absurd hv ?_
                 simp [PValue.sameSchemaV]
                 done)
              | (rename_i m0 m0'
                 simp only [PValue.sameSchemaV] at hv
                 cases m0 with
                 | mk tn0 fs0 =>
                     cases m0' with
                     | mk tn0' fs0' =>
                         rw [PMsg.sameSchemaM] at hv
                         simp only [Bool.and_eq_true, decide_eq_true_eq]
                           at hv
                         obtain ⟨htn, hfs⟩ := hv
                         subst htn
                         dsimp only
                         rw [pathNamesL_schema (scopedNameOf pre n) fs0
                           fs0' hfs])
          · rfl
          · rfl

theorem pathNamesL_schema (pre : String) (fl fl' : PFieldList)
    (h : fl.sameSchemaL fl' = true) :
    pathNamesL pre fl = pathNamesL pre fl' := by
  cases fl with
  | nil =>
      cases fl' with
      | nil => rfl
      | cons f' t' => simp [PFieldList.sameSchemaL] at h
  | cons f t =>
      cases fl' with
      | nil => simp [PFieldList.sameSchemaL] at h
      | cons f' t' =>
          rw [PFieldList.sameSchemaL, Bool.and_eq_true] at h
          rw [pathNamesL, pathNamesL]
          rw [pathNamesF_schema pre f f' h.1, pathNamesL_schema pre t t' h.2]

end

mutual

theorem kindOkF_schema (s : WState) (pre : String) (f f' : PField)
    (h : f.sameSchemaF f' = true) : kindOkF s pre f = kindOkF s pre f' := by
  cases f with
  | mk n t r hb v =>
      cases f' with
      | mk n' t' r' hb' v' =>
          rw [PField.sameSchemaF] at h
          simp only [Bool.and_eq_true, decide_eq_true_eq] at h
          obtain ⟨⟨⟨hn, ht⟩, hr⟩, hv⟩ := h
          subst hn
          subst ht
          subst hr
          rw [kindOkF, kindOkF]
          cases t
          · rfl
          · rfl
          · rfl
          · rfl
          · rfl
          · rfl
          · rfl
          · rfl
          · cases v <;> cases v' <;>
              first
              | rfl
              | (refine absurd hv ?_
                 simp [PValue.sameSchemaV]
                 done)
              | (rename_i m0 m0'
                 simp only [PValue.sameSchemaV] at hv
                 cases m0 with
                 | mk tn0 fs0 =>
                     cases m0' with
                     | mk tn0' fs0' =>
                         rw [PMsg.sameSchemaM] at hv
                         simp only [Bool.and_eq_true, decide_eq_true_eq]
                           at hv
                         obtain ⟨htn, hfs⟩ := hv
                         subst htn
                         dsimp only
                         rw [kindOkL_schema s (scopedNameOf pre n) fs0
                           fs0' hfs])
          · -- tEnum: the registered widget must carry the field's value
            -- names, which the schema determines
            have he : (PField.mk n .tEnum r hb v).enumNames =
                (PField.mk n .tEnum r hb' v').enumNames := by
              dsimp only [PField.enumNames, PField.val]
              exact enumAll_schema v v' hv
            by_cases hrr : r = true
            · rw [if_pos hrr, if_pos hrr]
            · rw [if_neg hrr, if_neg hrr]
              dsimp only
              cases s.lookupW (scopedNameOf pre n) with
              | none => rfl
              | some st => exact kindLeafOk_schema st.w .tEnum _ _ he
          · rfl

theorem kindOkL_schema (s : WState) (pre : String) (fl fl' : PFieldList)
    (h : fl.sameSchemaL fl' = true) :
    kindOkL s pre fl = kindOkL s pre fl' := by
  cases fl with
  | nil =>
      cases fl' with
      | nil => rfl
      | cons f' t' => simp [PFieldList.sameSchemaL] at h
  | cons f t =>
      cases fl' with
      | nil => simp [PFieldList.sameSchemaL] at h
      | cons f' t' =>
          rw [PFieldList.sameSchemaL, Bool.and_eq_true] at h
          rw [kindOkL, kindOkL]
          rw [kindOkF_schema s pre f f' h.1, kindOkL_schema s pre t t' h.2]

end

mutual

theorem kindOkF_of_none (s : WState) (pre : String) (f : PField)
    (h : ∀ x, s.lookupW x = none) : kindOkF s pre f = true := by
  cases f with
  | mk n t r hb v =>
      rw [kindOkF]
      by_cases hr : r = true
      · rw [if_pos hr]
      · rw [if_neg hr]
        dsimp only
        cases t
        · rw [h (scopedNameOf pre n)]
        · rw [h (scopedNameOf pre n)]
        · rw [h (scopedNameOf pre n)]
        · rw [h (scopedNameOf pre n)]
        · rw [h (scopedNameOf pre n)]
        · rw [h (scopedNameOf pre n)]
        · rw [h (scopedNameOf pre n)]
        · rw [h (scopedNameOf pre n)]
        · cases v
          · rfl
          · rfl
          · rfl
          · rfl
          · rfl
          · next m0 =>
              cases m0 with
              | mk tn0 fs0 =>
                  dsimp only
                  by_cases hc : compositeNames.contains tn0 = true
                  · rw [if_pos hc]
                    rw [h (scopedNameOf pre n)]
                  · rw [if_neg hc]
                    exact kindOkL_of_none s (scopedNameOf pre n) fs0 h
          · rfl
        · rw [h (scopedNameOf pre n)]
        · rw [h (scopedNameOf pre n)]

theorem kindOkL_of_none (s : WState) (pre : String) (fl : PFieldList)
    (h : ∀ x, s.lookupW x = none) : kindOkL s pre fl = true := by
  cases fl with
  | nil => rw [kindOkL]
  | cons f t =>
      rw [kindOkL]
      rw [kindOkF_of_none s pre f h, kindOkL_of_none s pre t h]
      rfl

end

/-- Claim C2 (amended): message-to-widget synchronization.  Loading `m`
and then calling `UpdateFromMsg` with a same-schema `m'` makes the
internal copy equal to `m'` up to presence marks (the parse walk's
`MutableMessage` calls may set has-bits of nested submessages), and every
field of `m'` then passes the display check `dispL`: each present,
non-repeated field of supported type whose scoped name has a registered
widget displays exactly that field's value, recursively through nested
messages.  Absent fields are skipped by the update pass, so their widgets
may retain stale values — `dispL` is vacuous there. -/
theorem c2_message_to_widget_sync (mi : MathImpl) (m m' : PMsg)
    (hs : m.sameSchemaM m' = true)
    (hne : m'.fields.neNamesL = true)
    (hnd : (pathNamesL "" m'.fields).Nodup) :
    (updateFromMsg mi m' (load mi m)).msg.eraseHasM = m'.eraseHasM ∧
    dispL mi (updateFromMsg mi m' (load mi m)).ws "" m'.fields = true := by
  have hfs : m.fields.sameSchemaL m'.fields = true := by
    cases m with
    | mk tn fs =>
        cases m' with
        | mk tn' fs' =>
            rw [PMsg.sameSchemaM, Bool.and_eq_true] at hs
            exact hs.2
  have hne_m : m.fields.neNamesL = true := by
    rw [neNamesL_schema m.fields m'.fields hfs]
    exact hne
  have hnd_m : (pathNamesL "" m.fields).Nodup := by
    rw [pathNamesL_schema "" m.fields m'.fields hfs]
    exact hnd
  have hk0 : kindOkL emptyWS "" m.fields = true :=
    kindOkL_of_none emptyWS "" m.fields (fun x => rfl)
  have hload := parseMsg_dispkind mi false "" 0 emptyWS m hne_m hnd_m hk0
  have hlw : (load mi m).ws = (parseMsg mi false "" 0 emptyWS m).2.1 := by
    unfold load
    rcases hp : parseMsg mi false "" 0 emptyWS m with ⟨mL, wsL, cL⟩
    simp only [hp]
  have hk1 : kindOkL (load mi m).ws "" m'.fields = true := by
    rw [hlw, ← kindOkL_schema (parseMsg mi false "" 0 emptyWS m).2.1 ""
      m.fields m'.fields hfs]
    exact hload.2
  have hupd := parseMsg_dispkind mi true "" 0 (load mi m).ws m' hne hnd hk1
  have herase := parseMsg_eraseHas mi true "" 0 (load mi m).ws m'
  have hum : (updateFromMsg mi m' (load mi m)).msg =
      (parseMsg mi true "" 0 (load mi m).ws m').1 := by
    unfold updateFromMsg
    rcases hp : parseMsg mi true "" 0 (load mi m).ws m' with ⟨mU, wsU, cU⟩
    simp only [hp]
  have huw : (updateFromMsg mi m' (load mi m)).ws =
      (parseMsg mi true "" 0 (load mi m).ws m').2.1 := by
    unfold updateFromMsg
    rcases hp : parseMsg mi true "" 0 (load mi m).ws m' with ⟨mU, wsU, cU⟩
    simp only [hp]
  refine ⟨?_, ?_⟩
  · rw [hum]
    exact herase
  · rw [huw]
    exact hupd.1

/-- C2 counterexample: the claim as stated fails.  Load the message with
field `a = 5` present, then `UpdateFromMsg` with the same-typed message
whose field `a` is absent: the update pass skips unset fields, so the
registered property widget for `a` still shows the stale value 5, while
the corresponding field of the argument message reads 0 — the widget does
not display the new message's field value. -/
theorem c2_absent_field_stale_widget :
    (PMsg.mk "M" (.cons (.mk "a" .tDouble false true (.num 5))
        .nil)).sameSchemaM
      (PMsg.mk "M" (.cons (.mk "a" .tDouble false false (.num 0)) .nil)) =
      true ∧
    ((updateFromMsg dummyMath
        (PMsg.mk "M" (.cons (.mk "a" .tDouble false false (.num 0)) .nil))
        (load dummyMath (PMsg.mk "M" (.cons (.mk "a" .tDouble false true
          (.num 5)) .nil)))).ws.lookupW "a").isSome = true ∧
    (updateFromMsg dummyMath
        (PMsg.mk "M" (.cons (.mk "a" .tDouble false false (.num 0)) .nil))
        (load dummyMath (PMsg.mk "M" (.cons (.mk "a" .tDouble false true
          (.num 5)) .nil)))).ws.doubleWidgetValue "a" = 5 ∧
    (PField.mk "a" .tDouble false false (.num 0)).getNum = 0 ∧
    (5 : ℚ) ≠ 0 := by
  have hld : load dummyMath (PMsg.mk "M" (.cons (.mk "a" .tDouble false
      true (.num 5)) .nil)) =
      ⟨PMsg.mk "M" (.cons (.mk "a" .tDouble false true (.num 5)) .nil),
       ⟨[("a", ⟨"a", 0, false, true, .doubleW 5⟩)], 1⟩⟩ := by
    unfold load
    simp [parseMsg, parseFields, parseField, scopedNameOf, leafStep,
      WState.handleLeaf, WState.addPropertyWidget, WState.lookupW,
      PField.getNum, PWidget.updateDoubleWidget, emptyWS, PField.hasF,
      PField.val, PValue.numD, List.find?]
  have hup : updateFromMsg dummyMath
      (PMsg.mk "M" (.cons (.mk "a" .tDouble false false (.num 0)) .nil))
      ⟨PMsg.mk "M" (.cons (.mk "a" .tDouble false true (.num 5)) .nil),
       ⟨[("a", ⟨"a", 0, false, true, .doubleW 5⟩)], 1⟩⟩ =
      ⟨PMsg.mk "M" (.cons (.mk "a" .tDouble false false (.num 0)) .nil),
       ⟨[("a", ⟨"a", 0, false, true, .doubleW 5⟩)], 1⟩⟩ := by
    unfold updateFromMsg
    simp [parseMsg, parseFields, parseField]
  rw [hld, hup]
  refine ⟨?_, rfl, rfl, rfl, ?_⟩
  · simp [PMsg.sameSchemaM, PFieldList.sameSchemaL, PField.sameSchemaF,
      PValue.sameSchemaV]
  · norm_num

/-- Witness for C2: loading the one-field message with `a = 1` and
updating from the same-schema message with `a = 2` present — the copy
tracks the new message up to presence marks and the widget displays the
new value. -/
theorem c2_message_to_widget_sync_witness :
    (PMsg.mk "M" (.cons (.mk "a" .tDouble false true (.num 1))
        .nil)).sameSchemaM
      (PMsg.mk "M" (.cons (.mk "a" .tDouble false true (.num 2)) .nil)) =
      true ∧
    (PMsg.mk "M" (.cons (.mk "a" .tDouble false true
      (.num 2)) .nil)).fields.neNamesL = true ∧
    (pathNamesL "" (PMsg.mk "M" (.cons (.mk "a" .tDouble false true
      (.num 2)) .nil)).fields).Nodup ∧
    ((updateFromMsg dummyMath (PMsg.mk "M" (.cons (.mk "a" .tDouble false
          true (.num 2)) .nil))
        (load dummyMath (PMsg.mk "M" (.cons (.mk "a" .tDouble false true
          (.num 1)) .nil)))).msg.eraseHasM =
        (PMsg.mk "M" (.cons (.mk "a" .tDouble false true
          (.num 2)) .nil)).eraseHasM ∧
     dispL dummyMath (updateFromMsg dummyMath (PMsg.mk "M" (.cons
          (.mk "a" .tDouble false true (.num 2)) .nil))
        (load dummyMath (PMsg.mk "M" (.cons (.mk "a" .tDouble false true
          (.num 1)) .nil)))).ws ""
        (PMsg.mk "M" (.cons (.mk "a" .tDouble false true
          (.num 2)) .nil)).fields = true) :=
  ⟨by simp [PMsg.sameSchemaM, PFieldList.sameSchemaL, PField.sameSchemaF,
      PValue.sameSchemaV],
   rfl,
   by simp [pathNamesL, pathNamesF, scopedNameOf],
   c2_message_to_widget_sync dummyMath _ _
     (by simp [PMsg.sameSchemaM, PFieldList.sameSchemaL,
        PField.sameSchemaF, PValue.sameSchemaV])
     rfl
     (by simp [pathNamesL, pathNamesF, scopedNameOf])⟩

end IgnGui
